import Mathlib

/-!
# WAVM runtime: linear memory and numeric operator lowering

A shallow embedding of `Lib/Runtime/Memory.cpp` and of the integer and SIMD parts of
`Lib/Runtime/LLVMEmitNumeric.cpp`.

Machine words (`Uptr`, `U64`, pointers) are natural numbers below `2 ^ 64`; every
C++ operation that can wrap is written with an explicit `% 2 ^ 64`. `Iptr` results
are integers obtained from the word by the two's complement reading `toIptr`.
-/

namespace WAVM

/-! ## Machine words -/

/-- Number of values of the 64-bit machine word (`Uptr`, `U64`, `U8*`). -/
def wordSize : Nat := 2 ^ 64

/-- Conversion of a `Uptr` to an `Iptr`, as done by `return previousNumPages;` in a
function whose return type is `Iptr`: the two's complement reading of the word. -/
def toIptr (x : Nat) : Int :=
  if x % wordSize < 2 ^ 63 then ((x % wordSize : Nat) : Int)
  else ((x % wordSize : Nat) : Int) - (wordSize : Int)

/-- Constant `IR::numBytesPerPageLog2`: a WebAssembly page is 65536 bytes. -/
def numBytesPerPageLog2 : Nat := 16

/-! ## Data model of `Memory.cpp` -/

/-- Range `{min, max}` of a memory type, in WebAssembly pages (both `U64`). -/
structure SizeConstraints where
  min : Nat
  max : Nat
deriving DecidableEq, Repr

/-- The `MemoryType` of a memory instance; only its `size` is read by `Memory.cpp`. -/
structure MemoryType where
  size : SizeConstraints
deriving DecidableEq, Repr

/-- The fields of `Runtime::MemoryInstance`. `compartment` is a handle naming the
owning compartment, `baseAddress` the numeric value of the `U8*`. -/
structure MemoryInstance where
  compartment : Nat
  type : MemoryType
  baseAddress : Nat
  endOffset : Nat
  numPages : Nat
  id : Nat
deriving DecidableEq, Repr

/-- Every field of the memory that is a machine word fits the 64-bit word. -/
def MemoryInstance.WordSized (m : MemoryInstance) : Prop :=
  m.type.size.min < wordSize ∧ m.type.size.max < wordSize ∧ m.baseAddress < wordSize ∧
    m.endOffset < wordSize ∧ m.numPages < wordSize

instance (m : MemoryInstance) : Decidable m.WordSized := by
  unfold MemoryInstance.WordSized; infer_instance

/-- The host platform as far as `Memory.cpp` consults it: the page size, the answer of
`Platform::commitVirtualPages(baseVirtualAddress, numPages)`, and the address returned by
`Platform::allocateVirtualPages(numPages)` (0 is the null pointer). -/
structure Platform where
  pageSizeLog2 : Nat
  commitVirtualPages : Nat → Nat → Bool
  allocateVirtualPages : Nat → Nat := fun _ => 0

/-- Source function `getPlatformPagesPerWebAssemblyPageLog2`; `none` is the fatal error
raised by `errorUnless(Platform::getPageSizeLog2() <= IR::numBytesPerPageLog2)`. -/
def getPlatformPagesPerWebAssemblyPageLog2 (P : Platform) : Option Nat :=
  if P.pageSizeLog2 ≤ numBytesPerPageLog2 then some (numBytesPerPageLog2 - P.pageSizeLog2)
  else none

/-- Source function `Runtime::growMemory`. The result is `none` when the process is
aborted by `errorUnless`, otherwise the `Iptr` returned together with the memory as it
is after the call. -/
def growMemory (P : Platform) (memory : MemoryInstance) (numNewPages : Nat) :
    Option (Int × MemoryInstance) :=
  let previousNumPages := memory.numPages
  if numNewPages > 0 then
    if numNewPages > memory.type.size.max
        ∨ memory.numPages > (memory.type.size.max + wordSize - numNewPages) % wordSize then
      some (-1, memory)
    else
      match getPlatformPagesPerWebAssemblyPageLog2 P with
      | none => none
      | some pagesLog2 =>
        if ! P.commitVirtualPages
            ((memory.baseAddress + (memory.numPages <<< numBytesPerPageLog2) % wordSize)
              % wordSize)
            ((numNewPages <<< pagesLog2) % wordSize) then
          some (-1, memory)
        else
          some (toIptr previousNumPages,
            { memory with numPages := (memory.numPages + numNewPages) % wordSize })
  else
    some (toIptr previousNumPages, memory)

/-- Source function `Runtime::shrinkMemory`. `Platform::decommitVirtualPages` returns
nothing and does not touch the `MemoryInstance`; the only trace it leaves here is the
fatal error of `getPlatformPagesPerWebAssemblyPageLog2` evaluated for its argument. -/
def shrinkMemory (P : Platform) (memory : MemoryInstance) (numPagesToShrink : Nat) :
    Option (Int × MemoryInstance) :=
  let previousNumPages := memory.numPages
  if numPagesToShrink > 0 then
    if numPagesToShrink > memory.numPages
        ∨ (memory.numPages + wordSize - numPagesToShrink) % wordSize
            < memory.type.size.min then
      some (-1, memory)
    else
      let memory1 : MemoryInstance :=
        { memory with numPages := (memory.numPages + wordSize - numPagesToShrink) % wordSize }
      match getPlatformPagesPerWebAssemblyPageLog2 P with
      | none => none
      | some _ => some (toIptr previousNumPages, memory1)
  else
    some (toIptr previousNumPages, memory)

/-- Kinds of trap raised by the runtime and by compiled code. -/
inductive TrapKind where
  | divideByZero
  | integerOverflow
  | accessViolation
deriving DecidableEq, Repr

/-- Modelled from the spec: `Platform::saturateToBounds(value, maxValue)`, declared in a
platform header that is not part of the sources at hand; the spec calls it
`saturate(offset, endOffset)`, the value clamped to the bound. -/
def saturateToBounds (value maxValue : Nat) : Nat :=
  if value > maxValue then maxValue else value

/-- Source function `Runtime::getValidatedMemoryOffsetRange`, for a non-null `memory`
(the function reads `memory->baseAddress` before it tests the pointer). Pointer
arithmetic is arithmetic of 64-bit words. -/
def getValidatedMemoryOffsetRange (memory : MemoryInstance) (offset numBytes : Nat) :
    Except TrapKind Nat :=
  let address := (memory.baseAddress + saturateToBounds offset memory.endOffset) % wordSize
  if address < memory.baseAddress ∨ (address + numBytes) % wordSize < address
      ∨ (address + numBytes) % wordSize > (memory.baseAddress + memory.endOffset) % wordSize then
    Except.error TrapKind.accessViolation
  else
    Except.ok address

/-- Source function `Runtime::isAddressOwnedByMemory`, run on the contents `memories` of
the global registry: the loop returns at the first memory whose reservation holds the
address. -/
def isAddressOwnedByMemory : List MemoryInstance → Nat → Bool
  | [], _ => false
  | memory :: rest, address =>
    let startAddress := memory.baseAddress
    let endAddress := (memory.baseAddress + memory.endOffset) % wordSize
    if address ≥ startAddress ∧ address < endAddress then true
    else isAddressOwnedByMemory rest address

/-! ## Concrete inputs used by the witnesses -/

/-- The memory of scenario S5 after `createMemory`: one committed page, at most three. -/
def memS5 : MemoryInstance :=
  { compartment := 0, type := { size := { min := 1, max := 3 } }, baseAddress := 65536,
    endOffset := 8589934592, numPages := 1, id := 0 }

/-- A platform with 4 KiB pages on which every reservation and every commit succeeds. -/
def platformOk : Platform :=
  { pageSizeLog2 := 12, commitVirtualPages := fun _ _ => true,
    allocateVirtualPages := fun _ => 65536 }


/-- Memory A of scenario S6: an 8 GiB reservation at 64 KiB. -/
def memA : MemoryInstance :=
  { compartment := 0, type := { size := { min := 1, max := 3 } }, baseAddress := 65536,
    endOffset := 8589934592, numPages := 1, id := 0 }

/-- Memory B of scenario S6: an 8 GiB reservation placed after A and its guard page. -/
def memB : MemoryInstance :=
  { compartment := 0, type := { size := { min := 0, max := 65536 } },
    baseAddress := 17179869184, endOffset := 8589934592, numPages := 0, id := 1 }

/-! ## Host IR: values, instructions with undefined cases, runs of emitted code

`LLVMEmitNumeric.cpp` emits host IR at compile time. The embedding gives every emitter
function the meaning of the code it emits: a function from the run-time values of the
operand SSA nodes to a `Run`, which records the outcome and, in order, every native
instruction with undefined cases that the emitted code executed. An integer SSA value
of an `n`-bit type is the natural number below `2 ^ n` with the same bits. -/

/-- The `IR::ValueType` tags named by the spec. -/
inductive ValueType where
  | i32
  | i64
  | f32
  | f64
  | v128
deriving DecidableEq, Repr

/-- Modelled from the spec: `getTypeBitWidth` of `IR/Types.h`, a header that is not
among the sources at hand; the bit width carried by each value type. -/
def getTypeBitWidth : ValueType → Nat
  | ValueType.i32 => 32
  | ValueType.i64 => 64
  | ValueType.f32 => 32
  | ValueType.f64 => 64
  | ValueType.v128 => 128

/-- The host IR type `asLLVMType(type)`, represented by its width in bits. -/
def asLLVMType (type : ValueType) : Nat := getTypeBitWidth type

/-- Signed (two's complement) reading of an `n`-bit value. -/
def toSigned (n x : Nat) : Int :=
  if x < 2 ^ (n - 1) then (x : Int) else (x : Int) - ((2 ^ n : Nat) : Int)

/-- The `n`-bit value with the two's complement reading `i` (modulo `2 ^ n`). -/
def ofSigned (n : Nat) (i : Int) : Nat := (i % ((2 ^ n : Nat) : Int)).toNat

/-- Native instructions of the host IR whose result is undefined for some operands. -/
inductive NativeOp where
  | shl
  | lshr
  | ashr
  | sdiv
  | udiv
  | srem
  | urem
deriving DecidableEq, Repr

/-- One executed native instruction: which one, at which width, on which operands. -/
structure Issue where
  op : NativeOp
  bits : Nat
  left : Nat
  right : Nat
deriving DecidableEq, Repr

/-- How a piece of emitted code ends: with a value, on a trap edge, or in behaviour
the host IR leaves undefined. -/
inductive Outcome (α : Type) where
  | value (a : α)
  | trap (kind : TrapKind)
  | undefined
deriving DecidableEq, Repr

/-- A run of emitted code: the native instructions executed, in order, and the outcome. -/
structure Run (α : Type) where
  issued : List Issue
  outcome : Outcome α
deriving DecidableEq, Repr

/-- Emitted code that executes nothing and yields `a`. -/
def Run.pure {α : Type} (a : α) : Run α := { issued := [], outcome := Outcome.value a }

/-- Sequencing of emitted code: what follows runs only if the first part yields a value. -/
def Run.bind {α β : Type} (r : Run α) (f : α → Run β) : Run β :=
  match r.outcome with
  | Outcome.value a => { issued := r.issued ++ (f a).issued, outcome := (f a).outcome }
  | Outcome.trap kind => { issued := r.issued, outcome := Outcome.trap kind }
  | Outcome.undefined => { issued := r.issued, outcome := Outcome.undefined }

instance : Monad Run where
  pure := Run.pure
  bind := Run.bind

/-- Execution of one native instruction: it is recorded, and its result is the value
`result` or undefined. -/
def Run.native (op : NativeOp) (bits left right : Nat) (result : Option Nat) : Run Nat :=
  { issued := [{ op := op, bits := bits, left := left, right := right }],
    outcome := match result with
      | some v => Outcome.value v
      | none => Outcome.undefined }

/-- Host IR `shl`: undefined when the count is not below the width. -/
def CreateShl (bits left right : Nat) : Run Nat :=
  Run.native NativeOp.shl bits left right
    (if right < bits then some ((left <<< right) % 2 ^ bits) else none)

/-- Host IR `lshr` (logical shift right): undefined when the count is not below the width. -/
def CreateLShr (bits left right : Nat) : Run Nat :=
  Run.native NativeOp.lshr bits left right
    (if right < bits then some (left >>> right) else none)

/-- Host IR `ashr` (arithmetic shift right): undefined when the count is not below the
width. -/
def CreateAShr (bits left right : Nat) : Run Nat :=
  Run.native NativeOp.ashr bits left right
    (if right < bits then some (ofSigned bits (toSigned bits left >>> right)) else none)

/-- Host IR `sdiv`: the quotient rounded toward zero; undefined for a zero divisor and
for the overflowing pair (minimum value, -1). -/
def CreateSDiv (bits left right : Nat) : Run Nat :=
  Run.native NativeOp.sdiv bits left right
    (if right = 0 ∨ (left = 2 ^ (bits - 1) ∧ right = 2 ^ bits - 1) then none
     else some (ofSigned bits (Int.tdiv (toSigned bits left) (toSigned bits right))))

/-- Host IR `srem`: the remainder with the sign of the dividend; undefined for a zero
divisor and for the overflowing pair (minimum value, -1). -/
def CreateSRem (bits left right : Nat) : Run Nat :=
  Run.native NativeOp.srem bits left right
    (if right = 0 ∨ (left = 2 ^ (bits - 1) ∧ right = 2 ^ bits - 1) then none
     else some (ofSigned bits (Int.tmod (toSigned bits left) (toSigned bits right))))

/-- Host IR `udiv`: undefined for a zero divisor. -/
def CreateUDiv (bits left right : Nat) : Run Nat :=
  Run.native NativeOp.udiv bits left right (if right = 0 then none else some (left / right))

/-- Host IR `urem`: undefined for a zero divisor. -/
def CreateURem (bits left right : Nat) : Run Nat :=
  Run.native NativeOp.urem bits left right (if right = 0 then none else some (left % right))

/-- Host IR `sub` at width `bits`: wraps. -/
def CreateSub (bits left right : Nat) : Nat := (left + (2 ^ bits - right % 2 ^ bits)) % 2 ^ bits

/-- Host IR `and`. -/
def CreateAnd (left right : Nat) : Nat := left &&& right

/-- Host IR `or`. -/
def CreateOr (left right : Nat) : Nat := left ||| right

/-- Host IR `icmp ne`. -/
def CreateICmpNE (left right : Nat) : Bool := left != right

/-- Host IR `zext`: the value is unchanged. -/
def CreateZExt (value : Nat) : Nat := value

/-- The constant `typedZeroConstants[type]`. -/
def typedZeroConstants (_type : ValueType) : Nat := 0

/-! ## Trap builder -/

/-- Modelled from the spec: `trapDivideByZero(type, divisor)`, defined in a source file
that is not at hand; section 4.5 gives its predicate `divisor == 0` and its target, the
divide-by-zero trap. -/
def trapDivideByZero (type : ValueType) (divisor : Nat) : Run Unit :=
  if divisor = typedZeroConstants type then
    { issued := [], outcome := Outcome.trap TrapKind.divideByZero }
  else Run.pure ()

/-- Modelled from the spec: `trapDivideByZeroOrIntegerOverflow(type, dividend, divisor)`,
defined in a source file that is not at hand; by sections 4.2 and 4.5 a zero divisor
traps divide-by-zero, and the pair `dividend == INT_MIN_T && divisor == -1` traps
integer-overflow. -/
def trapDivideByZeroOrIntegerOverflow (type : ValueType) (dividend divisor : Nat) :
    Run Unit :=
  if divisor = typedZeroConstants type then
    { issued := [], outcome := Outcome.trap TrapKind.divideByZero }
  else if dividend = 2 ^ (getTypeBitWidth type - 1) ∧ divisor = 2 ^ getTypeBitWidth type - 1 then
    { issued := [], outcome := Outcome.trap TrapKind.integerOverflow }
  else Run.pure ()

/-! ## Integer operators of `LLVMEmitNumeric.cpp` -/

/-- Source function `EmitFunctionContext::emitSRem`. The conditional branch on
`noOverflow` either enters `sremNoOverflow`, which executes the native `srem`, or goes
straight to `sremEnd`, where the phi selects the zero constant. -/
def emitSRem (type : ValueType) (left right : Nat) : Run Nat := do
  trapDivideByZero type right
  let noOverflow : Bool :=
    CreateICmpNE left (if type = ValueType.i32 then 2147483648 else 9223372036854775808)
      || CreateICmpNE right (if type = ValueType.i32 then 4294967295 else 18446744073709551615)
  if noOverflow then
    let noOverflowValue ← CreateSRem (asLLVMType type) left right
    pure noOverflowValue
  else
    pure (typedZeroConstants type)

/-- Source function `emitShiftCountMask`: the count is and-ed with the `U8` literal
`getTypeBitWidth(type) - 1`, zero-extended to the operand type. -/
def emitShiftCountMask (type : ValueType) (shiftCount : Nat) : Nat :=
  let bitsMinusOne := CreateZExt ((getTypeBitWidth type - 1) % 256)
  CreateAnd shiftCount bitsMinusOne

/-- Source function `EmitFunctionContext::emitRotl`. -/
def emitRotl (type : ValueType) (left right : Nat) : Run Nat := do
  let bitWidthMinusRight :=
    CreateSub (asLLVMType type) (CreateZExt (getTypeBitWidth type % 256)) right
  let high ← CreateShl (asLLVMType type) left (emitShiftCountMask type right)
  let low ← CreateLShr (asLLVMType type) left (emitShiftCountMask type bitWidthMinusRight)
  pure (CreateOr high low)

/-- Source function `EmitFunctionContext::emitRotr`. -/
def emitRotr (type : ValueType) (left right : Nat) : Run Nat := do
  let bitWidthMinusRight :=
    CreateSub (asLLVMType type) (CreateZExt (getTypeBitWidth type % 256)) right
  let high ← CreateShl (asLLVMType type) left (emitShiftCountMask type bitWidthMinusRight)
  let low ← CreateLShr (asLLVMType type) left (emitShiftCountMask type right)
  pure (CreateOr high low)

/-- The operand stack of the emitter, top of stack first. -/
abbrev Stack := List Nat

/-- Source template `EMIT_BINARY_OP(typeId, name, emitCode)`: pop `right`, pop `left`,
push the value of `emitCode`. Popping from a stack that is too short is a violation of
the decoder contract and has no defined behaviour. -/
def EMIT_BINARY_OP (type : ValueType) (emitCode : ValueType → Nat → Nat → Run Nat)
    (stack : Stack) : Run Stack :=
  match stack with
  | right :: left :: rest => do
    let result ← emitCode type left right
    pure (result :: rest)
  | _ => { issued := [], outcome := Outcome.undefined }

namespace EmitFunctionContext

/-- Operators `i32.rotr`, `i64.rotr`: `EMIT_INT_BINARY_OP(rotr, emitRotr(type, left, right))`. -/
def rotr (type : ValueType) : Stack → Run Stack :=
  EMIT_BINARY_OP type (fun type left right => emitRotr type left right)

/-- Operators `i32.rotl`, `i64.rotl`: `EMIT_INT_BINARY_OP(rotl, emitRotl(type, left, right))`. -/
def rotl (type : ValueType) : Stack → Run Stack :=
  EMIT_BINARY_OP type (fun type left right => emitRotl type left right)

/-- Operators `i32.div_s`, `i64.div_s`: the trap check, then the native `sdiv`. -/
def div_s (type : ValueType) : Stack → Run Stack :=
  EMIT_BINARY_OP type (fun type left right => do
    trapDivideByZeroOrIntegerOverflow type left right
    CreateSDiv (asLLVMType type) left right)

/-- Operators `i32.rem_s`, `i64.rem_s`: `EMIT_INT_BINARY_OP(rem_s, emitSRem(type, left, right))`. -/
def rem_s (type : ValueType) : Stack → Run Stack :=
  EMIT_BINARY_OP type (fun type left right => emitSRem type left right)

/-- Operators `i32.div_u`, `i64.div_u`: the trap check, then the native `udiv`. -/
def div_u (type : ValueType) : Stack → Run Stack :=
  EMIT_BINARY_OP type (fun type left right => do
    trapDivideByZero type right
    CreateUDiv (asLLVMType type) left right)

/-- Operators `i32.rem_u`, `i64.rem_u`: the trap check, then the native `urem`. -/
def rem_u (type : ValueType) : Stack → Run Stack :=
  EMIT_BINARY_OP type (fun type left right => do
    trapDivideByZero type right
    CreateURem (asLLVMType type) left right)

/-- Operators `i32.shl`, `i64.shl`: the native `shl` by the masked count. -/
def shl (type : ValueType) : Stack → Run Stack :=
  EMIT_BINARY_OP type (fun type left right =>
    CreateShl (asLLVMType type) left (emitShiftCountMask type right))

/-- Operators `i32.shr_s`, `i64.shr_s`: the native `ashr` by the masked count. -/
def shr_s (type : ValueType) : Stack → Run Stack :=
  EMIT_BINARY_OP type (fun type left right =>
    CreateAShr (asLLVMType type) left (emitShiftCountMask type right))

/-- Operators `i32.shr_u`, `i64.shr_u`: the native `lshr` by the masked count. -/
def shr_u (type : ValueType) : Stack → Run Stack :=
  EMIT_BINARY_OP type (fun type left right =>
    CreateLShr (asLLVMType type) left (emitShiftCountMask type right))

/-- Generated method `i32_shl`. -/
def i32_shl : Stack → Run Stack := shl ValueType.i32

/-- Generated method `i32_div_s`. -/
def i32_div_s : Stack → Run Stack := div_s ValueType.i32

/-- Generated method `i32_rem_s`. -/
def i32_rem_s : Stack → Run Stack := rem_s ValueType.i32

end EmitFunctionContext


/-! ## Vector values of the host IR

A 128-bit SSA value is the natural number below `2 ^ 128` with the same bits, whatever
its vector type; `CreateBitCast` between the vector types therefore changes nothing.
Lane `i` of a vector with `w`-bit lanes holds bits `w * i` to `w * i + w - 1` (the
little-endian layout of the x86 targets whose intrinsics the emitter calls). Every
vector instruction is given the vector type it operates at. -/

/-- A vector type of the host IR: the width of a lane in bits and the number of lanes. -/
structure VectorType where
  scalarBits : Nat
  numLanes : Nat
deriving DecidableEq, Repr

/-- Host IR type `<16 x i8>`. -/
def llvmI8x16Type : VectorType := { scalarBits := 8, numLanes := 16 }

/-- Host IR type `<8 x i16>`. -/
def llvmI16x8Type : VectorType := { scalarBits := 16, numLanes := 8 }

/-- Host IR type `<4 x i32>`. -/
def llvmI32x4Type : VectorType := { scalarBits := 32, numLanes := 4 }

/-- Host IR type `<2 x i64>`. -/
def llvmI64x2Type : VectorType := { scalarBits := 64, numLanes := 2 }

/-- Host IR type `<4 x float>`; a lane is the bit pattern of the float. -/
def llvmF32x4Type : VectorType := { scalarBits := 32, numLanes := 4 }

/-- Host IR type `<2 x double>`; a lane is the bit pattern of the double. -/
def llvmF64x2Type : VectorType := { scalarBits := 64, numLanes := 2 }

/-- Host IR type `<1 x i128>`. -/
def llvmI128x1Type : VectorType := { scalarBits := 128, numLanes := 1 }

/-- Lane `i` of the value `v` read as a vector with `w`-bit lanes. -/
def lane (w i v : Nat) : Nat := (v >>> (w * i)) % 2 ^ w

/-- The value whose lanes of `w` bits are the given ones, lane 0 first. -/
def ofLanes (w : Nat) : List Nat → Nat
  | [] => 0
  | x :: rest => x % 2 ^ w + 2 ^ w * ofLanes w rest

/-- The lanes of `v` read as a vector of type `type`, lane 0 first. -/
def lanes (type : VectorType) (v : Nat) : List Nat :=
  (List.range type.numLanes).map (fun i => lane type.scalarBits i v)

/-- The vector of type `type` whose lane `i` is `f i`. -/
def buildVector (type : VectorType) (f : Nat → Nat) : Nat :=
  ofLanes type.scalarBits ((List.range type.numLanes).map f)

/-- Host IR `bitcast` between 128-bit types: the bits are unchanged. -/
def CreateBitCast (value : Nat) (_type : VectorType) : Nat := value

namespace Vec

/-- Host IR `add` on vectors: lanewise, wrapping. -/
def CreateAdd (type : VectorType) (left right : Nat) : Nat :=
  buildVector type (fun i =>
    (lane type.scalarBits i left + lane type.scalarBits i right) % 2 ^ type.scalarBits)

/-- Host IR `sub` on vectors: lanewise, wrapping. -/
def CreateSub (type : VectorType) (left right : Nat) : Nat :=
  buildVector type (fun i =>
    (lane type.scalarBits i left + (2 ^ type.scalarBits - lane type.scalarBits i right))
      % 2 ^ type.scalarBits)

/-- Host IR `icmp ugt` on vectors: a vector of one-bit lanes. -/
def CreateICmpUGT (type : VectorType) (left right : Nat) : Nat :=
  buildVector { scalarBits := 1, numLanes := type.numLanes } (fun i =>
    if lane type.scalarBits i left > lane type.scalarBits i right then 1 else 0)

/-- Host IR `select` with a vector condition: lane `i` comes from `trueValue` where
lane `i` of the condition is set, from `falseValue` otherwise. -/
def CreateSelect (type : VectorType) (condition trueValue falseValue : Nat) : Nat :=
  buildVector type (fun i =>
    if lane 1 i condition = 1 then lane type.scalarBits i trueValue
    else lane type.scalarBits i falseValue)

/-- Constant `llvm::Constant::getAllOnesValue` of a vector type. -/
def getAllOnesValue (type : VectorType) : Nat :=
  buildVector type (fun _ => 2 ^ type.scalarBits - 1)

/-- Host IR `extractelement`; the result is undefined for an index out of range. -/
def CreateExtractElement (type : VectorType) (vector index : Nat) : Run Nat :=
  if index < type.numLanes then Run.pure (lane type.scalarBits index vector)
  else { issued := [], outcome := Outcome.undefined }

/-- Host IR `insertelement`; the result is undefined for an index out of range. -/
def CreateInsertElement (type : VectorType) (vector scalar index : Nat) : Run Nat :=
  if index < type.numLanes then
    Run.pure (buildVector type (fun i =>
      if i = index then scalar else lane type.scalarBits i vector))
  else { issued := [], outcome := Outcome.undefined }

/-- Host IR `shufflevector`: lane `i` of the result is lane `indices[i]` of the
concatenation of `left` and `right`. -/
def CreateShuffleVector (type : VectorType) (left right : Nat) (indices : List Nat) : Nat :=
  ofLanes type.scalarBits (indices.map (fun j =>
    if j < type.numLanes then lane type.scalarBits j left
    else lane type.scalarBits (j - type.numLanes) right))

end Vec

/-- Host IR `xor` with the all-ones constant (`CreateNot`) at width `bits`. -/
def CreateNot (bits value : Nat) : Nat := value ^^^ (2 ^ bits - 1)

/-- Host IR `trunc` to `bits` bits. -/
def CreateTrunc (bits value : Nat) : Nat := value % 2 ^ bits

/-- Host IR `sext` from `fromBits` to `toBits` bits. -/
def CreateSExt (fromBits toBits value : Nat) : Nat := ofSigned toBits (toSigned fromBits value)

/-- Modelled from the spec: `createICmpWithWorkaround` with predicate `ICMP_UGT`, from a
header that is not among the sources at hand; an unsigned greater-than comparison of
the lanes. -/
def createICmpWithWorkaroundUGT (type : VectorType) (left right : Nat) : Nat :=
  Vec.CreateICmpUGT type left right

/-! ## SIMD operators of `LLVMEmitNumeric.cpp` -/

/-- Source function `emitAddUnsignedSaturated`. -/
def emitAddUnsignedSaturated (left right : Nat) (type : VectorType) : Nat :=
  let left := CreateBitCast left type
  let right := CreateBitCast right type
  let add := Vec.CreateAdd type left right
  Vec.CreateSelect type (Vec.CreateICmpUGT type left add) (Vec.getAllOnesValue type) add

/-- Source function `emitSubUnsignedSaturated`. -/
def emitSubUnsignedSaturated (left right : Nat) (type : VectorType) : Nat :=
  let left := CreateBitCast left type
  let right := CreateBitCast right type
  Vec.CreateSub type
    (Vec.CreateSelect type (createICmpWithWorkaroundUGT type left right) left right) right

/-- Source function `EmitFunctionContext::emitBitSelect`, at the one-lane type of 128
bits. -/
def emitBitSelect (mask trueValue falseValue : Nat) : Nat :=
  CreateOr (CreateAnd trueValue mask) (CreateAnd falseValue (CreateNot 128 mask))

/-- The loop of `emitAnyTrue` and `emitAllTrue` over the lanes `0 .. numLanes - 1`:
`result` starts as the null pointer (`none`) and is combined with each `scalarBool`. -/
def reduceLanes (combine : Bool → Bool → Bool) (type : VectorType) (vector : Nat) :
    List Nat → Option Bool → Option Bool
  | [], result => result
  | laneIndex :: rest, result =>
    let scalar := lane type.scalarBits laneIndex vector
    let scalarBool := CreateICmpNE scalar 0
    reduceLanes combine type vector rest
      (match result with
       | some r => some (combine r scalarBool)
       | none => some scalarBool)

/-- Source function `emitAnyTrue`: the lanes are or-ed; zero-extending a null `result`
(a vector type without lanes) has no defined behaviour. -/
def emitAnyTrue (vector : Nat) (vectorType : VectorType) : Run Nat :=
  let vector := CreateBitCast vector vectorType
  match reduceLanes (fun a b => a || b) vectorType vector
      (List.range vectorType.numLanes) none with
  | some result => Run.pure (CreateZExt (if result then 1 else 0))
  | none => { issued := [], outcome := Outcome.undefined }

/-- Source function `emitAllTrue`: the lanes are and-ed. -/
def emitAllTrue (vector : Nat) (vectorType : VectorType) : Run Nat :=
  let vector := CreateBitCast vector vectorType
  match reduceLanes (fun a b => a && b) vectorType vector
      (List.range vectorType.numLanes) none with
  | some result => Run.pure (CreateZExt (if result then 1 else 0))
  | none => { issued := [], outcome := Outcome.undefined }

/-- Source template `EMIT_SIMD_BINARY_OP(name, llvmType, emitCode)`: pop and bit-cast
`right`, pop and bit-cast `left`, push the value of `emitCode`. -/
def EMIT_SIMD_BINARY_OP (llvmType : VectorType) (emitCode : Nat → Nat → Run Nat)
    (stack : Stack) : Run Stack :=
  match stack with
  | right :: left :: rest => do
    let right := CreateBitCast right llvmType
    let left := CreateBitCast left llvmType
    let result ← emitCode left right
    pure (result :: rest)
  | _ => { issued := [], outcome := Outcome.undefined }

/-- Source template `EMIT_SIMD_UNARY_OP(name, llvmType, emitCode)`: pop and bit-cast the
operand, push the value of `emitCode`. -/
def EMIT_SIMD_UNARY_OP (llvmType : VectorType) (emitCode : Nat → Run Nat)
    (stack : Stack) : Run Stack :=
  match stack with
  | operand :: rest => do
    let operand := CreateBitCast operand llvmType
    let result ← emitCode operand
    pure (result :: rest)
  | _ => { issued := [], outcome := Outcome.undefined }

/-- Source template `EMIT_SIMD_EXTRACT_LANE_OP(name, llvmType, numLanes, coerceScalar)`
for the lane index `laneIndex` of the immediate. -/
def EMIT_SIMD_EXTRACT_LANE_OP (llvmType : VectorType) (coerceScalar : Nat → Nat)
    (laneIndex : Nat) (stack : Stack) : Run Stack :=
  match stack with
  | operand :: rest => do
    let operand := CreateBitCast operand llvmType
    let scalar ← Vec.CreateExtractElement llvmType operand laneIndex
    pure (coerceScalar scalar :: rest)
  | _ => { issued := [], outcome := Outcome.undefined }

/-- Source template `EMIT_SIMD_REPLACE_LANE_OP(typePrefix, llvmType, numLanes,
coerceScalar)` for the lane index `laneIndex` of the immediate. -/
def EMIT_SIMD_REPLACE_LANE_OP (llvmType : VectorType) (coerceScalar : Nat → Nat)
    (laneIndex : Nat) (stack : Stack) : Run Stack :=
  match stack with
  | scalar :: vector :: rest => do
    let vector := CreateBitCast vector llvmType
    let result ← Vec.CreateInsertElement llvmType vector (coerceScalar scalar) laneIndex
    pure (result :: rest)
  | _ => { issued := [], outcome := Outcome.undefined }

/-- The shuffle immediate `IR::ShuffleImm<16>`: its sixteen lane indices. -/
structure ShuffleImm where
  laneIndices : List Nat
deriving DecidableEq, Repr

namespace EmitFunctionContext

/-- Operators `i8x16.add_saturate_u` and `i16x8.add_saturate_u`, at their vector type:
`EMIT_SIMD_BINARY_OP(name, llvmType, emitAddUnsignedSaturated(irBuilder, left, right,
llvmType))`. -/
def add_saturate_u (llvmType : VectorType) : Stack → Run Stack :=
  EMIT_SIMD_BINARY_OP llvmType (fun left right =>
    pure (emitAddUnsignedSaturated left right llvmType))

/-- Operators `i8x16.sub_saturate_u` and `i16x8.sub_saturate_u`, at their vector type. -/
def sub_saturate_u (llvmType : VectorType) : Stack → Run Stack :=
  EMIT_SIMD_BINARY_OP llvmType (fun left right =>
    pure (emitSubUnsignedSaturated left right llvmType))

/-- Generated method `i8x16_add_saturate_u`. -/
def i8x16_add_saturate_u : Stack → Run Stack := add_saturate_u llvmI8x16Type

/-- Generated method `i8x16_sub_saturate_u`. -/
def i8x16_sub_saturate_u : Stack → Run Stack := sub_saturate_u llvmI8x16Type

/-- Generated method `i16x8_add_saturate_u`. -/
def i16x8_add_saturate_u : Stack → Run Stack := add_saturate_u llvmI16x8Type

/-- Generated method `i16x8_sub_saturate_u`. -/
def i16x8_sub_saturate_u : Stack → Run Stack := sub_saturate_u llvmI16x8Type

/-- Operators `any_true` of the four integer lane shapes, at their vector type:
`EMIT_SIMD_UNARY_OP(name, llvmType, emitAnyTrue(irBuilder, operand, llvmType))`. -/
def any_true (llvmType : VectorType) : Stack → Run Stack :=
  EMIT_SIMD_UNARY_OP llvmType (fun operand => emitAnyTrue operand llvmType)

/-- Operators `all_true` of the four integer lane shapes, at their vector type. -/
def all_true (llvmType : VectorType) : Stack → Run Stack :=
  EMIT_SIMD_UNARY_OP llvmType (fun operand => emitAllTrue operand llvmType)

/-- Generated method `i8x16_any_true`. -/
def i8x16_any_true : Stack → Run Stack := any_true llvmI8x16Type

/-- Generated method `i16x8_any_true`. -/
def i16x8_any_true : Stack → Run Stack := any_true llvmI16x8Type

/-- Generated method `i32x4_any_true`. -/
def i32x4_any_true : Stack → Run Stack := any_true llvmI32x4Type

/-- Generated method `i64x2_any_true`. -/
def i64x2_any_true : Stack → Run Stack := any_true llvmI64x2Type

/-- Generated method `i8x16_all_true`. -/
def i8x16_all_true : Stack → Run Stack := all_true llvmI8x16Type

/-- Generated method `i16x8_all_true`. -/
def i16x8_all_true : Stack → Run Stack := all_true llvmI16x8Type

/-- Generated method `i32x4_all_true`. -/
def i32x4_all_true : Stack → Run Stack := all_true llvmI32x4Type

/-- Generated method `i64x2_all_true`. -/
def i64x2_all_true : Stack → Run Stack := all_true llvmI64x2Type

/-- Operator `i8x16.extract_lane_s`: the lane is sign-extended to `i32`. -/
def i8x16_extract_lane_s : Nat → Stack → Run Stack :=
  EMIT_SIMD_EXTRACT_LANE_OP llvmI8x16Type (fun scalar => CreateSExt 8 32 scalar)

/-- Operator `i8x16.extract_lane_u`: the lane is zero-extended to `i32`. -/
def i8x16_extract_lane_u : Nat → Stack → Run Stack :=
  EMIT_SIMD_EXTRACT_LANE_OP llvmI8x16Type (fun scalar => CreateZExt scalar)

/-- Operator `i16x8.extract_lane_s`: the lane is sign-extended to `i32`. -/
def i16x8_extract_lane_s : Nat → Stack → Run Stack :=
  EMIT_SIMD_EXTRACT_LANE_OP llvmI16x8Type (fun scalar => CreateSExt 16 32 scalar)

/-- Operator `i16x8.extract_lane_u`: the lane is zero-extended to `i32`. -/
def i16x8_extract_lane_u : Nat → Stack → Run Stack :=
  EMIT_SIMD_EXTRACT_LANE_OP llvmI16x8Type (fun scalar => CreateZExt scalar)

/-- Operator `i32x4.extract_lane`. -/
def i32x4_extract_lane : Nat → Stack → Run Stack :=
  EMIT_SIMD_EXTRACT_LANE_OP llvmI32x4Type (fun scalar => scalar)

/-- Operator `i64x2.extract_lane`. -/
def i64x2_extract_lane : Nat → Stack → Run Stack :=
  EMIT_SIMD_EXTRACT_LANE_OP llvmI64x2Type (fun scalar => scalar)

/-- Operator `f32x4.extract_lane`, on the bit pattern of the float. -/
def f32x4_extract_lane : Nat → Stack → Run Stack :=
  EMIT_SIMD_EXTRACT_LANE_OP llvmF32x4Type (fun scalar => scalar)

/-- Operator `f64x2.extract_lane`, on the bit pattern of the double. -/
def f64x2_extract_lane : Nat → Stack → Run Stack :=
  EMIT_SIMD_EXTRACT_LANE_OP llvmF64x2Type (fun scalar => scalar)

/-- Operator `i8x16.replace_lane`: the scalar is truncated to 8 bits. -/
def i8x16_replace_lane : Nat → Stack → Run Stack :=
  EMIT_SIMD_REPLACE_LANE_OP llvmI8x16Type (fun scalar => CreateTrunc 8 scalar)

/-- Operator `i16x8.replace_lane`: the scalar is truncated to 16 bits. -/
def i16x8_replace_lane : Nat → Stack → Run Stack :=
  EMIT_SIMD_REPLACE_LANE_OP llvmI16x8Type (fun scalar => CreateTrunc 16 scalar)

/-- Operator `i32x4.replace_lane`. -/
def i32x4_replace_lane : Nat → Stack → Run Stack :=
  EMIT_SIMD_REPLACE_LANE_OP llvmI32x4Type (fun scalar => scalar)

/-- Operator `i64x2.replace_lane`. -/
def i64x2_replace_lane : Nat → Stack → Run Stack :=
  EMIT_SIMD_REPLACE_LANE_OP llvmI64x2Type (fun scalar => scalar)

/-- Operator `f32x4.replace_lane`, on the bit pattern of the float. -/
def f32x4_replace_lane : Nat → Stack → Run Stack :=
  EMIT_SIMD_REPLACE_LANE_OP llvmF32x4Type (fun scalar => scalar)

/-- Operator `f64x2.replace_lane`, on the bit pattern of the double. -/
def f64x2_replace_lane : Nat → Stack → Run Stack :=
  EMIT_SIMD_REPLACE_LANE_OP llvmF64x2Type (fun scalar => scalar)

/-- Source function `EmitFunctionContext::v8x16_shuffle`: the sixteen lane indices of
the immediate are copied and handed to `shufflevector`. -/
def v8x16_shuffle (imm : ShuffleImm) (stack : Stack) : Run Stack :=
  match stack with
  | right :: left :: rest =>
    let right := CreateBitCast right llvmI8x16Type
    let left := CreateBitCast left llvmI8x16Type
    let laneIndices := (List.range 16).map (fun laneIndex => imm.laneIndices.getD laneIndex 0)
    pure (Vec.CreateShuffleVector llvmI8x16Type left right laneIndices :: rest)
  | _ => { issued := [], outcome := Outcome.undefined }

/-- Source function `EmitFunctionContext::v128_bitselect`: pops the mask, the false
value and the true value, in this order. -/
def v128_bitselect (stack : Stack) : Run Stack :=
  match stack with
  | mask :: falseValue :: trueValue :: rest =>
    let mask := CreateBitCast mask llvmI128x1Type
    let falseValue := CreateBitCast falseValue llvmI128x1Type
    let trueValue := CreateBitCast trueValue llvmI128x1Type
    pure (emitBitSelect mask trueValue falseValue :: rest)
  | _ => { issued := [], outcome := Outcome.undefined }

end EmitFunctionContext

/-- A v128 value given by its sixteen bytes, lane 0 first. -/
def v128OfBytes (bytes : List Nat) : Nat := ofLanes 8 bytes

/-! ## Creation and cloning of memories

A pointer to a `MemoryInstance` is the address of the object (`0` is not used for a
live object); the registry and the memory table of a compartment hold such pointers. -/

/-- Enumerator `numGuardPages`. -/
def numGuardPages : Nat := 1

/-- The part of a `Compartment` that `Memory.cpp` reads and writes: its table of memory
pointers (`none` is the null pointer) and the memory-base array of its runtime data. -/
structure Compartment where
  handle : Nat
  memories : List (Option Nat)
  runtimeDataMemories : Nat → Nat

/-- Modelled from the spec: the constructor `MemoryInstance(compartment, type)` of
`RuntimePrivate.h`, a header that is not among the sources at hand; a new memory has no
reservation, no committed page and no slot in a compartment yet. -/
def MemoryInstance.construct (compartment : Option Compartment) (type : MemoryType) :
    MemoryInstance :=
  { compartment := match compartment with
      | some c => c.handle
      | none => 0,
    type := type, baseAddress := 0, endOffset := 0, numPages := 0, id := wordSize - 1 }

/-- Source function `Runtime::MemoryInstance::~MemoryInstance`, run on the object at the
address `self`: the answer is the registry after the call, or `none` when
`getPlatformPagesPerWebAssemblyPageLog2` aborts the process. The decommit and the
release of the pages change nothing but the platform. -/
def MemoryInstance.destruct (P : Platform) (self : Nat) (memory : MemoryInstance)
    (registry : List Nat) : Option (List Nat) :=
  let decommitted : Option Unit :=
    if memory.numPages > 0 then
      match getPlatformPagesPerWebAssemblyPageLog2 P with
      | none => none
      | some _ => some ()
    else some ()
  match decommitted with
  | none => none
  | some _ => some (registry.erase self)

/-- The new memory as `createMemory` holds it when it tests the reservation: constructed,
with `baseAddress` set to the answer of `allocateVirtualPages` and `endOffset` to 8 GiB. -/
def reservedMemory (P : Platform) (compartment : Option Compartment) (type : MemoryType) :
    MemoryInstance :=
  { MemoryInstance.construct compartment type with
    baseAddress := P.allocateVirtualPages
      (((8 * 1024 * 1024 * 1024) % wordSize) >>> P.pageSizeLog2 + numGuardPages),
    endOffset := (8 * 1024 * 1024 * 1024) % wordSize }

/-- What `createMemory` leaves behind: the pointer it returns together with the object
it points to (`none` for the null pointer), the compartment and the registry. -/
structure CreateMemoryResult where
  memory : Option (Nat × MemoryInstance)
  compartment : Option Compartment
  registry : List Nat

/-- Source function `Runtime::createMemory`, with the address `self` of the object
obtained from `new`, the constant `maxMemories` of a header that is not at hand, the
compartment (`none` for a null pointer) and the registry `memories`. The answer is
`none` when the process is aborted. -/
def createMemory (P : Platform) (maxMemories self : Nat) (compartment : Option Compartment)
    (type : MemoryType) (registry : List Nat) : Option CreateMemoryResult :=
  let memory := MemoryInstance.construct compartment type
  let pageBytesLog2 := P.pageSizeLog2
  let memoryMaxBytes := (8 * 1024 * 1024 * 1024) % wordSize
  let memoryMaxPages := memoryMaxBytes >>> pageBytesLog2
  let memory : MemoryInstance :=
    { memory with baseAddress := P.allocateVirtualPages (memoryMaxPages + numGuardPages) }
  let memory : MemoryInstance := { memory with endOffset := memoryMaxBytes }
  if memory.baseAddress = 0 then
    match MemoryInstance.destruct P self memory registry with
    | none => none
    | some registry1 =>
      some { memory := none, compartment := compartment, registry := registry1 }
  else
    match growMemory P memory (type.size.min % wordSize) with
    | none => none
    | some (grown, memory) =>
      if grown = -1 then
        match MemoryInstance.destruct P self memory registry with
        | none => none
        | some registry1 =>
          some { memory := none, compartment := compartment, registry := registry1 }
      else
        match compartment with
        | some c =>
          if c.memories.length ≥ maxMemories then
            match MemoryInstance.destruct P self memory registry with
            | none => none
            | some registry1 =>
              some { memory := none, compartment := some c, registry := registry1 }
          else
            let memory : MemoryInstance := { memory with id := c.memories.length }
            let c1 : Compartment :=
              { c with
                memories := c.memories ++ [some self],
                runtimeDataMemories :=
                  Function.update c.runtimeDataMemories memory.id memory.baseAddress }
            some { memory := some (self, memory), compartment := some c1,
                   registry := registry ++ [self] }
        | none =>
          some { memory := some (self, memory), compartment := none,
                 registry := registry ++ [self] }

/-- Source function `Runtime::cloneMemory`. The value returned by the second
`growMemory` is dropped, as in the source; the bytes copied by `memcpy` are not part of
the model. The answer is `none` when the process is aborted or when `createMemory`
returned the null pointer, which the source dereferences. -/
def cloneMemory (P : Platform) (maxMemories self : Nat) (memory : MemoryInstance)
    (newCompartment : Option Compartment) (registry : List Nat) :
    Option CreateMemoryResult :=
  match createMemory P maxMemories self newCompartment memory.type registry with
  | none => none
  | some created =>
    match created.memory with
    | none => none
    | some (pointer, newMemory) =>
      let numPages := memory.numPages
      match growMemory P newMemory numPages with
      | none => none
      | some (_, newMemory) =>
        some { created with memory := some (pointer, newMemory) }

/-- An empty compartment. -/
def compartmentEmpty : Compartment :=
  { handle := 4096, memories := [], runtimeDataMemories := fun _ => 0 }

/-- A platform with 4 KiB pages on which no address space can be reserved. -/
def platformNoReservation : Platform :=
  { pageSizeLog2 := 12, commitVirtualPages := fun _ _ => true }

/-- A compartment whose memory table already holds two pointers. -/
def compartmentTwo : Compartment :=
  { handle := 4096, memories := [some 100, none],
    runtimeDataMemories := fun i => if i = 0 then 1048576 else 0 }

/-! ## Further integer operators of `LLVMEmitNumeric.cpp` -/

/-- Host IR `add` at width `bits`: wraps. -/
def CreateAdd (bits left right : Nat) : Nat := (left + right) % 2 ^ bits

/-- Host IR `mul` at width `bits`: wraps. -/
def CreateMul (bits left right : Nat) : Nat := (left * right) % 2 ^ bits

/-- Host IR `xor`. -/
def CreateXor (left right : Nat) : Nat := left ^^^ right

/-- Host IR `icmp eq`. -/
def CreateICmpEQ (left right : Nat) : Bool := left == right

/-- Intrinsic `llvm.ctlz` with a defined result on zero: the number of leading zero bits
of a `bits`-bit value. -/
def ctlz (bits value : Nat) : Nat :=
  ((List.range bits).reverse.takeWhile (fun i => !value.testBit i)).length

/-- Intrinsic `llvm.cttz` with a defined result on zero: the number of trailing zero bits
of a `bits`-bit value. -/
def cttz (bits value : Nat) : Nat :=
  ((List.range bits).takeWhile (fun i => !value.testBit i)).length

/-- Intrinsic `llvm.ctpop`: the number of set bits of a `bits`-bit value. -/
def ctpop (bits value : Nat) : Nat :=
  ((List.range bits).filter (fun i => value.testBit i)).length

/-- Modelled from the spec: `coerceBoolToI32`, from a header that is not among the
sources at hand; section 4.2 has `eqz` return `1:i32` or `0:i32`. -/
def coerceBoolToI32 (b : Bool) : Nat := if b then 1 else 0

/-- Source template `EMIT_UNARY_OP(typeId, name, emitCode)`: pop the operand, push the
value of `emitCode`. -/
def EMIT_UNARY_OP (type : ValueType) (emitCode : ValueType → Nat → Run Nat)
    (stack : Stack) : Run Stack :=
  match stack with
  | operand :: rest => do
    let result ← emitCode type operand
    pure (result :: rest)
  | _ => { issued := [], outcome := Outcome.undefined }

namespace EmitFunctionContext

/-- Operators `i32.add`, `i64.add`. -/
def add (type : ValueType) : Stack → Run Stack :=
  EMIT_BINARY_OP type (fun type left right => pure (CreateAdd (asLLVMType type) left right))

/-- Operators `i32.sub`, `i64.sub`. -/
def sub (type : ValueType) : Stack → Run Stack :=
  EMIT_BINARY_OP type (fun type left right => pure (CreateSub (asLLVMType type) left right))

/-- Operators `i32.mul`, `i64.mul`. -/
def mul (type : ValueType) : Stack → Run Stack :=
  EMIT_BINARY_OP type (fun type left right => pure (CreateMul (asLLVMType type) left right))

/-- Operators `i32.and`, `i64.and`. -/
def and (type : ValueType) : Stack → Run Stack :=
  EMIT_BINARY_OP type (fun _ left right => pure (CreateAnd left right))

/-- Operators `i32.or`, `i64.or`. -/
def or (type : ValueType) : Stack → Run Stack :=
  EMIT_BINARY_OP type (fun _ left right => pure (CreateOr left right))

/-- Operators `i32.xor`, `i64.xor`. -/
def xor (type : ValueType) : Stack → Run Stack :=
  EMIT_BINARY_OP type (fun _ left right => pure (CreateXor left right))

/-- Operators `i32.clz`, `i64.clz`. -/
def clz (type : ValueType) : Stack → Run Stack :=
  EMIT_UNARY_OP type (fun type operand => pure (ctlz (asLLVMType type) operand))

/-- Operators `i32.ctz`, `i64.ctz`. -/
def ctz (type : ValueType) : Stack → Run Stack :=
  EMIT_UNARY_OP type (fun type operand => pure (cttz (asLLVMType type) operand))

/-- Operators `i32.popcnt`, `i64.popcnt`. -/
def popcnt (type : ValueType) : Stack → Run Stack :=
  EMIT_UNARY_OP type (fun type operand => pure (ctpop (asLLVMType type) operand))

/-- Operators `i32.eqz`, `i64.eqz`. -/
def eqz (type : ValueType) : Stack → Run Stack :=
  EMIT_UNARY_OP type (fun type operand =>
    pure (coerceBoolToI32 (CreateICmpEQ operand (typedZeroConstants type))))

/-- Generated method `i32_sub`. -/
def i32_sub : Stack → Run Stack := sub ValueType.i32

/-- Generated method `i32_eqz`. -/
def i32_eqz : Stack → Run Stack := eqz ValueType.i32

end EmitFunctionContext

/-! ## Integer comparisons and vector shifts -/

/-- Host IR type `i32`, as a vector type of one lane. -/
def llvmI32Type : VectorType := { scalarBits := 32, numLanes := 1 }

/-- Host IR type `i64`, as a vector type of one lane. -/
def llvmI64Type : VectorType := { scalarBits := 64, numLanes := 1 }

/-- The integer comparison predicates `llvm::CmpInst::ICMP_*` used by the emitter. -/
inductive CmpPredicate where
  | ICMP_EQ
  | ICMP_NE
  | ICMP_SLT
  | ICMP_ULT
  | ICMP_SLE
  | ICMP_ULE
  | ICMP_SGT
  | ICMP_UGT
  | ICMP_SGE
  | ICMP_UGE
deriving DecidableEq, Repr

/-- Host IR `icmp` on two `bits`-bit values. -/
def icmp (bits : Nat) (predicate : CmpPredicate) (left right : Nat) : Bool :=
  match predicate with
  | CmpPredicate.ICMP_EQ => left == right
  | CmpPredicate.ICMP_NE => left != right
  | CmpPredicate.ICMP_SLT => decide (toSigned bits left < toSigned bits right)
  | CmpPredicate.ICMP_ULT => decide (left < right)
  | CmpPredicate.ICMP_SLE => decide (toSigned bits left ≤ toSigned bits right)
  | CmpPredicate.ICMP_ULE => decide (left ≤ right)
  | CmpPredicate.ICMP_SGT => decide (toSigned bits left > toSigned bits right)
  | CmpPredicate.ICMP_UGT => decide (left > right)
  | CmpPredicate.ICMP_SGE => decide (toSigned bits left ≥ toSigned bits right)
  | CmpPredicate.ICMP_UGE => decide (left ≥ right)

/-- Modelled from the spec: `createICmpWithWorkaround(irBuilder, predicate, left, right)`,
from a header that is not among the sources at hand; the lanewise `icmp`, a vector of
one-bit lanes. -/
def createICmpWithWorkaround (predicate : CmpPredicate) (type : VectorType)
    (left right : Nat) : Nat :=
  buildVector { scalarBits := 1, numLanes := type.numLanes } (fun i =>
    if icmp type.scalarBits predicate (lane type.scalarBits i left)
        (lane type.scalarBits i right) then 1 else 0)

/-- Modelled from the spec: the helper `zext(value, type)` of the emitter, from a header
that is not among the sources at hand; the lanewise zero extension (section 4.4: the
boolean vector is zero-extended to the same-shape integer vector). -/
def zext (fromBits : Nat) (value : Nat) (type : VectorType) : Nat :=
  buildVector type (fun i => lane fromBits i value)

/-- Source template `EMIT_INT_COMPARE_OP(name, llvmOperandType, llvmDestType,
predicate)`. -/
def EMIT_INT_COMPARE_OP (llvmOperandType llvmDestType : VectorType)
    (predicate : CmpPredicate) (stack : Stack) : Run Stack :=
  match stack with
  | right :: left :: rest =>
    let right := CreateBitCast right llvmOperandType
    let left := CreateBitCast left llvmOperandType
    pure (zext 1 (createICmpWithWorkaround predicate llvmOperandType left right) llvmDestType
      :: rest)
  | _ => { issued := [], outcome := Outcome.undefined }

namespace Vec

/-- Host IR `and` on vectors: lanewise. -/
def CreateAnd (type : VectorType) (left right : Nat) : Nat :=
  buildVector type (fun i => lane type.scalarBits i left &&& lane type.scalarBits i right)

/-- Host IR vector splat: every lane is `scalar`. -/
def CreateVectorSplat (type : VectorType) (scalar : Nat) : Nat :=
  buildVector type (fun _ => scalar)

/-- Execution of one native vector shift: it is recorded with its vector operands; the
result is undefined when the count of some lane is not below the lane width. -/
def shift (op : NativeOp) (type : VectorType) (f : Nat → Nat → Nat) (left right : Nat) :
    Run Nat :=
  Run.native op type.scalarBits left right
    (if (List.range type.numLanes).all
        (fun i => decide (lane type.scalarBits i right < type.scalarBits)) then
      some (buildVector type (fun i =>
        f (lane type.scalarBits i left) (lane type.scalarBits i right)))
     else none)

/-- Host IR `shl` on vectors. -/
def CreateShl (type : VectorType) (left right : Nat) : Run Nat :=
  shift NativeOp.shl type (fun a c => (a <<< c) % 2 ^ type.scalarBits) left right

/-- Host IR `ashr` on vectors. -/
def CreateAShr (type : VectorType) (left right : Nat) : Run Nat :=
  shift NativeOp.ashr type
    (fun a c => ofSigned type.scalarBits (toSigned type.scalarBits a >>> c)) left right

/-- Host IR `lshr` on vectors. -/
def CreateLShr (type : VectorType) (left right : Nat) : Run Nat :=
  shift NativeOp.lshr type (fun a c => a >>> c) left right

end Vec

/-- Source function `emitVectorShiftCountMask`: the count vector is and-ed with the
splat of the constant `numScalarBits - 1`. -/
def emitVectorShiftCountMask (type : VectorType) (shiftCount : Nat) : Nat :=
  let numScalarBits := type.scalarBits
  let bitsMinusOne := (numScalarBits - 1) % 2 ^ numScalarBits
  let bitsMinusOneSplat := Vec.CreateVectorSplat type bitsMinusOne
  Vec.CreateAnd type shiftCount bitsMinusOneSplat

namespace EmitFunctionContext

/-- Integer comparison operators, at the operand and result type of the generated
method: `EMIT_INT_COMPARE(name, predicate)`. -/
def compare (predicate : CmpPredicate) (llvmOperandType llvmDestType : VectorType) :
    Stack → Run Stack :=
  EMIT_INT_COMPARE_OP llvmOperandType llvmDestType predicate

/-- Generated method `i32_eq`. -/
def i32_eq : Stack → Run Stack := compare CmpPredicate.ICMP_EQ llvmI32Type llvmI32Type

/-- Generated method `i64_lt_s`. -/
def i64_lt_s : Stack → Run Stack := compare CmpPredicate.ICMP_SLT llvmI64Type llvmI32Type

/-- Generated method `i8x16_eq`. -/
def i8x16_eq : Stack → Run Stack := compare CmpPredicate.ICMP_EQ llvmI8x16Type llvmI8x16Type

/-- Generated method `i16x8_lt_s`. -/
def i16x8_lt_s : Stack → Run Stack :=
  compare CmpPredicate.ICMP_SLT llvmI16x8Type llvmI16x8Type

/-- Generated method `i32x4_ge_u`. -/
def i32x4_ge_u : Stack → Run Stack :=
  compare CmpPredicate.ICMP_UGE llvmI32x4Type llvmI32x4Type

/-- Vector operators `shl` of the four integer lane shapes, at their vector type:
`EMIT_SIMD_INT_BINARY_OP(shl, CreateShl(left, emitVectorShiftCountMask(...)))`. -/
def vshl (vectorType : VectorType) : Stack → Run Stack :=
  EMIT_SIMD_BINARY_OP vectorType (fun left right =>
    Vec.CreateShl vectorType left (emitVectorShiftCountMask vectorType right))

/-- Vector operators `shr_s` of the four integer lane shapes, at their vector type. -/
def vshr_s (vectorType : VectorType) : Stack → Run Stack :=
  EMIT_SIMD_BINARY_OP vectorType (fun left right =>
    Vec.CreateAShr vectorType left (emitVectorShiftCountMask vectorType right))

/-- Vector operators `shr_u` of the four integer lane shapes, at their vector type. -/
def vshr_u (vectorType : VectorType) : Stack → Run Stack :=
  EMIT_SIMD_BINARY_OP vectorType (fun left right =>
    Vec.CreateLShr vectorType left (emitVectorShiftCountMask vectorType right))

/-- Generated method `i8x16_shl`. -/
def i8x16_shl : Stack → Run Stack := vshl llvmI8x16Type

/-- Generated method `i32x4_shr_s`. -/
def i32x4_shr_s : Stack → Run Stack := vshr_s llvmI32x4Type

/-- Generated method `i64x2_shr_u`. -/
def i64x2_shr_u : Stack → Run Stack := vshr_u llvmI64x2Type

end EmitFunctionContext

/-! ## Unmapping, finalization and sequences of operations -/

/-- Source function `Runtime::unmapMemoryPages`. A failed `wavmAssert` and the fatal
error of `getPlatformPagesPerWebAssemblyPageLog2` abort the process (`none`); otherwise
pages are decommitted and the memory object is as before. -/
def unmapMemoryPages (P : Platform) (memory : MemoryInstance) (pageIndex numPages : Nat) :
    Option MemoryInstance :=
  if ¬ pageIndex < memory.numPages then none
  else if ¬ (pageIndex + numPages) % wordSize > pageIndex then none
  else if ¬ (pageIndex + numPages) % wordSize < memory.numPages then none
  else
    match getPlatformPagesPerWebAssemblyPageLog2 P with
    | none => none
    | some _ => some memory

/-- Source function `Runtime::MemoryInstance::finalize`, run on the object at the address
`self` with the compartment it belongs to; a failed `wavmAssert` aborts (`none`). -/
def MemoryInstance.finalize (self : Nat) (memory : MemoryInstance)
    (compartment : Compartment) : Option Compartment :=
  if compartment.memories[memory.id]? ≠ some (some self) then none
  else if compartment.runtimeDataMemories memory.id ≠ memory.baseAddress then none
  else
    some { compartment with
           memories := compartment.memories.set memory.id none,
           runtimeDataMemories := Function.update compartment.runtimeDataMemories memory.id 0 }

/-- A call of `growMemory` or of `shrinkMemory` with its page count. -/
inductive MemoryOp where
  | grow (numNewPages : Nat)
  | shrink (numPagesToShrink : Nat)
deriving DecidableEq, Repr

/-- The memory after a sequence of `growMemory` and `shrinkMemory` calls, whatever each
call returns; `none` when a call aborts the process. -/
def applyMemoryOps (P : Platform) : MemoryInstance → List MemoryOp → Option MemoryInstance
  | memory, [] => some memory
  | memory, MemoryOp.grow k :: rest =>
    match growMemory P memory k with
    | none => none
    | some (_, memory1) => applyMemoryOps P memory1 rest
  | memory, MemoryOp.shrink k :: rest =>
    match shrinkMemory P memory k with
    | none => none
    | some (_, memory1) => applyMemoryOps P memory1 rest

/-- An operation on a compartment: `createMemory` with the address of the new object and
the memory type, or `finalize` of the object at an address. -/
inductive CompartmentOp where
  | create (self : Nat) (type : MemoryType)
  | finalize (self : Nat) (memory : MemoryInstance)

/-- A compartment with the registry and the number of `createMemory` calls that have
returned a memory so far. -/
structure CompartmentState where
  compartment : Compartment
  registry : List Nat
  created : Nat

/-- One operation on a compartment; `none` when the process is aborted. -/
def stepCompartment (P : Platform) (maxMemories : Nat) (state : CompartmentState) :
    CompartmentOp → Option CompartmentState
  | CompartmentOp.create self type =>
    match createMemory P maxMemories self (some state.compartment) type state.registry with
    | none => none
    | some res =>
      match res.compartment with
      | none => none
      | some c =>
        some { compartment := c, registry := res.registry,
               created := if res.memory.isSome then state.created + 1 else state.created }
  | CompartmentOp.finalize self memory =>
    match MemoryInstance.finalize self memory state.compartment with
    | none => none
    | some c => some { state with compartment := c }

/-- A sequence of operations on a compartment. -/
def runCompartment (P : Platform) (maxMemories : Nat) :
    CompartmentState → List CompartmentOp → Option CompartmentState
  | state, [] => some state
  | state, op :: rest =>
    match stepCompartment P maxMemories state op with
    | none => none
    | some state1 => runCompartment P maxMemories state1 rest

/-- A memory type that allows more pages than the 8 GiB reservation holds. -/
def typeBeyondReservation : MemoryType := { size := { min := 0, max := 200000 } }

/-- A v128 value whose sixteen bytes are all 1. -/
def v128Ones : Nat := v128OfBytes [1, 1, 1, 1, 1, 1, 1, 1, 1, 1, 1, 1, 1, 1, 1, 1]

/-- An empty compartment with an empty registry, before any `createMemory`. -/
def stateEmpty : CompartmentState :=
  { compartment := compartmentEmpty, registry := [], created := 0 }

/-- Two creations with a finalization of the first memory in between. -/
def opsCreateFinalizeCreate : List CompartmentOp :=
  [CompartmentOp.create 8192 memS5.type, CompartmentOp.finalize 8192 memS5,
   CompartmentOp.create 8200 memS5.type]

/-- The state that the three operations lead to with `maxMemories = 2`: two slots, the
first one nulled. -/
def stateAfterOps : CompartmentState :=
  { compartment :=
      { handle := 4096, memories := [none, some 8200],
        runtimeDataMemories :=
          Function.update (Function.update (Function.update (fun _ => 0) 0 65536) 0 0)
            1 65536 },
    registry := [8192, 8200], created := 2 }
/-! ## Theorems about `Memory.cpp` -/

theorem toIptr_of_lt {x : Nat} (h : x < 2 ^ 63) : toIptr x = (x : Int) := by
  have h1 : x % wordSize = x := Nat.mod_eq_of_lt (by unfold wordSize; omega)
  unfold toIptr
  rw [h1, if_pos h]

/-- C1: whenever `growMemory(m, k)` returns a value other than -1, that value is the
page count before the call (the `Uptr` read as an `Iptr`, so numerically equal to it
whenever it is below `2 ^ 63`), and the page count after the call is the prior page
count plus exactly `k`; no other field changes. -/
theorem growMemory_success (P : Platform) (m m1 : MemoryInstance) (k : Nat) (r : Int)
    (hm : m.WordSized) (hk : k < wordSize)
    (hcall : growMemory P m k = some (r, m1)) (hr : r ≠ -1) :
    r = toIptr m.numPages ∧ (m.numPages < 2 ^ 63 → r = (m.numPages : Int)) ∧
      m1.numPages = m.numPages + k ∧ m1 = { m with numPages := m.numPages + k } := by
  obtain ⟨-, hmax, -, -, hnum⟩ := hm
  unfold wordSize at hmax hnum hk
  have key : r = toIptr m.numPages ∧ m1 = { m with numPages := m.numPages + k } := by
    unfold growMemory at hcall
    by_cases hk0 : k > 0
    · rw [if_pos hk0] at hcall
      by_cases hcap : k > m.type.size.max
            ∨ m.numPages > (m.type.size.max + wordSize - k) % wordSize
      · rw [if_pos hcap] at hcall
        simp only [Option.some.injEq, Prod.mk.injEq] at hcall
        exact absurd hcall.1.symm hr
      · rw [if_neg hcap] at hcall
        have hfit : (m.numPages + k) % wordSize = m.numPages + k := by
          unfold wordSize at hcap ⊢
          omega
        cases hpl : getPlatformPagesPerWebAssemblyPageLog2 P with
        | none => simp [hpl] at hcall
        | some pagesLog2 =>
          simp only [hpl] at hcall
          split at hcall
          · simp only [Option.some.injEq, Prod.mk.injEq] at hcall
            exact absurd hcall.1.symm hr
          · simp only [Option.some.injEq, Prod.mk.injEq] at hcall
            rw [hfit] at hcall
            exact ⟨hcall.1.symm, hcall.2.symm⟩
    · rw [if_neg hk0] at hcall
      simp only [Option.some.injEq, Prod.mk.injEq] at hcall
      have hz : k = 0 := by omega
      subst hz
      exact ⟨hcall.1.symm, hcall.2.symm⟩
  refine ⟨key.1, ?_, ?_, key.2⟩
  · intro hlt
    rw [key.1, toIptr_of_lt hlt]
  · rw [key.2]

/-- Scenario S5, first step: growing the one-page memory by 2 returns 1 and leaves
three pages. -/
theorem growMemory_success_witness :
    growMemory platformOk memS5 2 = some (1, { memS5 with numPages := 3 }) ∧
      (1 : Int) = toIptr memS5.numPages ∧
      ({ memS5 with numPages := 3 } : MemoryInstance).numPages = memS5.numPages + 2 :=
  have h := growMemory_success platformOk memS5 { memS5 with numPages := 3 } 2 1
    (by decide) (by decide) (by decide) (by decide)
  ⟨by decide, h.1, h.2.2.1⟩

/-- C2: for a memory that respects its cap (`numPages ≤ type.size.max`, invariant 2 of
the data model), whenever `numPages + k` computed without wraparound exceeds
`type.size.max`, `growMemory(m, k)` returns -1 and leaves every field of the memory
as it was. -/
theorem growMemory_cap (P : Platform) (m : MemoryInstance) (k : Nat)
    (hm : m.WordSized) (hk : k < wordSize) (hinv : m.numPages ≤ m.type.size.max)
    (hover : m.numPages + k > m.type.size.max) :
    growMemory P m k = some (-1, m) := by
  obtain ⟨-, hmax, -, -, hnum⟩ := hm
  unfold wordSize at hmax hnum hk
  have hk0 : k > 0 := by omega
  have hcap : k > m.type.size.max
      ∨ m.numPages > (m.type.size.max + wordSize - k) % wordSize := by
    unfold wordSize
    by_cases h1 : k > m.type.size.max
    · exact Or.inl h1
    · right
      omega
  unfold growMemory
  rw [if_pos hk0, if_pos hcap]

/-- Scenario S5, second step: at three pages a further grow by 1 returns -1 and the
memory keeps its three pages. -/
theorem growMemory_cap_witness :
    growMemory platformOk { memS5 with numPages := 3 } 1
      = some (-1, { memS5 with numPages := 3 }) :=
  growMemory_cap platformOk { memS5 with numPages := 3 } 1
    (by decide) (by decide) (by decide) (by decide)

/-- C3: for a memory that respects its floor (`type.size.min ≤ numPages`, invariant 2 of
the data model), whenever `numPages - k` computed over the integers is below
`type.size.min` (in particular for every `k > numPages`), `shrinkMemory(m, k)` returns
-1 and leaves every field of the memory as it was. -/
theorem shrinkMemory_floor (P : Platform) (m : MemoryInstance) (k : Nat)
    (hm : m.WordSized) (hk : k < wordSize) (hinv : m.type.size.min ≤ m.numPages)
    (hunder : (m.numPages : Int) - (k : Int) < (m.type.size.min : Int)) :
    shrinkMemory P m k = some (-1, m) := by
  obtain ⟨hmin, -, -, -, hnum⟩ := hm
  unfold wordSize at hmin hnum hk
  have hk0 : k > 0 := by omega
  have hfloor : k > m.numPages
      ∨ (m.numPages + wordSize - k) % wordSize < m.type.size.min := by
    unfold wordSize
    by_cases h1 : k > m.numPages
    · exact Or.inl h1
    · right
      omega
  unfold shrinkMemory
  rw [if_pos hk0, if_pos hfloor]

/-- Shrinking the one-page memory of scenario S5, whose floor is one page, by 1 and
by 7 pages. -/
theorem shrinkMemory_floor_witness :
    shrinkMemory platformOk memS5 1 = some (-1, memS5) ∧
      shrinkMemory platformOk memS5 7 = some (-1, memS5) :=
  ⟨shrinkMemory_floor platformOk memS5 1 (by decide) (by decide) (by decide) (by decide),
   shrinkMemory_floor platformOk memS5 7 (by decide) (by decide) (by decide) (by decide)⟩

/-- C4, as stated, fails: with `offset = endOffset + 1` and `numBytes = 0` the sum
`offset + numBytes` exceeds `endOffset`, yet the call does not trap; it returns the
clamped address `baseAddress + endOffset`. -/
theorem getValidatedMemoryOffsetRange_zero_length_past_end :
    memS5.endOffset + 1 + 0 > memS5.endOffset ∧
      getValidatedMemoryOffsetRange memS5 (memS5.endOffset + 1) 0
        = Except.ok (memS5.baseAddress + memS5.endOffset) ∧
      getValidatedMemoryOffsetRange memS5 (memS5.endOffset + 1) 0
        ≠ Except.error TrapKind.accessViolation := by
  have hval : getValidatedMemoryOffsetRange memS5 (memS5.endOffset + 1) 0
      = Except.ok (memS5.baseAddress + memS5.endOffset) := rfl
  refine ⟨by decide, hval, ?_⟩
  rw [hval]
  intro h
  cases h

/-- C4, amended: for a memory whose reservation does not wrap the address space,
`getValidatedMemoryOffsetRange(m, offset, numBytes)` raises the access-violation trap
whenever `numBytes > 0` and `offset + numBytes > endOffset` (which covers a sum that
wraps the machine word); it returns `baseAddress + offset` whenever
`offset + numBytes ≤ endOffset`; and for the empty range past the end (`numBytes = 0`,
`offset > endOffset`) it returns the clamped address `baseAddress + endOffset`. -/
theorem getValidatedMemoryOffsetRange_spec (m : MemoryInstance) (offset numBytes : Nat)
    (hres : m.baseAddress + m.endOffset < wordSize)
    (hoff : offset < wordSize) (hnum : numBytes < wordSize) :
    (0 < numBytes → offset + numBytes > m.endOffset →
        getValidatedMemoryOffsetRange m offset numBytes
          = Except.error TrapKind.accessViolation) ∧
      (offset + numBytes ≤ m.endOffset →
        getValidatedMemoryOffsetRange m offset numBytes
          = Except.ok (m.baseAddress + offset)) ∧
      (numBytes = 0 → offset > m.endOffset →
        getValidatedMemoryOffsetRange m offset numBytes
          = Except.ok (m.baseAddress + m.endOffset)) := by
  unfold wordSize at hres hoff hnum
  have hsat : saturateToBounds offset m.endOffset ≤ m.endOffset := by
    unfold saturateToBounds
    split <;> omega
  have hsat2 : saturateToBounds offset m.endOffset ≤ offset := by
    unfold saturateToBounds
    split <;> omega
  have haddr : (m.baseAddress + saturateToBounds offset m.endOffset) % wordSize
      = m.baseAddress + saturateToBounds offset m.endOffset := by
    apply Nat.mod_eq_of_lt
    unfold wordSize
    omega
  have hend : (m.baseAddress + m.endOffset) % wordSize = m.baseAddress + m.endOffset :=
    Nat.mod_eq_of_lt hres
  refine ⟨?_, ?_, ?_⟩
  · intro hpos hgt
    have hs : saturateToBounds offset m.endOffset + numBytes > m.endOffset := by
      unfold saturateToBounds
      split <;> omega
    unfold getValidatedMemoryOffsetRange
    simp only [haddr, hend]
    rw [if_pos]
    right
    unfold wordSize
    omega
  · intro hle
    have hs : saturateToBounds offset m.endOffset = offset := by
      unfold saturateToBounds
      rw [if_neg (by omega)]
    unfold getValidatedMemoryOffsetRange
    simp only [haddr, hend]
    rw [hs, if_neg]
    unfold wordSize
    omega
  · intro hz hgt
    have hs : saturateToBounds offset m.endOffset = m.endOffset := by
      unfold saturateToBounds
      rw [if_pos hgt]
    subst hz
    unfold getValidatedMemoryOffsetRange
    simp only [haddr, hend]
    rw [hs, if_neg]
    unfold wordSize
    omega

/-- A one-byte range at the end offset, an 8-byte range inside, and an empty range past
the end of an 8 GiB reservation. -/
theorem getValidatedMemoryOffsetRange_spec_witness :
    getValidatedMemoryOffsetRange memS5 8589934592 1
        = Except.error TrapKind.accessViolation ∧
      getValidatedMemoryOffsetRange memS5 16 8 = Except.ok (memS5.baseAddress + 16) ∧
      getValidatedMemoryOffsetRange memS5 8589934600 0
        = Except.ok (memS5.baseAddress + memS5.endOffset) :=
  ⟨(getValidatedMemoryOffsetRange_spec memS5 8589934592 1
      (by decide) (by decide) (by decide)).1 (by decide) (by decide),
   (getValidatedMemoryOffsetRange_spec memS5 16 8
      (by decide) (by decide) (by decide)).2.1 (by decide),
   (getValidatedMemoryOffsetRange_spec memS5 8589934600 0
      (by decide) (by decide) (by decide)).2.2 rfl (by decide)⟩

/-- The loop of `isAddressOwnedByMemory` answers true exactly when some registered
memory holds the address in its reservation. -/
theorem isAddressOwnedByMemory_iff (memories : List MemoryInstance) (p : Nat)
    (hres : ∀ m ∈ memories, m.baseAddress + m.endOffset < wordSize) :
    isAddressOwnedByMemory memories p = true ↔
      ∃ m ∈ memories, m.baseAddress ≤ p ∧ p < m.baseAddress + m.endOffset := by
  induction memories with
  | nil => simp [isAddressOwnedByMemory]
  | cons m rest ih =>
    have hm : (m.baseAddress + m.endOffset) % wordSize = m.baseAddress + m.endOffset :=
      Nat.mod_eq_of_lt (hres m (List.mem_cons_self m rest))
    have ih1 := ih (fun x hx => hres x (List.mem_cons_of_mem m hx))
    unfold isAddressOwnedByMemory
    simp only [hm]
    by_cases hin : p ≥ m.baseAddress ∧ p < m.baseAddress + m.endOffset
    · rw [if_pos hin]
      simp only [true_iff]
      exact ⟨m, List.mem_cons_self m rest, hin.1, hin.2⟩
    · rw [if_neg hin, ih1]
      constructor
      · rintro ⟨x, hx, hb⟩
        exact ⟨x, List.mem_cons_of_mem m hx, hb⟩
      · rintro ⟨x, hx, hb⟩
        rcases List.mem_cons.mp hx with rfl | hx1
        · exact absurd ⟨hb.1, hb.2⟩ hin
        · exact ⟨x, hx1, hb⟩

/-- C5: for every registry whose reservations do not wrap the address space and every
address `p`, `isAddressOwnedByMemory(p)` is true if and only if some registered memory
`m` has `baseAddress ≤ p < baseAddress + endOffset`; in particular the end address
`baseAddress + endOffset` of a registered memory is not owned by that memory: the
answer for it is false when the memory is alone in the registry, and a true answer is
always due to a different memory. -/
theorem isAddressOwnedByMemory_spec (memories : List MemoryInstance) (p : Nat)
    (hres : ∀ m ∈ memories, m.baseAddress + m.endOffset < wordSize) :
    (isAddressOwnedByMemory memories p = true ↔
        ∃ m ∈ memories, m.baseAddress ≤ p ∧ p < m.baseAddress + m.endOffset) ∧
      (∀ m ∈ memories, isAddressOwnedByMemory [m] (m.baseAddress + m.endOffset) = false) ∧
      (∀ m ∈ memories,
        isAddressOwnedByMemory memories (m.baseAddress + m.endOffset) = true →
          ∃ other ∈ memories, other ≠ m ∧ other.baseAddress ≤ m.baseAddress + m.endOffset ∧
            m.baseAddress + m.endOffset < other.baseAddress + other.endOffset) := by
  refine ⟨isAddressOwnedByMemory_iff memories p hres, ?_, ?_⟩
  · intro m hm
    have hone : ∀ x ∈ [m], x.baseAddress + x.endOffset < wordSize := by
      intro x hx
      rw [List.mem_singleton] at hx
      subst hx
      exact hres x hm
    cases hown : isAddressOwnedByMemory [m] (m.baseAddress + m.endOffset) with
    | false => rfl
    | true =>
      obtain ⟨x, hx, -, hlt⟩ := (isAddressOwnedByMemory_iff [m] _ hone).mp hown
      rw [List.mem_singleton] at hx
      subst hx
      exact absurd hlt (Nat.lt_irrefl _)
  · intro m _ hown
    obtain ⟨x, hx, hle, hlt⟩ := (isAddressOwnedByMemory_iff memories _ hres).mp hown
    refine ⟨x, hx, ?_, hle, hlt⟩
    intro hxm
    subst hxm
    exact absurd hlt (Nat.lt_irrefl _)

/-- Scenario S6: with memories A and B registered, the base of A is owned, the end
address of A is not, and the second byte of B is owned. -/
theorem isAddressOwnedByMemory_spec_witness :
    isAddressOwnedByMemory [memA, memB] memA.baseAddress = true ∧
      isAddressOwnedByMemory [memA, memB] (memA.baseAddress + memA.endOffset) = false ∧
      isAddressOwnedByMemory [memA, memB] (memB.baseAddress + 1) = true ∧
      isAddressOwnedByMemory [memA] (memA.baseAddress + memA.endOffset) = false :=
  have h := isAddressOwnedByMemory_spec [memA, memB] memA.baseAddress (by decide)
  ⟨h.1.mpr ⟨memA, by decide, by decide, by decide⟩, by decide, by decide,
    h.2.1 memA (by decide)⟩

/-! ## Theorems about `LLVMEmitNumeric.cpp` -/

/-! ### Signed readings -/

theorem two_pow_split {n : Nat} (hn : 0 < n) : 2 ^ n = 2 * 2 ^ (n - 1) := by
  obtain ⟨k, rfl⟩ : ∃ k, n = k + 1 := ⟨n - 1, by omega⟩
  simp [pow_succ, Nat.mul_comm]

theorem toSigned_bounds {n : Nat} (hn : 0 < n) {x : Nat} (hx : x < 2 ^ n) :
    -((2 ^ (n - 1) : Nat) : Int) ≤ toSigned n x ∧ toSigned n x < ((2 ^ (n - 1) : Nat) : Int) := by
  have h2 := two_pow_split hn
  unfold toSigned
  split <;> omega

theorem toSigned_ofSigned {n : Nat} (hn : 0 < n) {q : Int}
    (hlo : -((2 ^ (n - 1) : Nat) : Int) ≤ q) (hhi : q < ((2 ^ (n - 1) : Nat) : Int)) :
    ofSigned n q < 2 ^ n ∧ toSigned n (ofSigned n q) = q := by
  have h2 := two_pow_split hn
  have hpos : 0 < 2 ^ (n - 1) := Nat.pow_pos (by decide)
  by_cases hq : 0 ≤ q
  · have hmod : q % ((2 ^ n : Nat) : Int) = q := Int.emod_eq_of_lt hq (by omega)
    unfold toSigned ofSigned
    rw [hmod]
    have h3 : q.toNat < 2 ^ (n - 1) := by omega
    rw [if_pos h3]
    omega
  · have hmod : q % ((2 ^ n : Nat) : Int) = q + ((2 ^ n : Nat) : Int) := by
      rw [← Int.add_emod_self]
      exact Int.emod_eq_of_lt (by omega) (by omega)
    unfold toSigned ofSigned
    rw [hmod]
    have h3 : ¬ (q + ((2 ^ n : Nat) : Int)).toNat < 2 ^ (n - 1) := by omega
    rw [if_neg h3]
    omega

theorem natAbs_tmod (a b : Int) : (Int.tmod a b).natAbs = a.natAbs % b.natAbs := by
  cases a <;> cases b <;> simp [Int.tmod] <;> rfl

theorem tmod_range (a b : Int) (P : Nat) (hb : b ≠ 0) (hb2 : b.natAbs ≤ P) :
    -(P : Int) < Int.tmod a b ∧ Int.tmod a b < (P : Int) := by
  have h := natAbs_tmod a b
  have h1 : a.natAbs % b.natAbs < b.natAbs := Nat.mod_lt _ (by omega)
  omega

theorem tdiv_range (a b : Int) (P : Nat) (hb : b ≠ 0) (ha : -(P : Int) ≤ a) (ha2 : a < (P : Int))
    (hov : ¬ (a = -(P : Int) ∧ b = -1)) :
    -(P : Int) ≤ Int.tdiv a b ∧ Int.tdiv a b < (P : Int) := by
  have h := Int.natAbs_tdiv a b
  have hdiv : a.natAbs.div b.natAbs = a.natAbs / b.natAbs := rfl
  rw [hdiv] at h
  by_cases hb1 : b.natAbs = 1
  · rw [hb1, Nat.div_one] at h
    have hcases : b = 1 ∨ b = -1 := by omega
    rcases hcases with rfl | rfl
    · simp
      omega
    · simp
      omega
  · have hb2 : 2 ≤ b.natAbs := by omega
    have h3 : a.natAbs / b.natAbs ≤ a.natAbs / 2 := Nat.div_le_div_left hb2 (by decide)
    omega

/-! ### Runs of the binary operator template -/

theorem emitShiftCountMask_eq_mod (type : ValueType)
    (ht : type = ValueType.i32 ∨ type = ValueType.i64) (c : Nat) :
    emitShiftCountMask type c = c % getTypeBitWidth type := by
  rcases ht with rfl | rfl
  · exact Nat.and_pow_two_sub_one_eq_mod c 5
  · exact Nat.and_pow_two_sub_one_eq_mod c 6

theorem getTypeBitWidth_pos (type : ValueType) : 0 < getTypeBitWidth type := by
  cases type <;> decide

theorem EMIT_BINARY_OP_run (type : ValueType) (emitCode : ValueType → Nat → Nat → Run Nat)
    (left right : Nat) (rest : Stack) :
    EMIT_BINARY_OP type emitCode (right :: left :: rest)
      = Run.bind (emitCode type left right) (fun result => Run.pure (result :: rest)) := rfl

theorem native_bind_push (op : NativeOp) (bits left right v : Nat) (rest : Stack) :
    Run.bind (Run.native op bits left right (some v)) (fun result => Run.pure (result :: rest))
      = { issued := [{ op := op, bits := bits, left := left, right := right }],
          outcome := Outcome.value (v :: rest) } := rfl

theorem shl_run (type : ValueType) (ht : type = ValueType.i32 ∨ type = ValueType.i64)
    (x c : Nat) (s : Stack) :
    EmitFunctionContext.shl type (c :: x :: s)
      = { issued := [{ op := NativeOp.shl, bits := getTypeBitWidth type, left := x,
                       right := c % getTypeBitWidth type }],
          outcome := Outcome.value
            ((x <<< (c % getTypeBitWidth type)) % 2 ^ getTypeBitWidth type :: s) } := by
  have hlt : c % getTypeBitWidth type < getTypeBitWidth type :=
    Nat.mod_lt _ (getTypeBitWidth_pos type)
  unfold EmitFunctionContext.shl
  rw [EMIT_BINARY_OP_run, emitShiftCountMask_eq_mod type ht]
  unfold CreateShl asLLVMType
  rw [if_pos hlt, native_bind_push]

theorem shr_u_run (type : ValueType) (ht : type = ValueType.i32 ∨ type = ValueType.i64)
    (x c : Nat) (s : Stack) :
    EmitFunctionContext.shr_u type (c :: x :: s)
      = { issued := [{ op := NativeOp.lshr, bits := getTypeBitWidth type, left := x,
                       right := c % getTypeBitWidth type }],
          outcome := Outcome.value (x >>> (c % getTypeBitWidth type) :: s) } := by
  have hlt : c % getTypeBitWidth type < getTypeBitWidth type :=
    Nat.mod_lt _ (getTypeBitWidth_pos type)
  unfold EmitFunctionContext.shr_u
  rw [EMIT_BINARY_OP_run, emitShiftCountMask_eq_mod type ht]
  unfold CreateLShr asLLVMType
  rw [if_pos hlt, native_bind_push]

theorem shr_s_run (type : ValueType) (ht : type = ValueType.i32 ∨ type = ValueType.i64)
    (x c : Nat) (s : Stack) :
    EmitFunctionContext.shr_s type (c :: x :: s)
      = { issued := [{ op := NativeOp.ashr, bits := getTypeBitWidth type, left := x,
                       right := c % getTypeBitWidth type }],
          outcome := Outcome.value
            (ofSigned (getTypeBitWidth type)
              (toSigned (getTypeBitWidth type) x >>> (c % getTypeBitWidth type)) :: s) } := by
  have hlt : c % getTypeBitWidth type < getTypeBitWidth type :=
    Nat.mod_lt _ (getTypeBitWidth_pos type)
  unfold EmitFunctionContext.shr_s
  rw [EMIT_BINARY_OP_run, emitShiftCountMask_eq_mod type ht]
  unfold CreateAShr asLLVMType
  rw [if_pos hlt, native_bind_push]

/-- The arithmetic shift of a signed reading stays in the signed range. -/
theorem shiftRight_range {P : Nat} {a : Int} (k : Nat) (hlo : -(P : Int) ≤ a)
    (hhi : a < (P : Int)) :
    -(P : Int) ≤ a / ((2 ^ k : Nat) : Int) ∧ a / ((2 ^ k : Nat) : Int) < (P : Int) := by
  have hd : (0 : Int) < ((2 ^ k : Nat) : Int) := by
    have : 0 < 2 ^ k := Nat.pow_pos (by decide)
    omega
  have hd1 : (1 : Int) ≤ ((2 ^ k : Nat) : Int) := hd
  constructor
  · rw [Int.le_ediv_iff_mul_le hd]
    nlinarith
  · rw [Int.ediv_lt_iff_lt_mul hd]
    nlinarith

/-- C6: for `T` in `{i32, i64}` of width `n`, every operand `x` and every count `c`, the
code lowered for `shl`, `shr_u` and `shr_s` does for `(x, c)` exactly what it does for
`(x, c mod n)`, and pushes the mathematical shift of `x` by `c mod n`: `x * 2 ^ (c mod n)`
reduced modulo `2 ^ n`, the quotient `x / 2 ^ (c mod n)`, and the value whose signed
reading is the floor of the signed reading of `x` divided by `2 ^ (c mod n)`. -/
theorem shift_count_wrap (type : ValueType)
    (ht : type = ValueType.i32 ∨ type = ValueType.i64) (x c : Nat) (s : Stack)
    (hx : x < 2 ^ getTypeBitWidth type) :
    (EmitFunctionContext.shl type (c :: x :: s)
        = EmitFunctionContext.shl type (c % getTypeBitWidth type :: x :: s) ∧
      (EmitFunctionContext.shl type (c :: x :: s)).outcome
        = Outcome.value
            (x * 2 ^ (c % getTypeBitWidth type) % 2 ^ getTypeBitWidth type :: s)) ∧
    (EmitFunctionContext.shr_u type (c :: x :: s)
        = EmitFunctionContext.shr_u type (c % getTypeBitWidth type :: x :: s) ∧
      (EmitFunctionContext.shr_u type (c :: x :: s)).outcome
        = Outcome.value (x / 2 ^ (c % getTypeBitWidth type) :: s)) ∧
    (EmitFunctionContext.shr_s type (c :: x :: s)
        = EmitFunctionContext.shr_s type (c % getTypeBitWidth type :: x :: s) ∧
      ∃ r, (EmitFunctionContext.shr_s type (c :: x :: s)).outcome = Outcome.value (r :: s) ∧
        r < 2 ^ getTypeBitWidth type ∧
        toSigned (getTypeBitWidth type) r
          = toSigned (getTypeBitWidth type) x
              / ((2 ^ (c % getTypeBitWidth type) : Nat) : Int)) := by
  have hn := getTypeBitWidth_pos type
  refine ⟨⟨?_, ?_⟩, ⟨?_, ?_⟩, ⟨?_, ?_⟩⟩
  · rw [shl_run type ht, shl_run type ht, Nat.mod_mod]
  · rw [shl_run type ht, Nat.shiftLeft_eq]
  · rw [shr_u_run type ht, shr_u_run type ht, Nat.mod_mod]
  · rw [shr_u_run type ht, Nat.shiftRight_eq_div_pow]
  · rw [shr_s_run type ht, shr_s_run type ht, Nat.mod_mod]
  · rw [shr_s_run type ht, Int.shiftRight_eq_div_pow]
    obtain ⟨hlo, hhi⟩ := toSigned_bounds hn hx
    obtain ⟨hqlo, hqhi⟩ := shiftRight_range (c % getTypeBitWidth type) hlo hhi
    obtain ⟨hr, hback⟩ := toSigned_ofSigned hn hqlo hqhi
    exact ⟨_, rfl, hr, hback⟩

/-- Scenario S3 (`i32.const 1; i32.const 33; i32.shl` gives 2), and an arithmetic shift
of a negative value by an oversized count. -/
theorem shift_count_wrap_witness :
    (EmitFunctionContext.i32_shl [33, 1]).outcome = Outcome.value [2] ∧
      EmitFunctionContext.shl ValueType.i32 [33, 1] = EmitFunctionContext.shl ValueType.i32 [1, 1] ∧
      (EmitFunctionContext.shr_u ValueType.i64 [65, 8]).outcome = Outcome.value [4] :=
  have h := shift_count_wrap ValueType.i32 (Or.inl rfl) 1 33 [] (by decide)
  have h64 := shift_count_wrap ValueType.i64 (Or.inr rfl) 8 65 [] (by decide)
  ⟨h.1.2, h.1.1, h64.2.1.2⟩


theorem Run.pure_bind {α β : Type} (a : α) (f : α → Run β) : Run.bind (Run.pure a) f = f a :=
  rfl

theorem Run.bind_pure {α : Type} (r : Run α) : Run.bind r Run.pure = r := by
  obtain ⟨issued, outcome⟩ := r
  cases outcome <;> simp [Run.bind, Run.pure]

theorem trapDivideByZero_zero (type : ValueType) :
    trapDivideByZero type 0 = { issued := [], outcome := Outcome.trap TrapKind.divideByZero } :=
  rfl

theorem trapDivideByZero_ne_zero (type : ValueType) {y : Nat} (hy : y ≠ 0) :
    trapDivideByZero type y = Run.pure () := by
  unfold trapDivideByZero typedZeroConstants
  rw [if_neg hy]

theorem emitSRem_unfold (type : ValueType) (x y : Nat) :
    emitSRem type x y
      = Run.bind (trapDivideByZero type y) (fun _ =>
          if (CreateICmpNE x (if type = ValueType.i32 then 2147483648 else 9223372036854775808)
              || CreateICmpNE y
                  (if type = ValueType.i32 then 4294967295 else 18446744073709551615)) = true
          then Run.bind (CreateSRem (asLLVMType type) x y) Run.pure
          else Run.pure (typedZeroConstants type)) := rfl

theorem emitSRem_run (type : ValueType) (ht : type = ValueType.i32 ∨ type = ValueType.i64)
    (x y : Nat) :
    emitSRem type x y
      = if y = 0 then { issued := [], outcome := Outcome.trap TrapKind.divideByZero }
        else if x = 2 ^ (getTypeBitWidth type - 1) ∧ y = 2 ^ getTypeBitWidth type - 1 then
          { issued := [], outcome := Outcome.value 0 }
        else CreateSRem (getTypeBitWidth type) x y := by
  rw [emitSRem_unfold]
  by_cases hy : y = 0
  · subst hy
    rw [if_pos rfl, trapDivideByZero_zero]
    rfl
  · rw [if_neg hy, trapDivideByZero_ne_zero type hy, Run.pure_bind, Run.bind_pure]
    have hcond : ((CreateICmpNE x
          (if type = ValueType.i32 then 2147483648 else 9223372036854775808)
        || CreateICmpNE y
          (if type = ValueType.i32 then 4294967295 else 18446744073709551615)) = true)
        ↔ ¬ (x = 2 ^ (getTypeBitWidth type - 1) ∧ y = 2 ^ getTypeBitWidth type - 1) := by
      rcases ht with rfl | rfl <;>
        simp [CreateICmpNE, getTypeBitWidth, -not_and, not_and_or]
    by_cases hov : x = 2 ^ (getTypeBitWidth type - 1) ∧ y = 2 ^ getTypeBitWidth type - 1
    · rw [if_pos hov, if_neg (fun h => hcond.mp h hov)]
      rfl
    · rw [if_neg hov, if_pos (hcond.mpr hov)]
      rfl

theorem toSigned_eq_zero_iff {n : Nat} (hn : 0 < n) {y : Nat} (hy : y < 2 ^ n) :
    toSigned n y = 0 ↔ y = 0 := by
  have h2 := two_pow_split hn
  unfold toSigned
  split <;> omega

theorem toSigned_natAbs_le {n : Nat} (hn : 0 < n) {y : Nat} (hy : y < 2 ^ n) :
    (toSigned n y).natAbs ≤ 2 ^ (n - 1) := by
  obtain ⟨hlo, hhi⟩ := toSigned_bounds hn hy
  omega

theorem toSigned_overflow_pair {n : Nat} (hn : 0 < n) {x y : Nat} (hx : x < 2 ^ n)
    (hov : ¬ (x = 2 ^ (n - 1) ∧ y = 2 ^ n - 1)) :
    ¬ (toSigned n x = -((2 ^ (n - 1) : Nat) : Int) ∧ toSigned n y = -1) := by
  have h2 := two_pow_split hn
  have hpos : 0 < 2 ^ (n - 1) := Nat.pow_pos (by decide)
  unfold toSigned
  split <;> split <;> omega

theorem overflow_pair_ne_zero (n : Nat) : 2 ^ n - 1 ≠ 0 ∨ n = 0 := by
  rcases Nat.eq_zero_or_pos n with h | h
  · exact Or.inr h
  · left
    have h2 := two_pow_split h
    have hpos : 0 < 2 ^ (n - 1) := Nat.pow_pos (by decide)
    omega

theorem rem_s_run (type : ValueType) (x y : Nat) (s : Stack) :
    EmitFunctionContext.rem_s type (y :: x :: s)
      = Run.bind (emitSRem type x y) (fun result => Run.pure (result :: s)) := rfl

/-- C7: for `T` in `{i32, i64}` of width `n`, the code lowered for `rem_s` with dividend
`INT_MIN_T` and divisor -1 pushes 0, takes no trap edge and executes no native
instruction at all (so not the native `srem`); for every other pair with a non-zero
divisor it executes the native `srem` once, on the two operands, and pushes the value
whose signed reading is the remainder of the signed readings, truncated toward zero. -/
theorem rem_s_overflow (type : ValueType)
    (ht : type = ValueType.i32 ∨ type = ValueType.i64) (s : Stack) :
    EmitFunctionContext.rem_s type
        ((2 ^ getTypeBitWidth type - 1) :: 2 ^ (getTypeBitWidth type - 1) :: s)
      = { issued := [], outcome := Outcome.value (0 :: s) } ∧
    ∀ x y : Nat, x < 2 ^ getTypeBitWidth type → y < 2 ^ getTypeBitWidth type → y ≠ 0 →
      ¬ (x = 2 ^ (getTypeBitWidth type - 1) ∧ y = 2 ^ getTypeBitWidth type - 1) →
      ∃ r, EmitFunctionContext.rem_s type (y :: x :: s)
          = { issued := [{ op := NativeOp.srem, bits := getTypeBitWidth type, left := x,
                           right := y }],
              outcome := Outcome.value (r :: s) } ∧
        r < 2 ^ getTypeBitWidth type ∧
        toSigned (getTypeBitWidth type) r
          = Int.tmod (toSigned (getTypeBitWidth type) x) (toSigned (getTypeBitWidth type) y) := by
  have hn := getTypeBitWidth_pos type
  constructor
  · have hne : 2 ^ getTypeBitWidth type - 1 ≠ 0 := by
      rcases overflow_pair_ne_zero (getTypeBitWidth type) with h | h
      · exact h
      · omega
    rw [rem_s_run, emitSRem_run type ht, if_neg hne, if_pos ⟨rfl, rfl⟩]
    rfl
  · intro x y hx hy hy0 hov
    have hund : ¬ (y = 0 ∨ (x = 2 ^ (getTypeBitWidth type - 1)
        ∧ y = 2 ^ getTypeBitWidth type - 1)) := by
      rintro (h | h)
      · exact hy0 h
      · exact hov h
    have hsy0 : toSigned (getTypeBitWidth type) y ≠ 0 :=
      fun h => hy0 ((toSigned_eq_zero_iff hn hy).mp h)
    obtain ⟨hqlo, hqhi⟩ := tmod_range (toSigned (getTypeBitWidth type) x)
      (toSigned (getTypeBitWidth type) y) (2 ^ (getTypeBitWidth type - 1)) hsy0
      (toSigned_natAbs_le hn hy)
    obtain ⟨hr, hback⟩ := toSigned_ofSigned hn (Int.le_of_lt hqlo) hqhi
    refine ⟨_, ?_, hr, hback⟩
    rw [rem_s_run, emitSRem_run type ht, if_neg hy0, if_neg hov]
    unfold CreateSRem
    rw [if_neg hund, native_bind_push]

/-- Scenario S2 for `i32.rem_s` (result 0, no trap), and the remainder of -7 by 2. -/
theorem rem_s_overflow_witness :
    EmitFunctionContext.i32_rem_s [4294967295, 2147483648]
        = { issued := [], outcome := Outcome.value [0] } ∧
      ∃ r, EmitFunctionContext.rem_s ValueType.i32 [2, 4294967289]
          = { issued := [{ op := NativeOp.srem, bits := 32, left := 4294967289, right := 2 }],
              outcome := Outcome.value [r] } ∧
        r < 2 ^ 32 ∧ toSigned 32 r = Int.tmod (toSigned 32 4294967289) (toSigned 32 2) :=
  have h := rem_s_overflow ValueType.i32 (Or.inl rfl) []
  ⟨h.1, h.2 4294967289 2 (by decide) (by decide) (by decide) (by decide)⟩

theorem div_s_run (type : ValueType) (x y : Nat) (s : Stack) :
    EmitFunctionContext.div_s type (y :: x :: s)
      = Run.bind
          (Run.bind (trapDivideByZeroOrIntegerOverflow type x y)
            (fun _ => CreateSDiv (asLLVMType type) x y))
          (fun result => Run.pure (result :: s)) := rfl

theorem div_u_run (type : ValueType) (x y : Nat) (s : Stack) :
    EmitFunctionContext.div_u type (y :: x :: s)
      = Run.bind
          (Run.bind (trapDivideByZero type y) (fun _ => CreateUDiv (asLLVMType type) x y))
          (fun result => Run.pure (result :: s)) := rfl

theorem rem_u_run (type : ValueType) (x y : Nat) (s : Stack) :
    EmitFunctionContext.rem_u type (y :: x :: s)
      = Run.bind
          (Run.bind (trapDivideByZero type y) (fun _ => CreateURem (asLLVMType type) x y))
          (fun result => Run.pure (result :: s)) := rfl

theorem trapDivideByZeroOrIntegerOverflow_zero (type : ValueType) (x : Nat) :
    trapDivideByZeroOrIntegerOverflow type x 0
      = { issued := [], outcome := Outcome.trap TrapKind.divideByZero } := rfl

theorem trapDivideByZeroOrIntegerOverflow_overflow (type : ValueType) :
    trapDivideByZeroOrIntegerOverflow type (2 ^ (getTypeBitWidth type - 1))
        (2 ^ getTypeBitWidth type - 1)
      = { issued := [], outcome := Outcome.trap TrapKind.integerOverflow } := by
  have hne : 2 ^ getTypeBitWidth type - 1 ≠ 0 := by
    rcases overflow_pair_ne_zero (getTypeBitWidth type) with h | h
    · exact h
    · have := getTypeBitWidth_pos type
      omega
  unfold trapDivideByZeroOrIntegerOverflow typedZeroConstants
  rw [if_neg hne, if_pos ⟨rfl, rfl⟩]

theorem trapDivideByZeroOrIntegerOverflow_pass (type : ValueType) {x y : Nat} (hy : y ≠ 0)
    (hov : ¬ (x = 2 ^ (getTypeBitWidth type - 1) ∧ y = 2 ^ getTypeBitWidth type - 1)) :
    trapDivideByZeroOrIntegerOverflow type x y = Run.pure () := by
  unfold trapDivideByZeroOrIntegerOverflow typedZeroConstants
  rw [if_neg hy, if_neg hov]

/-- What `div_s` executes: nothing, or one native `sdiv` on the operands. -/
theorem div_s_issued (type : ValueType) (x y : Nat) (s : Stack) :
    (EmitFunctionContext.div_s type (y :: x :: s)).issued = []
      ∨ (y ≠ 0 ∧ (EmitFunctionContext.div_s type (y :: x :: s)).issued
          = [{ op := NativeOp.sdiv, bits := getTypeBitWidth type, left := x, right := y }]) := by
  rw [div_s_run]
  by_cases hy : y = 0
  · subst hy
    rw [trapDivideByZeroOrIntegerOverflow_zero]
    exact Or.inl rfl
  · by_cases hov : x = 2 ^ (getTypeBitWidth type - 1) ∧ y = 2 ^ getTypeBitWidth type - 1
    · obtain ⟨rfl, rfl⟩ := hov
      rw [trapDivideByZeroOrIntegerOverflow_overflow]
      exact Or.inl rfl
    · right
      refine ⟨hy, ?_⟩
      rw [trapDivideByZeroOrIntegerOverflow_pass type hy hov, Run.pure_bind]
      unfold CreateSDiv Run.native Run.bind asLLVMType
      split <;> rfl

/-- What `rem_s` executes: nothing, or one native `srem` on the operands. -/
theorem rem_s_issued (type : ValueType) (ht : type = ValueType.i32 ∨ type = ValueType.i64)
    (x y : Nat) (s : Stack) :
    (EmitFunctionContext.rem_s type (y :: x :: s)).issued = []
      ∨ (y ≠ 0 ∧ (EmitFunctionContext.rem_s type (y :: x :: s)).issued
          = [{ op := NativeOp.srem, bits := getTypeBitWidth type, left := x, right := y }]) := by
  rw [rem_s_run, emitSRem_run type ht]
  by_cases hy : y = 0
  · rw [if_pos hy]
    exact Or.inl rfl
  · rw [if_neg hy]
    by_cases hov : x = 2 ^ (getTypeBitWidth type - 1) ∧ y = 2 ^ getTypeBitWidth type - 1
    · rw [if_pos hov]
      exact Or.inl rfl
    · rw [if_neg hov]
      right
      refine ⟨hy, ?_⟩
      unfold CreateSRem Run.native Run.bind
      split <;> rfl

/-- What `div_u` executes: nothing, or one native `udiv` on the operands. -/
theorem div_u_issued (type : ValueType) (x y : Nat) (s : Stack) :
    (EmitFunctionContext.div_u type (y :: x :: s)).issued = []
      ∨ (y ≠ 0 ∧ (EmitFunctionContext.div_u type (y :: x :: s)).issued
          = [{ op := NativeOp.udiv, bits := getTypeBitWidth type, left := x, right := y }]) := by
  rw [div_u_run]
  by_cases hy : y = 0
  · subst hy
    rw [trapDivideByZero_zero]
    exact Or.inl rfl
  · right
    refine ⟨hy, ?_⟩
    rw [trapDivideByZero_ne_zero type hy, Run.pure_bind]
    unfold CreateUDiv Run.native Run.bind asLLVMType
    split <;> rfl

/-- What `rem_u` executes: nothing, or one native `urem` on the operands. -/
theorem rem_u_issued (type : ValueType) (x y : Nat) (s : Stack) :
    (EmitFunctionContext.rem_u type (y :: x :: s)).issued = []
      ∨ (y ≠ 0 ∧ (EmitFunctionContext.rem_u type (y :: x :: s)).issued
          = [{ op := NativeOp.urem, bits := getTypeBitWidth type, left := x, right := y }]) := by
  rw [rem_u_run]
  by_cases hy : y = 0
  · subst hy
    rw [trapDivideByZero_zero]
    exact Or.inl rfl
  · right
    refine ⟨hy, ?_⟩
    rw [trapDivideByZero_ne_zero type hy, Run.pure_bind]
    unfold CreateURem Run.native Run.bind asLLVMType
    split <;> rfl

theorem issued_right_ne_zero {r : Run Stack} {op : NativeOp} {bits x y : Nat}
    (h : r.issued = [] ∨ (y ≠ 0 ∧ r.issued = [{ op := op, bits := bits, left := x, right := y }]))
    : ∀ i ∈ r.issued, i.right ≠ 0 := by
  intro i hi
  rcases h with h | ⟨hy, h⟩
  · rw [h] at hi
    cases hi
  · rw [h, List.mem_singleton] at hi
    subst hi
    exact hy

/-- C8: for `T` in `{i32, i64}` and every dividend `x`, each of `div_s`, `div_u`, `rem_s`
and `rem_u` applied to `(x, 0)` ends on the divide-by-zero trap edge without executing
any native instruction; and for every pair of operands, no native instruction executed
by any of the four operators has a zero right-hand (divisor) operand. -/
theorem divide_by_zero_traps (type : ValueType)
    (ht : type = ValueType.i32 ∨ type = ValueType.i64) (x : Nat) (s : Stack) :
    (EmitFunctionContext.div_s type (0 :: x :: s)
        = { issued := [], outcome := Outcome.trap TrapKind.divideByZero } ∧
      EmitFunctionContext.div_u type (0 :: x :: s)
        = { issued := [], outcome := Outcome.trap TrapKind.divideByZero } ∧
      EmitFunctionContext.rem_s type (0 :: x :: s)
        = { issued := [], outcome := Outcome.trap TrapKind.divideByZero } ∧
      EmitFunctionContext.rem_u type (0 :: x :: s)
        = { issued := [], outcome := Outcome.trap TrapKind.divideByZero }) ∧
    ∀ y : Nat,
      (∀ i ∈ (EmitFunctionContext.div_s type (y :: x :: s)).issued, i.right ≠ 0) ∧
      (∀ i ∈ (EmitFunctionContext.div_u type (y :: x :: s)).issued, i.right ≠ 0) ∧
      (∀ i ∈ (EmitFunctionContext.rem_s type (y :: x :: s)).issued, i.right ≠ 0) ∧
      (∀ i ∈ (EmitFunctionContext.rem_u type (y :: x :: s)).issued, i.right ≠ 0) := by
  refine ⟨⟨?_, ?_, ?_, ?_⟩, fun y => ⟨?_, ?_, ?_, ?_⟩⟩
  · rw [div_s_run, trapDivideByZeroOrIntegerOverflow_zero]
    rfl
  · rw [div_u_run, trapDivideByZero_zero]
    rfl
  · rw [rem_s_run, emitSRem_run type ht, if_pos rfl]
    rfl
  · rw [rem_u_run, trapDivideByZero_zero]
    rfl
  · exact issued_right_ne_zero (div_s_issued type x y s)
  · exact issued_right_ne_zero (div_u_issued type x y s)
  · exact issued_right_ne_zero (rem_s_issued type ht x y s)
  · exact issued_right_ne_zero (rem_u_issued type x y s)

/-- Scenario S1: `i32.const -1; i32.const 0; i32.div_s` traps divide-by-zero. -/
theorem divide_by_zero_traps_witness :
    EmitFunctionContext.i32_div_s [0, 4294967295]
        = { issued := [], outcome := Outcome.trap TrapKind.divideByZero } ∧
      EmitFunctionContext.rem_u ValueType.i64 [0, 5]
        = { issued := [], outcome := Outcome.trap TrapKind.divideByZero } :=
  ⟨(divide_by_zero_traps ValueType.i32 (Or.inl rfl) 4294967295 []).1.1,
   (divide_by_zero_traps ValueType.i64 (Or.inr rfl) 5 []).1.2.2.2⟩

/-- C9: for `T` in `{i32, i64}` of width `n`, `div_s` applied to dividend `INT_MIN_T` and
divisor -1 ends on the integer-overflow trap edge; for every other pair of operands
with a non-zero divisor it takes no trap edge, executes the native `sdiv` once, and
pushes the value whose signed reading is the quotient of the signed readings, truncated
toward zero. -/
theorem div_s_overflow (type : ValueType)
    (_ht : type = ValueType.i32 ∨ type = ValueType.i64) (s : Stack) :
    EmitFunctionContext.div_s type
        ((2 ^ getTypeBitWidth type - 1) :: 2 ^ (getTypeBitWidth type - 1) :: s)
      = { issued := [], outcome := Outcome.trap TrapKind.integerOverflow } ∧
    ∀ x y : Nat, x < 2 ^ getTypeBitWidth type → y < 2 ^ getTypeBitWidth type → y ≠ 0 →
      ¬ (x = 2 ^ (getTypeBitWidth type - 1) ∧ y = 2 ^ getTypeBitWidth type - 1) →
      ∃ r, EmitFunctionContext.div_s type (y :: x :: s)
          = { issued := [{ op := NativeOp.sdiv, bits := getTypeBitWidth type, left := x,
                           right := y }],
              outcome := Outcome.value (r :: s) } ∧
        r < 2 ^ getTypeBitWidth type ∧
        toSigned (getTypeBitWidth type) r
          = Int.tdiv (toSigned (getTypeBitWidth type) x) (toSigned (getTypeBitWidth type) y) := by
  have hn := getTypeBitWidth_pos type
  constructor
  · rw [div_s_run, trapDivideByZeroOrIntegerOverflow_overflow]
    rfl
  · intro x y hx hy hy0 hov
    have hund : ¬ (y = 0 ∨ (x = 2 ^ (getTypeBitWidth type - 1)
        ∧ y = 2 ^ getTypeBitWidth type - 1)) := by
      rintro (h | h)
      · exact hy0 h
      · exact hov h
    have hsy0 : toSigned (getTypeBitWidth type) y ≠ 0 :=
      fun h => hy0 ((toSigned_eq_zero_iff hn hy).mp h)
    obtain ⟨hxlo, hxhi⟩ := toSigned_bounds hn hx
    obtain ⟨hqlo, hqhi⟩ := tdiv_range (toSigned (getTypeBitWidth type) x)
      (toSigned (getTypeBitWidth type) y) (2 ^ (getTypeBitWidth type - 1)) hsy0 hxlo hxhi
      (toSigned_overflow_pair hn hx hov)
    obtain ⟨hr, hback⟩ := toSigned_ofSigned hn hqlo hqhi
    refine ⟨_, ?_, hr, hback⟩
    rw [div_s_run, trapDivideByZeroOrIntegerOverflow_pass type hy0 hov, Run.pure_bind]
    unfold CreateSDiv asLLVMType
    rw [if_neg hund, native_bind_push]

/-- Scenario S2 for `i32.div_s` (integer-overflow trap), and the quotient of -7 by 2. -/
theorem div_s_overflow_witness :
    EmitFunctionContext.i32_div_s [4294967295, 2147483648]
        = { issued := [], outcome := Outcome.trap TrapKind.integerOverflow } ∧
      ∃ r, EmitFunctionContext.div_s ValueType.i32 [2, 4294967289]
          = { issued := [{ op := NativeOp.sdiv, bits := 32, left := 4294967289, right := 2 }],
              outcome := Outcome.value [r] } ∧
        r < 2 ^ 32 ∧ toSigned 32 r = Int.tdiv (toSigned 32 4294967289) (toSigned 32 2) :=
  have h := div_s_overflow ValueType.i32 (Or.inl rfl) []
  ⟨h.1, h.2 4294967289 2 (by decide) (by decide) (by decide) (by decide)⟩

/-! ### Rotations -/

/-- Bits of the word assembled by a rotation: a left shift by `k` and a right shift by
the complementary count `k2`. -/
theorem rot_testBit (n k k2 x i : Nat) (hx : x < 2 ^ n) (hi : i < n)
    (hkk : (k = 0 ∧ k2 = 0) ∨ (0 < k ∧ k + k2 = n)) :
    ((x <<< k) % 2 ^ n ||| x >>> k2).testBit i
      = x.testBit (if k ≤ i then i - k else i + k2) := by
  rw [Nat.testBit_or, Nat.testBit_mod_two_pow, Nat.testBit_shiftLeft, Nat.testBit_shiftRight]
  rcases hkk with ⟨rfl, rfl⟩ | ⟨hk, hsum⟩
  · simp [hi]
  · by_cases hki : k ≤ i
    · have hhigh : x.testBit (k2 + i) = false :=
        Nat.testBit_lt_two_pow (Nat.lt_of_lt_of_le hx (Nat.pow_le_pow_right (by decide) (by omega)))
      simp [hi, hki, hhigh]
    · have hcomm : k2 + i = i + k2 := Nat.add_comm _ _
      simp [hi, hki, hcomm]

theorem rot_lt (n k k2 x : Nat) (hx : x < 2 ^ n) :
    ((x <<< k) % 2 ^ n ||| x >>> k2) < 2 ^ n := by
  apply Nat.or_lt_two_pow
  · exact Nat.mod_lt _ (Nat.pow_pos (by decide))
  · rw [Nat.shiftRight_eq_div_pow]
    exact Nat.lt_of_le_of_lt (Nat.div_le_self _ _) hx

theorem emitShiftCountMask_sub (type : ValueType)
    (ht : type = ValueType.i32 ∨ type = ValueType.i64) (c : Nat) :
    emitShiftCountMask type
        (CreateSub (asLLVMType type) (CreateZExt (getTypeBitWidth type % 256)) c)
      = (getTypeBitWidth type - c % getTypeBitWidth type) % getTypeBitWidth type := by
  rw [emitShiftCountMask_eq_mod type ht]
  rcases ht with rfl | rfl
  · simp only [CreateSub, CreateZExt, asLLVMType, getTypeBitWidth]
    norm_num
    omega
  · simp only [CreateSub, CreateZExt, asLLVMType, getTypeBitWidth]
    norm_num
    omega

theorem rotl_run (type : ValueType) (ht : type = ValueType.i32 ∨ type = ValueType.i64)
    (x c : Nat) (s : Stack) :
    EmitFunctionContext.rotl type (c :: x :: s)
      = { issued :=
            [{ op := NativeOp.shl, bits := getTypeBitWidth type, left := x,
               right := c % getTypeBitWidth type },
             { op := NativeOp.lshr, bits := getTypeBitWidth type, left := x,
               right := (getTypeBitWidth type - c % getTypeBitWidth type)
                 % getTypeBitWidth type }],
          outcome := Outcome.value
            (((x <<< (c % getTypeBitWidth type)) % 2 ^ getTypeBitWidth type
              ||| x >>> ((getTypeBitWidth type - c % getTypeBitWidth type)
                % getTypeBitWidth type)) :: s) } := by
  have hn := getTypeBitWidth_pos type
  have hlt : c % getTypeBitWidth type < getTypeBitWidth type := Nat.mod_lt _ hn
  have hlt2 : (getTypeBitWidth type - c % getTypeBitWidth type) % getTypeBitWidth type
      < getTypeBitWidth type := Nat.mod_lt _ hn
  have hunf : EmitFunctionContext.rotl type (c :: x :: s)
      = Run.bind
          (Run.bind (CreateShl (asLLVMType type) x (emitShiftCountMask type c)) (fun high =>
            Run.bind
              (CreateLShr (asLLVMType type) x
                (emitShiftCountMask type
                  (CreateSub (asLLVMType type) (CreateZExt (getTypeBitWidth type % 256)) c)))
              (fun low => Run.pure (CreateOr high low))))
          (fun result => Run.pure (result :: s)) := rfl
  rw [hunf, emitShiftCountMask_sub type ht, emitShiftCountMask_eq_mod type ht]
  unfold CreateShl CreateLShr asLLVMType
  rw [if_pos hlt, if_pos hlt2]
  rfl

theorem rotr_run (type : ValueType) (ht : type = ValueType.i32 ∨ type = ValueType.i64)
    (x c : Nat) (s : Stack) :
    EmitFunctionContext.rotr type (c :: x :: s)
      = { issued :=
            [{ op := NativeOp.shl, bits := getTypeBitWidth type, left := x,
               right := (getTypeBitWidth type - c % getTypeBitWidth type)
                 % getTypeBitWidth type },
             { op := NativeOp.lshr, bits := getTypeBitWidth type, left := x,
               right := c % getTypeBitWidth type }],
          outcome := Outcome.value
            (((x <<< ((getTypeBitWidth type - c % getTypeBitWidth type)
                  % getTypeBitWidth type)) % 2 ^ getTypeBitWidth type
              ||| x >>> (c % getTypeBitWidth type)) :: s) } := by
  have hn := getTypeBitWidth_pos type
  have hlt : c % getTypeBitWidth type < getTypeBitWidth type := Nat.mod_lt _ hn
  have hlt2 : (getTypeBitWidth type - c % getTypeBitWidth type) % getTypeBitWidth type
      < getTypeBitWidth type := Nat.mod_lt _ hn
  have hunf : EmitFunctionContext.rotr type (c :: x :: s)
      = Run.bind
          (Run.bind
            (CreateShl (asLLVMType type) x
              (emitShiftCountMask type
                (CreateSub (asLLVMType type) (CreateZExt (getTypeBitWidth type % 256)) c)))
            (fun high =>
              Run.bind (CreateLShr (asLLVMType type) x (emitShiftCountMask type c))
                (fun low => Run.pure (CreateOr high low))))
          (fun result => Run.pure (result :: s)) := rfl
  rw [hunf, emitShiftCountMask_sub type ht, emitShiftCountMask_eq_mod type ht]
  unfold CreateShl CreateLShr asLLVMType
  rw [if_pos hlt, if_pos hlt2]
  rfl

/-- The two counts of a rotation are complementary. -/
theorem rot_counts (n c : Nat) (hn : 0 < n) :
    (c % n = 0 ∧ (n - c % n) % n = 0) ∨ (0 < c % n ∧ c % n + (n - c % n) % n = n) := by
  have hlt : c % n < n := Nat.mod_lt _ hn
  rcases Nat.eq_zero_or_pos (c % n) with h | h
  · left
    rw [h]
    exact ⟨rfl, by simp⟩
  · right
    have h2 : (n - c % n) % n = n - c % n := Nat.mod_eq_of_lt (by omega)
    rw [h2]
    exact ⟨h, by omega⟩

theorem rot_counts_swap (n c : Nat) (hn : 0 < n) :
    ((n - c % n) % n = 0 ∧ c % n = 0)
      ∨ (0 < (n - c % n) % n ∧ (n - c % n) % n + c % n = n) := by
  rcases rot_counts n c hn with ⟨h1, h2⟩ | ⟨h1, h2⟩
  · exact Or.inl ⟨h2, h1⟩
  · right
    have hlt : c % n < n := Nat.mod_lt _ hn
    constructor <;> omega

theorem rotl_index (n k i : Nat) (hk : k < n) (hi : i < n) :
    (if k ≤ i then i - k else i + (n - k) % n) = (i + n - k) % n := by
  by_cases h : k ≤ i
  · rw [if_pos h]
    have h1 : i + n - k = (i - k) + n := by omega
    have h3 : i - k < n := by omega
    rw [h1, Nat.add_mod_right, Nat.mod_eq_of_lt h3]
  · have h2 : (n - k) % n = n - k := Nat.mod_eq_of_lt (by omega)
    have h3 : i + n - k < n := by omega
    rw [if_neg h, h2, Nat.mod_eq_of_lt h3]
    omega

theorem rotr_index (n k i : Nat) (hk : k < n) (hi : i < n) :
    (if (n - k) % n ≤ i then i - (n - k) % n else i + k) = (i + k) % n := by
  rcases Nat.eq_zero_or_pos k with h0 | hpos
  · subst h0
    simp [Nat.mod_eq_of_lt hi]
  · have h2 : (n - k) % n = n - k := Nat.mod_eq_of_lt (by omega)
    rw [h2]
    by_cases h : n - k ≤ i
    · have h1 : i + k = (i - (n - k)) + n := by omega
      have h3 : i - (n - k) < n := by omega
      rw [if_pos h, h1, Nat.add_mod_right, Nat.mod_eq_of_lt h3]
    · have h3 : i + k < n := by omega
      rw [if_neg h, Nat.mod_eq_of_lt h3]

/-- C10: for `T` in `{i32, i64}` of width `n`, every `x` and every count `c`, the value
pushed by `rotl` is `x` rotated left by `c mod n` (bit `i` of the result is bit
`(i - c mod n) mod n` of `x`) and the value pushed by `rotr` is `x` rotated right by
`c mod n` (bit `i` of the result is bit `(i + c mod n) mod n` of `x`); in particular a
rotation by `n` gives `x` back; and every native shift that the two operators execute
has a count below `n`. -/
theorem rotate_spec (type : ValueType)
    (ht : type = ValueType.i32 ∨ type = ValueType.i64) (x c : Nat) (s : Stack)
    (hx : x < 2 ^ getTypeBitWidth type) :
    (∃ r, (EmitFunctionContext.rotl type (c :: x :: s)).outcome = Outcome.value (r :: s) ∧
        r < 2 ^ getTypeBitWidth type ∧
        ∀ i, i < getTypeBitWidth type →
          r.testBit i
            = x.testBit ((i + getTypeBitWidth type - c % getTypeBitWidth type)
                % getTypeBitWidth type)) ∧
    (∃ r, (EmitFunctionContext.rotr type (c :: x :: s)).outcome = Outcome.value (r :: s) ∧
        r < 2 ^ getTypeBitWidth type ∧
        ∀ i, i < getTypeBitWidth type →
          r.testBit i
            = x.testBit ((i + c % getTypeBitWidth type) % getTypeBitWidth type)) ∧
    (EmitFunctionContext.rotl type (getTypeBitWidth type :: x :: s)).outcome
      = Outcome.value (x :: s) ∧
    (EmitFunctionContext.rotr type (getTypeBitWidth type :: x :: s)).outcome
      = Outcome.value (x :: s) ∧
    (∀ i ∈ (EmitFunctionContext.rotl type (c :: x :: s)).issued, i.right < i.bits) ∧
    (∀ i ∈ (EmitFunctionContext.rotr type (c :: x :: s)).issued, i.right < i.bits) := by
  have hn := getTypeBitWidth_pos type
  have hlt : c % getTypeBitWidth type < getTypeBitWidth type := Nat.mod_lt _ hn
  have hlt2 : (getTypeBitWidth type - c % getTypeBitWidth type) % getTypeBitWidth type
      < getTypeBitWidth type := Nat.mod_lt _ hn
  have hself : x <<< 0 % 2 ^ getTypeBitWidth type ||| x >>> 0 = x := by
    simp [Nat.mod_eq_of_lt hx]
  refine ⟨⟨_, by rw [rotl_run type ht], rot_lt _ _ _ _ hx, ?_⟩,
    ⟨_, by rw [rotr_run type ht], rot_lt _ _ _ _ hx, ?_⟩, ?_, ?_, ?_, ?_⟩
  · intro i hi
    rw [rot_testBit _ _ _ _ _ hx hi (rot_counts _ c hn), rotl_index _ _ _ hlt hi]
  · intro i hi
    rw [rot_testBit _ _ _ _ _ hx hi (rot_counts_swap _ c hn), rotr_index _ _ _ hlt hi]
  · rw [rotl_run type ht]
    simp only [Nat.mod_self, Nat.sub_zero]
    rw [hself]
  · rw [rotr_run type ht]
    simp only [Nat.mod_self, Nat.sub_zero]
    rw [hself]
  · intro i hi
    rw [rotl_run type ht] at hi
    simp only [List.mem_cons, List.mem_singleton, List.not_mem_nil, or_false] at hi
    rcases hi with rfl | rfl
    · exact hlt
    · exact hlt2
  · intro i hi
    rw [rotr_run type ht] at hi
    simp only [List.mem_cons, List.mem_singleton, List.not_mem_nil, or_false] at hi
    rcases hi with rfl | rfl
    · exact hlt2
    · exact hlt

/-- Rotations of `0xF0000001` by 4 and by 36, and of a word by the full width. -/
theorem rotate_spec_witness :
    (EmitFunctionContext.rotl ValueType.i32 [32, 4026531841]).outcome
        = Outcome.value [4026531841] ∧
      (EmitFunctionContext.rotr ValueType.i64 [64, 4026531841]).outcome
        = Outcome.value [4026531841] ∧
      (EmitFunctionContext.rotl ValueType.i32 [36, 4026531841]).outcome = Outcome.value [31] ∧
      ∀ i ∈ (EmitFunctionContext.rotl ValueType.i32 [36, 4026531841]).issued, i.right < i.bits :=
  have h := rotate_spec ValueType.i32 (Or.inl rfl) 4026531841 36 [] (by decide)
  have h64 := rotate_spec ValueType.i64 (Or.inr rfl) 4026531841 64 [] (by decide)
  ⟨(rotate_spec ValueType.i32 (Or.inl rfl) 4026531841 32 [] (by decide)).2.2.1,
   h64.2.2.2.1, by decide, h.2.2.2.2.1⟩

/-! ## Theorems about the SIMD operators -/

/-! ### Lanes -/

theorem lane_lt (w i v : Nat) : lane w i v < 2 ^ w :=
  Nat.mod_lt _ (Nat.pow_pos (by decide))

theorem lane_mod (w i v : Nat) : lane w i v % 2 ^ w = lane w i v :=
  Nat.mod_eq_of_lt (lane_lt w i v)

theorem lane_zero (w i : Nat) : lane w i 0 = 0 := by
  simp [lane]

theorem ofLanes_cons_shift (w x : Nat) (rest : List Nat) :
    ofLanes w (x :: rest) >>> w = ofLanes w rest := by
  have hpos : 0 < 2 ^ w := Nat.pow_pos (by decide)
  have hlt : x % 2 ^ w < 2 ^ w := Nat.mod_lt _ hpos
  show (x % 2 ^ w + 2 ^ w * ofLanes w rest) >>> w = ofLanes w rest
  rw [Nat.shiftRight_eq_div_pow, Nat.add_mul_div_left _ _ hpos, Nat.div_eq_of_lt hlt,
    Nat.zero_add]

/-- Lane `i` of an assembled vector is the `i`-th given lane, reduced to the lane
width; past the given lanes it is zero. -/
theorem lane_ofLanes (w : Nat) : ∀ (l : List Nat) (i : Nat),
    lane w i (ofLanes w l) = l.getD i 0 % 2 ^ w
  | [], i => by
    show lane w i 0 = _
    rw [lane_zero]
    simp
  | x :: rest, 0 => by
    show ((x % 2 ^ w + 2 ^ w * ofLanes w rest) >>> (w * 0)) % 2 ^ w = _
    simp [Nat.add_mul_mod_self_left]
  | x :: rest, i + 1 => by
    have ih := lane_ofLanes w rest i
    have hshift : ofLanes w (x :: rest) >>> (w * (i + 1))
        = ofLanes w rest >>> (w * i) := by
      rw [Nat.mul_succ, Nat.add_comm (w * i) w, Nat.shiftRight_add, ofLanes_cons_shift]
    show (ofLanes w (x :: rest) >>> (w * (i + 1))) % 2 ^ w = _
    rw [hshift]
    simpa [lane] using ih

theorem lane_buildVector (type : VectorType) (f : Nat → Nat) (i : Nat)
    (hi : i < type.numLanes) :
    lane type.scalarBits i (buildVector type f) = f i % 2 ^ type.scalarBits := by
  unfold buildVector
  rw [lane_ofLanes]
  simp [List.getD_eq_getElem?_getD, hi]

theorem EMIT_SIMD_BINARY_OP_pure (llvmType : VectorType) (f : Nat → Nat → Nat)
    (left right : Nat) (rest : Stack) :
    EMIT_SIMD_BINARY_OP llvmType (fun left right => pure (f left right)) (right :: left :: rest)
      = { issued := [], outcome := Outcome.value (f left right :: rest) } := rfl

/-! ### Saturating arithmetic -/

theorem lane_emitAddUnsignedSaturated (type : VectorType) (left right i : Nat)
    (hi : i < type.numLanes) :
    lane type.scalarBits i (emitAddUnsignedSaturated left right type)
      = min (lane type.scalarBits i left + lane type.scalarBits i right)
          (2 ^ type.scalarBits - 1) := by
  have hpos : 0 < 2 ^ type.scalarBits := Nat.pow_pos (by decide)
  have ha := lane_lt type.scalarBits i left
  have hb := lane_lt type.scalarBits i right
  have hcond : lane 1 i (Vec.CreateICmpUGT type left (Vec.CreateAdd type left right))
      = if lane type.scalarBits i left
            > (lane type.scalarBits i left + lane type.scalarBits i right)
                % 2 ^ type.scalarBits then 1 else 0 := by
    unfold Vec.CreateICmpUGT Vec.CreateAdd
    rw [lane_buildVector { scalarBits := 1, numLanes := type.numLanes } _ i hi,
      lane_buildVector type _ i hi, Nat.mod_mod]
    split <;> rfl
  unfold emitAddUnsignedSaturated CreateBitCast
  simp only []
  unfold Vec.CreateSelect
  rw [lane_buildVector type _ i hi, hcond]
  unfold Vec.getAllOnesValue Vec.CreateAdd
  rw [lane_buildVector type _ i hi, lane_buildVector type _ i hi, Nat.mod_mod]
  by_cases hsum : lane type.scalarBits i left + lane type.scalarBits i right
      < 2 ^ type.scalarBits
  · rw [Nat.mod_eq_of_lt hsum]
    have hng : ¬ lane type.scalarBits i left
        > lane type.scalarBits i left + lane type.scalarBits i right := by omega
    rw [if_neg hng, if_neg (by decide), Nat.mod_eq_of_lt hsum]
    omega
  · have hwrap : (lane type.scalarBits i left + lane type.scalarBits i right)
          % 2 ^ type.scalarBits
        = lane type.scalarBits i left + lane type.scalarBits i right
            - 2 ^ type.scalarBits := by
      rw [Nat.mod_eq_sub_mod (by omega)]
      exact Nat.mod_eq_of_lt (by omega)
    rw [hwrap]
    have hg : lane type.scalarBits i left
        > lane type.scalarBits i left + lane type.scalarBits i right
            - 2 ^ type.scalarBits := by omega
    rw [if_pos hg, if_pos rfl, Nat.mod_mod, Nat.mod_eq_of_lt (by omega)]
    omega

theorem lane_emitSubUnsignedSaturated (type : VectorType) (left right i : Nat)
    (hi : i < type.numLanes) :
    lane type.scalarBits i (emitSubUnsignedSaturated left right type)
      = if lane type.scalarBits i left ≥ lane type.scalarBits i right
        then lane type.scalarBits i left - lane type.scalarBits i right else 0 := by
  have hpos : 0 < 2 ^ type.scalarBits := Nat.pow_pos (by decide)
  have ha := lane_lt type.scalarBits i left
  have hb := lane_lt type.scalarBits i right
  have hcond : lane 1 i (createICmpWithWorkaroundUGT type left right)
      = if lane type.scalarBits i left > lane type.scalarBits i right then 1 else 0 := by
    unfold createICmpWithWorkaroundUGT Vec.CreateICmpUGT
    rw [lane_buildVector { scalarBits := 1, numLanes := type.numLanes } _ i hi]
    split <;> rfl
  unfold emitSubUnsignedSaturated CreateBitCast
  simp only []
  unfold Vec.CreateSub
  rw [lane_buildVector type _ i hi]
  unfold Vec.CreateSelect
  rw [lane_buildVector type _ i hi, hcond]
  by_cases hgt : lane type.scalarBits i left > lane type.scalarBits i right
  · rw [if_pos hgt, if_pos rfl, lane_mod, if_pos (by omega)]
    have h1 : lane type.scalarBits i left
          + (2 ^ type.scalarBits - lane type.scalarBits i right)
        = (lane type.scalarBits i left - lane type.scalarBits i right)
            + 2 ^ type.scalarBits := by omega
    rw [h1, Nat.add_mod_right, Nat.mod_mod]
    exact Nat.mod_eq_of_lt (by omega)
  · rw [if_neg hgt, if_neg (by decide), lane_mod]
    have h1 : lane type.scalarBits i right
          + (2 ^ type.scalarBits - lane type.scalarBits i right)
        = 2 ^ type.scalarBits := by omega
    rw [h1, Nat.mod_self, Nat.zero_mod]
    split <;> omega

/-- C11: for the lane shapes `i8x16` and `i16x8` (lane width `w` of 8 and 16 bits), every
pair of operands and every lane `i`, lane `i` of the value pushed by `add_saturate_u`
is `min (a + b) (2 ^ w - 1)` over the natural numbers, where `a` and `b` are lane `i` of
the left and of the right operand. -/
theorem add_saturate_u_spec (type : VectorType)
    (_ht : type = llvmI8x16Type ∨ type = llvmI16x8Type) (left right : Nat) (s : Stack) :
    ∃ r, EmitFunctionContext.add_saturate_u type (right :: left :: s)
        = { issued := [], outcome := Outcome.value (r :: s) } ∧
      ∀ i, i < type.numLanes →
        lane type.scalarBits i r
          = min (lane type.scalarBits i left + lane type.scalarBits i right)
              (2 ^ type.scalarBits - 1) := by
  refine ⟨emitAddUnsignedSaturated left right type, ?_, ?_⟩
  · unfold EmitFunctionContext.add_saturate_u
    rw [EMIT_SIMD_BINARY_OP_pure type]
  · intro i hi
    exact lane_emitAddUnsignedSaturated type left right i hi

/-- The spec's examples for 8-bit lanes: 200 + 100 saturates to 255, 0 + 0 is 0. -/
theorem add_saturate_u_spec_witness :
    (EmitFunctionContext.i8x16_add_saturate_u [v128OfBytes [100, 0], v128OfBytes [200, 0]]).outcome
        = Outcome.value [v128OfBytes [255, 0]] ∧
      ∃ r, EmitFunctionContext.add_saturate_u llvmI16x8Type [65535, 7]
          = { issued := [], outcome := Outcome.value [r] } ∧
        ∀ i, i < llvmI16x8Type.numLanes →
          lane llvmI16x8Type.scalarBits i r
            = min (lane llvmI16x8Type.scalarBits i 7 + lane llvmI16x8Type.scalarBits i 65535)
                (2 ^ llvmI16x8Type.scalarBits - 1) :=
  ⟨by decide, add_saturate_u_spec llvmI16x8Type (Or.inr rfl) 7 65535 []⟩

/-- C12: for the lane shapes `i8x16` and `i16x8`, every pair of operands and every lane
`i`, lane `i` of the value pushed by `sub_saturate_u` is `a - b` when `a ≥ b` and 0
otherwise, where `a` and `b` are lane `i` of the left and of the right operand. -/
theorem sub_saturate_u_spec (type : VectorType)
    (_ht : type = llvmI8x16Type ∨ type = llvmI16x8Type) (left right : Nat) (s : Stack) :
    ∃ r, EmitFunctionContext.sub_saturate_u type (right :: left :: s)
        = { issued := [], outcome := Outcome.value (r :: s) } ∧
      ∀ i, i < type.numLanes →
        lane type.scalarBits i r
          = if lane type.scalarBits i left ≥ lane type.scalarBits i right
            then lane type.scalarBits i left - lane type.scalarBits i right else 0 := by
  refine ⟨emitSubUnsignedSaturated left right type, ?_, ?_⟩
  · unfold EmitFunctionContext.sub_saturate_u
    rw [EMIT_SIMD_BINARY_OP_pure type]
  · intro i hi
    exact lane_emitSubUnsignedSaturated type left right i hi

/-- The spec's example for 8-bit lanes: 10 - 20 saturates to 0; and 20 - 10 is 10. -/
theorem sub_saturate_u_spec_witness :
    (EmitFunctionContext.i8x16_sub_saturate_u [v128OfBytes [20, 10], v128OfBytes [10, 20]]).outcome
        = Outcome.value [v128OfBytes [0, 10]] ∧
      ∃ r, EmitFunctionContext.sub_saturate_u llvmI16x8Type [300, 7]
          = { issued := [], outcome := Outcome.value [r] } ∧
        ∀ i, i < llvmI16x8Type.numLanes →
          lane llvmI16x8Type.scalarBits i r
            = if lane llvmI16x8Type.scalarBits i 7 ≥ lane llvmI16x8Type.scalarBits i 300
              then lane llvmI16x8Type.scalarBits i 7 - lane llvmI16x8Type.scalarBits i 300
              else 0 :=
  ⟨by decide, sub_saturate_u_spec llvmI16x8Type (Or.inr rfl) 7 300 []⟩

/-! ### Reductions -/

theorem reduceLanes_or_some (type : VectorType) (vector : Nat) :
    ∀ (l : List Nat) (b : Bool),
      reduceLanes (fun a b => a || b) type vector l (some b)
        = some (b || l.any (fun i => lane type.scalarBits i vector != 0))
  | [], b => by simp [reduceLanes]
  | i :: rest, b => by
    simp only [reduceLanes, CreateICmpNE]
    rw [reduceLanes_or_some type vector rest]
    simp [Bool.or_assoc]

theorem reduceLanes_and_some (type : VectorType) (vector : Nat) :
    ∀ (l : List Nat) (b : Bool),
      reduceLanes (fun a b => a && b) type vector l (some b)
        = some (b && l.all (fun i => lane type.scalarBits i vector != 0))
  | [], b => by simp [reduceLanes]
  | i :: rest, b => by
    simp only [reduceLanes, CreateICmpNE]
    rw [reduceLanes_and_some type vector rest]
    simp [Bool.and_assoc]

theorem reduceLanes_or_range (type : VectorType) (vector : Nat) (hn : 0 < type.numLanes) :
    reduceLanes (fun a b => a || b) type vector (List.range type.numLanes) none
      = some ((List.range type.numLanes).any (fun i => lane type.scalarBits i vector != 0)) := by
  cases hl : List.range type.numLanes with
  | nil =>
    have := congrArg List.length hl
    simp at this
    omega
  | cons i rest =>
    simp only [reduceLanes, CreateICmpNE]
    rw [reduceLanes_or_some]
    simp

theorem reduceLanes_and_range (type : VectorType) (vector : Nat) (hn : 0 < type.numLanes) :
    reduceLanes (fun a b => a && b) type vector (List.range type.numLanes) none
      = some ((List.range type.numLanes).all (fun i => lane type.scalarBits i vector != 0)) := by
  cases hl : List.range type.numLanes with
  | nil =>
    have := congrArg List.length hl
    simp at this
    omega
  | cons i rest =>
    simp only [reduceLanes, CreateICmpNE]
    rw [reduceLanes_and_some]
    simp

theorem any_true_run (type : VectorType) (hn : 0 < type.numLanes) (v : Nat) (s : Stack) :
    EmitFunctionContext.any_true type (v :: s)
      = { issued := [],
          outcome := Outcome.value
            ((if (List.range type.numLanes).any (fun i => lane type.scalarBits i v != 0)
              then 1 else 0) :: s) } := by
  have hunf : EmitFunctionContext.any_true type (v :: s)
      = Run.bind (emitAnyTrue v type) (fun result => Run.pure (result :: s)) := rfl
  rw [hunf]
  unfold emitAnyTrue CreateBitCast
  simp only []
  rw [reduceLanes_or_range type v hn]
  rfl

theorem all_true_run (type : VectorType) (hn : 0 < type.numLanes) (v : Nat) (s : Stack) :
    EmitFunctionContext.all_true type (v :: s)
      = { issued := [],
          outcome := Outcome.value
            ((if (List.range type.numLanes).all (fun i => lane type.scalarBits i v != 0)
              then 1 else 0) :: s) } := by
  have hunf : EmitFunctionContext.all_true type (v :: s)
      = Run.bind (emitAllTrue v type) (fun result => Run.pure (result :: s)) := rfl
  rw [hunf]
  unfold emitAllTrue CreateBitCast
  simp only []
  rw [reduceLanes_and_range type v hn]
  rfl

/-- C13: for each lane shape in `i8x16`, `i16x8`, `i32x4`, `i64x2` and every v128 value
`v`, `any_true` pushes 1 if some lane of `v` is non-zero and 0 if every lane is zero,
and `all_true` pushes 1 if every lane of `v` is non-zero and 0 if some lane is zero. -/
theorem any_all_true_spec (type : VectorType)
    (ht : type = llvmI8x16Type ∨ type = llvmI16x8Type ∨ type = llvmI32x4Type
      ∨ type = llvmI64x2Type) (v : Nat) (s : Stack) :
    (∃ r, EmitFunctionContext.any_true type (v :: s)
        = { issued := [], outcome := Outcome.value (r :: s) } ∧
      ((r = 1 ∧ ∃ i, i < type.numLanes ∧ lane type.scalarBits i v ≠ 0)
        ∨ (r = 0 ∧ ∀ i, i < type.numLanes → lane type.scalarBits i v = 0))) ∧
    (∃ r, EmitFunctionContext.all_true type (v :: s)
        = { issued := [], outcome := Outcome.value (r :: s) } ∧
      ((r = 1 ∧ ∀ i, i < type.numLanes → lane type.scalarBits i v ≠ 0)
        ∨ (r = 0 ∧ ∃ i, i < type.numLanes ∧ lane type.scalarBits i v = 0))) := by
  have hn : 0 < type.numLanes := by
    rcases ht with rfl | rfl | rfl | rfl <;> decide
  constructor
  · refine ⟨_, any_true_run type hn v s, ?_⟩
    by_cases hany : (List.range type.numLanes).any (fun i => lane type.scalarBits i v != 0)
        = true
    · left
      rw [if_pos hany]
      refine ⟨rfl, ?_⟩
      obtain ⟨i, hi, hne⟩ := List.any_eq_true.mp hany
      exact ⟨i, List.mem_range.mp hi, by simpa using hne⟩
    · right
      rw [if_neg hany]
      refine ⟨rfl, ?_⟩
      intro i hi
      by_contra hne
      exact hany (List.any_eq_true.mpr ⟨i, List.mem_range.mpr hi, by simpa using hne⟩)
  · refine ⟨_, all_true_run type hn v s, ?_⟩
    by_cases hall : (List.range type.numLanes).all (fun i => lane type.scalarBits i v != 0)
        = true
    · left
      rw [if_pos hall]
      refine ⟨rfl, ?_⟩
      intro i hi
      have := List.all_eq_true.mp hall i (List.mem_range.mpr hi)
      simpa using this
    · right
      rw [if_neg hall]
      refine ⟨rfl, ?_⟩
      by_contra hno
      apply hall
      rw [List.all_eq_true]
      intro i hi
      have hne : lane type.scalarBits i v ≠ 0 :=
        fun h => hno ⟨i, List.mem_range.mp hi, h⟩
      simpa using hne

/-- A vector with one non-zero byte: `any_true` is 1 and `all_true` is 0 at every lane
shape up to 32 bits; the all-ones vector has `all_true` 1. -/
theorem any_all_true_spec_witness :
    (EmitFunctionContext.i8x16_any_true [v128OfBytes [0, 0, 5]]).outcome = Outcome.value [1] ∧
      (EmitFunctionContext.i8x16_all_true [v128OfBytes [0, 0, 5]]).outcome = Outcome.value [0] ∧
      (EmitFunctionContext.i32x4_any_true [0]).outcome = Outcome.value [0] ∧
      (EmitFunctionContext.i64x2_all_true [2 ^ 128 - 1]).outcome = Outcome.value [1] ∧
      ∃ r, EmitFunctionContext.any_true llvmI16x8Type [v128OfBytes [0, 0, 5]]
          = { issued := [], outcome := Outcome.value [r] } ∧
        ((r = 1 ∧ ∃ i, i < llvmI16x8Type.numLanes
            ∧ lane llvmI16x8Type.scalarBits i (v128OfBytes [0, 0, 5]) ≠ 0)
          ∨ (r = 0 ∧ ∀ i, i < llvmI16x8Type.numLanes
            → lane llvmI16x8Type.scalarBits i (v128OfBytes [0, 0, 5]) = 0)) :=
  ⟨by decide, by decide, by decide, by decide,
    (any_all_true_spec llvmI16x8Type (Or.inr (Or.inl rfl)) (v128OfBytes [0, 0, 5]) []).1⟩

/-! ### Bit selection, shuffle and lane access -/

theorem testBit_CreateNot (bits value i : Nat) (hi : i < bits) :
    (CreateNot bits value).testBit i = !value.testBit i := by
  unfold CreateNot
  rw [Nat.testBit_xor, Nat.testBit_two_pow_sub_one]
  simp [hi]

/-- C14: with the true value `T`, the false value `F` and the mask `M` pushed in this
order, `v128.bitselect` pushes `(T AND M) OR (F AND NOT M)`, where `NOT` is the
complement within 128 bits; so each of the 128 result bits is the bit of `T` where the
mask bit is 1 and the bit of `F` where it is 0, and the result is a 128-bit value. -/
theorem v128_bitselect_spec (T F M : Nat) (s : Stack)
    (hT : T < 2 ^ 128) (hF : F < 2 ^ 128) :
    ∃ r, EmitFunctionContext.v128_bitselect (M :: F :: T :: s)
        = { issued := [], outcome := Outcome.value (r :: s) } ∧
      r = (T &&& M) ||| (F &&& (M ^^^ (2 ^ 128 - 1))) ∧
      r < 2 ^ 128 ∧
      ∀ i, i < 128 → r.testBit i = if M.testBit i then T.testBit i else F.testBit i := by
  refine ⟨emitBitSelect M T F, rfl, rfl, ?_, ?_⟩
  · unfold emitBitSelect CreateOr CreateAnd
    exact Nat.or_lt_two_pow (Nat.lt_of_le_of_lt Nat.and_le_left hT)
      (Nat.lt_of_le_of_lt Nat.and_le_left hF)
  · intro i hi
    unfold emitBitSelect CreateOr CreateAnd
    rw [Nat.testBit_or, Nat.testBit_and, Nat.testBit_and, testBit_CreateNot 128 M i hi]
    cases M.testBit i <;> simp

/-- Selecting between `0xF0` and `0x0F` under the mask `0x3C` gives `0x33`. -/
theorem v128_bitselect_spec_witness :
    ∃ r, EmitFunctionContext.v128_bitselect [60, 15, 240]
        = { issued := [], outcome := Outcome.value [r] } ∧
      r = (240 &&& 60) ||| (15 &&& (60 ^^^ (2 ^ 128 - 1))) ∧
      r < 2 ^ 128 ∧
      ∀ i, i < 128 → r.testBit i = if (60 : Nat).testBit i then (240 : Nat).testBit i
        else (15 : Nat).testBit i :=
  v128_bitselect_spec 240 15 60 [] (by decide) (by decide)

theorem getD_lanes_append (type : VectorType) (left right j : Nat)
    (hj : j < 2 * type.numLanes) :
    (lanes type left ++ lanes type right).getD j 0
      = if j < type.numLanes then lane type.scalarBits j left
        else lane type.scalarBits (j - type.numLanes) right := by
  have hlen : (lanes type left).length = type.numLanes := by simp [lanes]
  by_cases hlt : j < type.numLanes
  · rw [if_pos hlt, List.getD_eq_getElem?_getD, List.getElem?_append_left (by omega)]
    simp [lanes, hlt]
  · rw [if_neg hlt, List.getD_eq_getElem?_getD, List.getElem?_append_right (by omega), hlen]
    have h2 : j - type.numLanes < type.numLanes := by omega
    simp [lanes, h2]

/-- C15: for operands `left` (pushed first) and `right` (pushed second) and a shuffle
immediate of 16 indices, each below 32, lane `i` of the value pushed by `v8x16.shuffle`
is, for every `i` below 16, lane `imm[i]` of the 32 lanes of `left` followed by those
of `right`. -/
theorem v8x16_shuffle_spec (imm : ShuffleImm) (left right : Nat) (s : Stack)
    (hlen : imm.laneIndices.length = 16) (hidx : ∀ j ∈ imm.laneIndices, j < 32) :
    ∃ r, EmitFunctionContext.v8x16_shuffle imm (right :: left :: s)
        = { issued := [], outcome := Outcome.value (r :: s) } ∧
      ∀ i, i < 16 →
        lane 8 i r
          = (lanes llvmI8x16Type left ++ lanes llvmI8x16Type right).getD
              (imm.laneIndices.getD i 0) 0 := by
  refine ⟨_, rfl, ?_⟩
  intro i hi
  have hmem : imm.laneIndices.getD i 0 ∈ imm.laneIndices := by
    rw [List.getD_eq_getElem?_getD, List.getElem?_eq_getElem (by omega)]
    exact List.getElem_mem _
  have hj : imm.laneIndices.getD i 0 < 2 * llvmI8x16Type.numLanes := hidx _ hmem
  rw [getD_lanes_append llvmI8x16Type left right _ hj]
  unfold Vec.CreateShuffleVector CreateBitCast
  rw [show llvmI8x16Type.scalarBits = 8 from rfl, lane_ofLanes]
  simp only [List.getD_eq_getElem?_getD, List.getElem?_map, List.getElem?_range hi,
    Option.map_some', Option.getD_some]
  split
  · exact lane_mod 8 _ left
  · exact lane_mod 8 _ right

/-- The immediate that swaps the two operands byte by byte: lanes 16 to 31, then none
of the left operand. -/
theorem v8x16_shuffle_spec_witness :
    ∃ r, EmitFunctionContext.v8x16_shuffle
          { laneIndices := [16, 0, 17, 1, 18, 2, 19, 3, 20, 4, 21, 5, 22, 6, 23, 31] }
          [v128OfBytes [9, 8, 7], v128OfBytes [1, 2, 3]]
        = { issued := [], outcome := Outcome.value [r] } ∧
      ∀ i, i < 16 →
        lane 8 i r
          = (lanes llvmI8x16Type (v128OfBytes [1, 2, 3])
              ++ lanes llvmI8x16Type (v128OfBytes [9, 8, 7])).getD
              ((ShuffleImm.mk [16, 0, 17, 1, 18, 2, 19, 3, 20, 4, 21, 5, 22, 6, 23, 31]).laneIndices.getD
                i 0) 0 :=
  v8x16_shuffle_spec { laneIndices := [16, 0, 17, 1, 18, 2, 19, 3, 20, 4, 21, 5, 22, 6, 23, 31] }
    (v128OfBytes [1, 2, 3]) (v128OfBytes [9, 8, 7]) [] (by decide) (by decide)

theorem replace_then_extract (type : VectorType) (coerceIn coerceOut : Nat → Nat)
    (i x v : Nat) (s : Stack) (hi : i < type.numLanes) :
    Run.bind (EMIT_SIMD_REPLACE_LANE_OP type coerceIn i (x :: v :: s))
        (EMIT_SIMD_EXTRACT_LANE_OP type coerceOut i)
      = { issued := [],
          outcome := Outcome.value (coerceOut (coerceIn x % 2 ^ type.scalarBits) :: s) } := by
  have hrep : EMIT_SIMD_REPLACE_LANE_OP type coerceIn i (x :: v :: s)
      = Run.pure (buildVector type (fun j =>
          if j = i then coerceIn x else lane type.scalarBits j v) :: s) := by
    have hunf : EMIT_SIMD_REPLACE_LANE_OP type coerceIn i (x :: v :: s)
        = Run.bind (Vec.CreateInsertElement type (CreateBitCast v type) (coerceIn x) i)
            (fun result => Run.pure (result :: s)) := rfl
    rw [hunf]
    unfold Vec.CreateInsertElement CreateBitCast
    rw [if_pos hi, Run.pure_bind]
  have hext : ∀ w : Nat, EMIT_SIMD_EXTRACT_LANE_OP type coerceOut i (w :: s)
      = Run.pure (coerceOut (lane type.scalarBits i w) :: s) := by
    intro w
    have hunf : EMIT_SIMD_EXTRACT_LANE_OP type coerceOut i (w :: s)
        = Run.bind (Vec.CreateExtractElement type (CreateBitCast w type) i)
            (fun scalar => Run.pure (coerceOut scalar :: s)) := rfl
    rw [hunf]
    unfold Vec.CreateExtractElement CreateBitCast
    rw [if_pos hi, Run.pure_bind]
  rw [hrep, Run.pure_bind, hext, lane_buildVector type _ i hi, if_pos rfl]
  rfl

theorem CreateSExt_spec (fromBits toBits y : Nat) (hfrom : 0 < fromBits)
    (hle : fromBits ≤ toBits) (hy : y < 2 ^ fromBits) :
    CreateSExt fromBits toBits y < 2 ^ toBits ∧
      toSigned toBits (CreateSExt fromBits toBits y) = toSigned fromBits y := by
  obtain ⟨hlo, hhi⟩ := toSigned_bounds hfrom hy
  have hmono : 2 ^ (fromBits - 1) ≤ 2 ^ (toBits - 1) :=
    Nat.pow_le_pow_right (by decide) (by omega)
  exact toSigned_ofSigned (by omega) (by omega) (by omega)

/-- C16: for every v128 `v`, every in-range lane index `i` and every scalar `x`,
replacing lane `i` by `x` and then extracting lane `i` pushes: for `i8x16` and `i16x8`,
in the `_s` form the sign extension to `i32` of the low 8 or 16 bits of `x`, in the `_u`
form their zero extension; for `i32x4` and `i64x2` (and the bit patterns of `f32x4` and
`f64x2`) the scalar `x` itself. -/
theorem extract_replace_lane (i x v : Nat) (s : Stack) :
    (i < 16 →
      (∃ r, Run.bind (EmitFunctionContext.i8x16_replace_lane i (x :: v :: s))
            (EmitFunctionContext.i8x16_extract_lane_s i)
          = { issued := [], outcome := Outcome.value (r :: s) } ∧
        r < 2 ^ 32 ∧ toSigned 32 r = toSigned 8 (x % 2 ^ 8)) ∧
      Run.bind (EmitFunctionContext.i8x16_replace_lane i (x :: v :: s))
          (EmitFunctionContext.i8x16_extract_lane_u i)
        = { issued := [], outcome := Outcome.value (x % 2 ^ 8 :: s) }) ∧
    (i < 8 →
      (∃ r, Run.bind (EmitFunctionContext.i16x8_replace_lane i (x :: v :: s))
            (EmitFunctionContext.i16x8_extract_lane_s i)
          = { issued := [], outcome := Outcome.value (r :: s) } ∧
        r < 2 ^ 32 ∧ toSigned 32 r = toSigned 16 (x % 2 ^ 16)) ∧
      Run.bind (EmitFunctionContext.i16x8_replace_lane i (x :: v :: s))
          (EmitFunctionContext.i16x8_extract_lane_u i)
        = { issued := [], outcome := Outcome.value (x % 2 ^ 16 :: s) }) ∧
    (i < 4 → x < 2 ^ 32 →
      Run.bind (EmitFunctionContext.i32x4_replace_lane i (x :: v :: s))
          (EmitFunctionContext.i32x4_extract_lane i)
        = { issued := [], outcome := Outcome.value (x :: s) } ∧
      Run.bind (EmitFunctionContext.f32x4_replace_lane i (x :: v :: s))
          (EmitFunctionContext.f32x4_extract_lane i)
        = { issued := [], outcome := Outcome.value (x :: s) }) ∧
    (i < 2 → x < 2 ^ 64 →
      Run.bind (EmitFunctionContext.i64x2_replace_lane i (x :: v :: s))
          (EmitFunctionContext.i64x2_extract_lane i)
        = { issued := [], outcome := Outcome.value (x :: s) } ∧
      Run.bind (EmitFunctionContext.f64x2_replace_lane i (x :: v :: s))
          (EmitFunctionContext.f64x2_extract_lane i)
        = { issued := [], outcome := Outcome.value (x :: s) }) := by
  refine ⟨fun hi => ⟨?_, ?_⟩, fun hi => ⟨?_, ?_⟩, fun hi hx => ⟨?_, ?_⟩,
    fun hi hx => ⟨?_, ?_⟩⟩
  · have hy : x % 2 ^ 8 < 2 ^ 8 := Nat.mod_lt _ (by decide)
    obtain ⟨hr, hback⟩ := CreateSExt_spec 8 32 (x % 2 ^ 8) (by decide) (by decide) hy
    refine ⟨CreateSExt 8 32 (x % 2 ^ 8), ?_, hr, hback⟩
    unfold EmitFunctionContext.i8x16_replace_lane EmitFunctionContext.i8x16_extract_lane_s
    rw [replace_then_extract llvmI8x16Type _ _ i x v s hi]
    simp [CreateTrunc, llvmI8x16Type]
  · unfold EmitFunctionContext.i8x16_replace_lane EmitFunctionContext.i8x16_extract_lane_u
    rw [replace_then_extract llvmI8x16Type _ _ i x v s hi]
    simp [CreateTrunc, CreateZExt, llvmI8x16Type]
  · have hy : x % 2 ^ 16 < 2 ^ 16 := Nat.mod_lt _ (by decide)
    obtain ⟨hr, hback⟩ := CreateSExt_spec 16 32 (x % 2 ^ 16) (by decide) (by decide) hy
    refine ⟨CreateSExt 16 32 (x % 2 ^ 16), ?_, hr, hback⟩
    unfold EmitFunctionContext.i16x8_replace_lane EmitFunctionContext.i16x8_extract_lane_s
    rw [replace_then_extract llvmI16x8Type _ _ i x v s hi]
    simp [CreateTrunc, llvmI16x8Type]
  · unfold EmitFunctionContext.i16x8_replace_lane EmitFunctionContext.i16x8_extract_lane_u
    rw [replace_then_extract llvmI16x8Type _ _ i x v s hi]
    simp [CreateTrunc, CreateZExt, llvmI16x8Type]
  · unfold EmitFunctionContext.i32x4_replace_lane EmitFunctionContext.i32x4_extract_lane
    rw [replace_then_extract llvmI32x4Type _ _ i x v s hi]
    simp [llvmI32x4Type]
    omega
  · unfold EmitFunctionContext.f32x4_replace_lane EmitFunctionContext.f32x4_extract_lane
    rw [replace_then_extract llvmF32x4Type _ _ i x v s hi]
    simp [llvmF32x4Type]
    omega
  · unfold EmitFunctionContext.i64x2_replace_lane EmitFunctionContext.i64x2_extract_lane
    rw [replace_then_extract llvmI64x2Type _ _ i x v s hi]
    simp [llvmI64x2Type]
    omega
  · unfold EmitFunctionContext.f64x2_replace_lane EmitFunctionContext.f64x2_extract_lane
    rw [replace_then_extract llvmF64x2Type _ _ i x v s hi]
    simp [llvmF64x2Type]
    omega

/-- Replacing lane 3 of the zero vector by `0x1FF` and reading it back as a byte, signed
and unsigned; and a 32-bit lane read back unchanged. -/
theorem extract_replace_lane_witness :
    Run.bind (EmitFunctionContext.i8x16_replace_lane 3 [511, 0])
          (EmitFunctionContext.i8x16_extract_lane_u 3)
        = { issued := [], outcome := Outcome.value [511 % 2 ^ 8] } ∧
      Run.bind (EmitFunctionContext.i32x4_replace_lane 1 [123456, 7])
          (EmitFunctionContext.i32x4_extract_lane 1)
        = { issued := [], outcome := Outcome.value [123456] } ∧
      Run.bind (EmitFunctionContext.i8x16_replace_lane 3 [511, 0])
          (EmitFunctionContext.i8x16_extract_lane_s 3)
        = { issued := [], outcome := Outcome.value [4294967295] } :=
  ⟨((extract_replace_lane 3 511 0 []).1 (by decide)).2,
   ((extract_replace_lane 1 123456 7 []).2.2.1 (by decide) (by decide)).1,
   by decide⟩

/-! ## Theorems about creation, cloning and shrinking -/

theorem createMemory_unfold (P : Platform) (maxMemories self : Nat)
    (compartment : Option Compartment) (type : MemoryType) (registry : List Nat) :
    createMemory P maxMemories self compartment type registry
      = if (reservedMemory P compartment type).baseAddress = 0 then
          match MemoryInstance.destruct P self (reservedMemory P compartment type) registry with
          | none => none
          | some registry1 =>
            some { memory := none, compartment := compartment, registry := registry1 }
        else
          match growMemory P (reservedMemory P compartment type) (type.size.min % wordSize) with
          | none => none
          | some (grown, memory) =>
            if grown = -1 then
              match MemoryInstance.destruct P self memory registry with
              | none => none
              | some registry1 =>
                some { memory := none, compartment := compartment, registry := registry1 }
            else
              match compartment with
              | some c =>
                if c.memories.length ≥ maxMemories then
                  match MemoryInstance.destruct P self memory registry with
                  | none => none
                  | some registry1 =>
                    some { memory := none, compartment := some c, registry := registry1 }
                else
                  some { memory := some (self, { memory with id := c.memories.length }),
                         compartment := some
                           { c with
                             memories := c.memories ++ [some self],
                             runtimeDataMemories :=
                               Function.update c.runtimeDataMemories c.memories.length
                                 memory.baseAddress },
                         registry := registry ++ [self] }
              | none =>
                some { memory := some (self, memory), compartment := none,
                       registry := registry ++ [self] } := rfl

/-- The destructor leaves a registry that does not hold the object as it is. -/
theorem destruct_fresh (P : Platform) (self : Nat) (memory : MemoryInstance)
    (registry registry1 : List Nat) (hfresh : self ∉ registry)
    (h : MemoryInstance.destruct P self memory registry = some registry1) :
    registry1 = registry := by
  unfold MemoryInstance.destruct at h
  simp only [] at h
  split at h
  · cases h
  · simp only [Option.some.injEq] at h
    rw [← h, List.erase_of_not_mem hfresh]

theorem destruct_of_no_pages (P : Platform) (self : Nat) (m : MemoryInstance)
    (registry : List Nat) (hzero : m.numPages = 0) :
    MemoryInstance.destruct P self m registry = some (registry.erase self) := by
  unfold MemoryInstance.destruct
  rw [hzero]
  rfl

theorem destruct_of_page_size (P : Platform) (self : Nat) (m : MemoryInstance)
    (registry : List Nat) (pagesLog2 : Nat)
    (hpl : getPlatformPagesPerWebAssemblyPageLog2 P = some pagesLog2) :
    MemoryInstance.destruct P self m registry = some (registry.erase self) := by
  unfold MemoryInstance.destruct
  rw [hpl]
  by_cases h : m.numPages > 0
  · rw [if_pos h]
  · rw [if_neg h]

/-- The destructor of a memory that `growMemory` handed back after a call on a memory
without pages does not abort: either no page was committed, or the page size was
found usable. -/
theorem destruct_after_grow (P : Platform) (self : Nat) (m m1 : MemoryInstance) (k : Nat)
    (grown : Int) (registry : List Nat) (hzero : m.numPages = 0)
    (hgrow : growMemory P m k = some (grown, m1)) :
    MemoryInstance.destruct P self m1 registry = some (registry.erase self) := by
  unfold growMemory at hgrow
  by_cases hk0 : k > 0
  · rw [if_pos hk0] at hgrow
    split at hgrow
    · simp only [Option.some.injEq, Prod.mk.injEq] at hgrow
      exact destruct_of_no_pages P self m1 registry (by rw [← hgrow.2, hzero])
    · cases hpl : getPlatformPagesPerWebAssemblyPageLog2 P with
      | none => simp [hpl] at hgrow
      | some pagesLog2 => exact destruct_of_page_size P self m1 registry pagesLog2 hpl
  · rw [if_neg hk0] at hgrow
    simp only [Option.some.injEq, Prod.mk.injEq] at hgrow
    exact destruct_of_no_pages P self m1 registry (by rw [← hgrow.2, hzero])

/-- C17, at a failing input: cloning the one-page memory of scenario S5 (type
`{min: 1, max: 3}`) on a platform where every reservation and commit succeeds gives a
memory of two pages, not of one: `createMemory` has already committed the minimum, and
`growMemory` adds `src.numPages` pages to it. Cloning the same memory grown to three
pages gives a memory of one page, the second grow being refused by the cap. -/
theorem cloneMemory_numPages_diverges :
    memS5.numPages = 1 ∧
      (cloneMemory platformOk 4 8192 memS5 (some compartmentEmpty) []).bind
          (fun r => r.memory.map (fun p => p.2.numPages)) = some 2 ∧
      (cloneMemory platformOk 4 8192 { memS5 with numPages := 3 } (some compartmentEmpty) []).bind
          (fun r => r.memory.map (fun p => p.2.numPages)) = some 1 := by
  decide

/-- C18: when the reservation succeeds (the base address is not null) and the initial
grow to `type.size.min` pages does not return -1, `createMemory(c, t)` returns the null
pointer if `c.memories.size() >= maxMemories`; otherwise it returns the new object,
whose `id` is `c.memories.size()` before the call, `c.memories` has grown by exactly the
pointer to the new object, found at index `id`, and the entry `id` of the memory-base
array of the runtime data is the `baseAddress` of the new memory. -/
theorem createMemory_attach (P : Platform) (maxMemories self : Nat) (c : Compartment)
    (t : MemoryType) (registry : List Nat) (grown : Int) (memory : MemoryInstance)
    (hres : (reservedMemory P (some c) t).baseAddress ≠ 0)
    (hgrow : growMemory P (reservedMemory P (some c) t) (t.size.min % wordSize)
      = some (grown, memory))
    (hok : grown ≠ -1) :
    (c.memories.length ≥ maxMemories →
      ∃ res, createMemory P maxMemories self (some c) t registry = some res ∧
        res.memory = none) ∧
    (c.memories.length < maxMemories →
      ∃ res m c1, createMemory P maxMemories self (some c) t registry = some res ∧
        res.memory = some (self, m) ∧ res.compartment = some c1 ∧
        m.id = c.memories.length ∧
        c1.memories = c.memories ++ [some self] ∧
        c1.memories.length = c.memories.length + 1 ∧
        c1.memories[m.id]? = some (some self) ∧
        c1.runtimeDataMemories m.id = m.baseAddress) := by
  have hdes := destruct_after_grow P self (reservedMemory P (some c) t) memory
    (t.size.min % wordSize) grown registry rfl hgrow
  constructor
  · intro hfull
    refine ⟨{ memory := none, compartment := some c, registry := registry.erase self }, ?_, rfl⟩
    rw [createMemory_unfold, if_neg hres, hgrow]
    simp only []
    rw [if_neg hok, if_pos hfull, hdes]
  · intro hroom
    refine ⟨{ memory := some (self, { memory with id := c.memories.length }),
              compartment := some
                { c with
                  memories := c.memories ++ [some self],
                  runtimeDataMemories :=
                    Function.update c.runtimeDataMemories c.memories.length
                      memory.baseAddress },
              registry := registry ++ [self] },
      { memory with id := c.memories.length },
      { c with
        memories := c.memories ++ [some self],
        runtimeDataMemories :=
          Function.update c.runtimeDataMemories c.memories.length memory.baseAddress },
      ?_, rfl, rfl, rfl, rfl, ?_, ?_, ?_⟩
    · rw [createMemory_unfold, if_neg hres, hgrow]
      simp only []
      rw [if_neg hok, if_neg (by omega)]
    · simp
    · simp
    · simp

/-- Creation in a compartment that holds two pointers: refused with `maxMemories = 2`,
attached at index 2 with `maxMemories = 4`. -/
theorem createMemory_attach_witness :
    (∃ res, createMemory platformOk 2 8192 (some compartmentTwo) memS5.type [100] = some res ∧
        res.memory = none) ∧
      ∃ res m c1, createMemory platformOk 4 8192 (some compartmentTwo) memS5.type [100]
          = some res ∧
        res.memory = some (8192, m) ∧ res.compartment = some c1 ∧
        m.id = compartmentTwo.memories.length ∧
        c1.memories = compartmentTwo.memories ++ [some 8192] ∧
        c1.memories.length = compartmentTwo.memories.length + 1 ∧
        c1.memories[m.id]? = some (some 8192) ∧
        c1.runtimeDataMemories m.id = m.baseAddress :=
  ⟨(createMemory_attach platformOk 2 8192 compartmentTwo memS5.type [100] 0
      { reservedMemory platformOk (some compartmentTwo) memS5.type with numPages := 1 }
      (by decide) (by decide) (by decide)).1 (by decide),
   (createMemory_attach platformOk 4 8192 compartmentTwo memS5.type [100] 0
      { reservedMemory platformOk (some compartmentTwo) memS5.type with numPages := 1 }
      (by decide) (by decide) (by decide)).2 (by decide)⟩

/-- C19: whenever `createMemory(c, t)` returns the null pointer (the reservation failed,
the initial grow returned -1, or the compartment was full), the compartment, with its
memory table and the memory-base array of its runtime data, and the global registry are
exactly as before the call; the new object, never registered, is not in the registry. -/
theorem createMemory_failure (P : Platform) (maxMemories self : Nat)
    (compartment : Option Compartment) (t : MemoryType) (registry : List Nat)
    (res : CreateMemoryResult) (hfresh : self ∉ registry)
    (hcall : createMemory P maxMemories self compartment t registry = some res)
    (hnull : res.memory = none) :
    res.compartment = compartment ∧ res.registry = registry := by
  rw [createMemory_unfold] at hcall
  split at hcall
  · cases hdes : MemoryInstance.destruct P self (reservedMemory P compartment t) registry with
    | none => simp [hdes] at hcall
    | some registry1 =>
      simp only [hdes, Option.some.injEq] at hcall
      rw [← hcall]
      exact ⟨rfl, destruct_fresh P self _ registry registry1 hfresh hdes⟩
  · cases hgrow : growMemory P (reservedMemory P compartment t) (t.size.min % wordSize) with
    | none => simp [hgrow] at hcall
    | some pair =>
      obtain ⟨grown, memory⟩ := pair
      simp only [hgrow] at hcall
      split at hcall
      · cases hdes : MemoryInstance.destruct P self memory registry with
        | none => simp [hdes] at hcall
        | some registry1 =>
          simp only [hdes, Option.some.injEq] at hcall
          rw [← hcall]
          exact ⟨rfl, destruct_fresh P self _ registry registry1 hfresh hdes⟩
      · cases compartment with
        | none =>
          simp only [Option.some.injEq] at hcall
          rw [← hcall] at hnull
          cases hnull
        | some c =>
          simp only [] at hcall
          split at hcall
          · cases hdes : MemoryInstance.destruct P self memory registry with
            | none => simp [hdes] at hcall
            | some registry1 =>
              simp only [hdes, Option.some.injEq] at hcall
              rw [← hcall]
              exact ⟨rfl, destruct_fresh P self _ registry registry1 hfresh hdes⟩
          · simp only [Option.some.injEq] at hcall
            rw [← hcall] at hnull
            cases hnull

/-- A failed reservation, and a full compartment, each with another memory registered. -/
theorem createMemory_failure_witness :
    (∃ res, createMemory platformNoReservation 4 8192 (some compartmentTwo) memS5.type [100]
          = some res ∧
        res.memory = none ∧ res.compartment = some compartmentTwo ∧ res.registry = [100]) ∧
      ∃ res, createMemory platformOk 2 8192 (some compartmentTwo) memS5.type [100] = some res ∧
        res.memory = none ∧ res.compartment = some compartmentTwo ∧ res.registry = [100] :=
  ⟨⟨{ memory := none, compartment := some compartmentTwo, registry := [100] }, rfl, rfl,
      createMemory_failure platformNoReservation 4 8192 (some compartmentTwo) memS5.type [100]
        { memory := none, compartment := some compartmentTwo, registry := [100] }
        (by decide) rfl rfl⟩,
   ⟨{ memory := none, compartment := some compartmentTwo, registry := [100] }, rfl, rfl,
      createMemory_failure platformOk 2 8192 (some compartmentTwo) memS5.type [100]
        { memory := none, compartment := some compartmentTwo, registry := [100] }
        (by decide) rfl rfl⟩⟩

/-- C20: on a platform whose page size is usable (at most 64 KiB), for every memory `m`
and every `k` with `k ≤ numPages` and `numPages - k ≥ type.size.min`, `shrinkMemory(m, k)`
returns the page count before the call (the `Uptr` read as an `Iptr`, numerically equal
to it whenever it is below `2 ^ 63`) and leaves the memory with the prior page count
minus exactly `k`, every other field as it was. -/
theorem shrinkMemory_success (P : Platform) (m : MemoryInstance) (k : Nat)
    (hm : m.WordSized) (hP : P.pageSizeLog2 ≤ numBytesPerPageLog2)
    (hle : k ≤ m.numPages) (hmin : m.type.size.min ≤ m.numPages - k) :
    shrinkMemory P m k = some (toIptr m.numPages, { m with numPages := m.numPages - k }) ∧
      (m.numPages < 2 ^ 63 → toIptr m.numPages = (m.numPages : Int)) := by
  obtain ⟨-, -, -, -, hnum⟩ := hm
  unfold wordSize at hnum
  refine ⟨?_, fun hlt => toIptr_of_lt hlt⟩
  unfold shrinkMemory
  by_cases hk0 : k > 0
  · have hsub : (m.numPages + wordSize - k) % wordSize = m.numPages - k := by
      unfold wordSize
      omega
    have hguard : ¬ (k > m.numPages
        ∨ (m.numPages + wordSize - k) % wordSize < m.type.size.min) := by
      rw [hsub]
      omega
    have hpl : getPlatformPagesPerWebAssemblyPageLog2 P
        = some (numBytesPerPageLog2 - P.pageSizeLog2) := by
      unfold getPlatformPagesPerWebAssemblyPageLog2
      rw [if_pos hP]
    rw [if_pos hk0, if_neg hguard]
    simp only [hpl, hsub]
  · have hz : k = 0 := by omega
    subst hz
    rw [if_neg hk0]
    rfl

/-- Shrinking a three-page memory whose floor is one page by two pages returns 3 and
leaves one page. -/
theorem shrinkMemory_success_witness :
    shrinkMemory platformOk { memS5 with numPages := 3 } 2 = some (3, memS5) :=
  (shrinkMemory_success platformOk { memS5 with numPages := 3 } 2
    (by decide) (by decide) (by decide) (by decide)).1

/-! ## Theorems about the invariants of a memory -/

/-- What `growMemory` can hand back: the memory untouched, or the memory with more pages,
the sum being within the cap. -/
theorem growMemory_cases (P : Platform) (m m1 : MemoryInstance) (k : Nat) (r : Int)
    (hcall : growMemory P m k = some (r, m1)) :
    m1 = m ∨ (0 < k ∧ k ≤ m.type.size.max
      ∧ m.numPages ≤ (m.type.size.max + wordSize - k) % wordSize
      ∧ m1 = { m with numPages := (m.numPages + k) % wordSize }) := by
  unfold growMemory at hcall
  by_cases hk0 : k > 0
  · rw [if_pos hk0] at hcall
    by_cases hcap : k > m.type.size.max
          ∨ m.numPages > (m.type.size.max + wordSize - k) % wordSize
    · rw [if_pos hcap] at hcall
      simp only [Option.some.injEq, Prod.mk.injEq] at hcall
      exact Or.inl hcall.2.symm
    · rw [if_neg hcap] at hcall
      cases hpl : getPlatformPagesPerWebAssemblyPageLog2 P with
      | none => simp [hpl] at hcall
      | some pagesLog2 =>
        simp only [hpl] at hcall
        split at hcall
        · simp only [Option.some.injEq, Prod.mk.injEq] at hcall
          exact Or.inl hcall.2.symm
        · simp only [Option.some.injEq, Prod.mk.injEq] at hcall
          right
          refine ⟨hk0, by omega, by omega, hcall.2.symm⟩
  · rw [if_neg hk0] at hcall
    simp only [Option.some.injEq, Prod.mk.injEq] at hcall
    exact Or.inl hcall.2.symm

/-- What `shrinkMemory` can hand back: the memory untouched, or the memory with fewer
pages, the difference being at or above the floor. -/
theorem shrinkMemory_cases (P : Platform) (m m1 : MemoryInstance) (k : Nat) (r : Int)
    (hcall : shrinkMemory P m k = some (r, m1)) :
    m1 = m ∨ (0 < k ∧ k ≤ m.numPages
      ∧ m.type.size.min ≤ (m.numPages + wordSize - k) % wordSize
      ∧ m1 = { m with numPages := (m.numPages + wordSize - k) % wordSize }) := by
  unfold shrinkMemory at hcall
  by_cases hk0 : k > 0
  · rw [if_pos hk0] at hcall
    by_cases hfloor : k > m.numPages
          ∨ (m.numPages + wordSize - k) % wordSize < m.type.size.min
    · rw [if_pos hfloor] at hcall
      simp only [Option.some.injEq, Prod.mk.injEq] at hcall
      exact Or.inl hcall.2.symm
    · rw [if_neg hfloor] at hcall
      cases hpl : getPlatformPagesPerWebAssemblyPageLog2 P with
      | none => simp [hpl] at hcall
      | some pagesLog2 =>
        simp only [hpl, Option.some.injEq, Prod.mk.injEq] at hcall
        right
        refine ⟨hk0, by omega, by omega, hcall.2.symm⟩
  · rw [if_neg hk0] at hcall
    simp only [Option.some.injEq, Prod.mk.injEq] at hcall
    exact Or.inl hcall.2.symm

theorem unmapMemoryPages_cases (P : Platform) (m m1 : MemoryInstance) (pageIndex n : Nat)
    (hcall : unmapMemoryPages P m pageIndex n = some m1) : m1 = m := by
  unfold unmapMemoryPages at hcall
  split at hcall
  · cases hcall
  · split at hcall
    · cases hcall
    · split at hcall
      · cases hcall
      · cases hpl : getPlatformPagesPerWebAssemblyPageLog2 P with
        | none => simp [hpl] at hcall
        | some pagesLog2 =>
          simp only [hpl, Option.some.injEq] at hcall
          exact hcall.symm

theorem growMemory_returns (P : Platform) (m : MemoryInstance) (k : Nat)
    (hP : P.pageSizeLog2 ≤ numBytesPerPageLog2) :
    ∃ r m1, growMemory P m k = some (r, m1) := by
  have hpl : getPlatformPagesPerWebAssemblyPageLog2 P
      = some (numBytesPerPageLog2 - P.pageSizeLog2) := by
    unfold getPlatformPagesPerWebAssemblyPageLog2
    rw [if_pos hP]
  unfold growMemory
  simp only [hpl]
  split
  · split
    · exact ⟨_, _, rfl⟩
    · split
      · exact ⟨_, _, rfl⟩
      · exact ⟨_, _, rfl⟩
  · exact ⟨_, _, rfl⟩

theorem shrinkMemory_returns (P : Platform) (m : MemoryInstance) (k : Nat)
    (hP : P.pageSizeLog2 ≤ numBytesPerPageLog2) :
    ∃ r m1, shrinkMemory P m k = some (r, m1) := by
  have hpl : getPlatformPagesPerWebAssemblyPageLog2 P
      = some (numBytesPerPageLog2 - P.pageSizeLog2) := by
    unfold getPlatformPagesPerWebAssemblyPageLog2
    rw [if_pos hP]
  unfold shrinkMemory
  simp only [hpl]
  split
  · split
    · exact ⟨_, _, rfl⟩
    · exact ⟨_, _, rfl⟩
  · exact ⟨_, _, rfl⟩

/-- C21: for every memory `m` with `type.size.min ≤ numPages ≤ type.size.max` and every
call of `growMemory`, `shrinkMemory` or `unmapMemoryPages` on it with any arguments, the
memory after the call, whether the call succeeded or returned -1, still has
`type.size.min ≤ numPages ≤ type.size.max`; and on a platform with a usable page size
`growMemory` and `shrinkMemory` do return. -/
theorem numPages_invariant (P : Platform) (m : MemoryInstance) (hm : m.WordSized)
    (hmin : m.type.size.min ≤ m.numPages) (hmax : m.numPages ≤ m.type.size.max) :
    (∀ k r m1, growMemory P m k = some (r, m1) →
      m1.type.size.min ≤ m1.numPages ∧ m1.numPages ≤ m1.type.size.max) ∧
    (∀ k r m1, shrinkMemory P m k = some (r, m1) →
      m1.type.size.min ≤ m1.numPages ∧ m1.numPages ≤ m1.type.size.max) ∧
    (∀ pageIndex n m1, unmapMemoryPages P m pageIndex n = some m1 →
      m1.type.size.min ≤ m1.numPages ∧ m1.numPages ≤ m1.type.size.max) ∧
    (P.pageSizeLog2 ≤ numBytesPerPageLog2 →
      ∀ k, (∃ r m1, growMemory P m k = some (r, m1))
        ∧ (∃ r m1, shrinkMemory P m k = some (r, m1))) := by
  obtain ⟨-, hmaxw, -, -, hnumw⟩ := hm
  unfold wordSize at hmaxw hnumw
  refine ⟨?_, ?_, ?_, ?_⟩
  · intro k r m1 hcall
    rcases growMemory_cases P m m1 k r hcall with rfl | ⟨hk0, hk, hguard, rfl⟩
    · exact ⟨hmin, hmax⟩
    · unfold wordSize at hguard ⊢
      simp only []
      constructor <;> omega
  · intro k r m1 hcall
    rcases shrinkMemory_cases P m m1 k r hcall with rfl | ⟨hk0, hk, hguard, rfl⟩
    · exact ⟨hmin, hmax⟩
    · unfold wordSize at hguard ⊢
      simp only []
      constructor <;> omega
  · intro pageIndex n m1 hcall
    rw [unmapMemoryPages_cases P m m1 pageIndex n hcall]
    exact ⟨hmin, hmax⟩
  · intro hP k
    exact ⟨growMemory_returns P m k hP, shrinkMemory_returns P m k hP⟩

/-- The memory of scenario S5 keeps between one and three pages through a successful
grow, and both calls return on the platform with 4 KiB pages. -/
theorem numPages_invariant_witness :
    (1 ≤ ({ memS5 with numPages := 3 } : MemoryInstance).numPages
        ∧ ({ memS5 with numPages := 3 } : MemoryInstance).numPages ≤ 3) ∧
      ((∃ r m1, growMemory platformOk memS5 7 = some (r, m1))
        ∧ (∃ r m1, shrinkMemory platformOk memS5 7 = some (r, m1))) :=
  have h := numPages_invariant platformOk memS5 (by decide) (by decide) (by decide)
  ⟨h.1 2 1 { memS5 with numPages := 3 } (by decide), h.2.2.2 (by decide) 7⟩

/-- C26: whenever `getValidatedMemoryOffsetRange(m, offset, numBytes)` returns an address
`a` without trapping, `baseAddress ≤ a`, the sum `a + numBytes` does not wrap the machine
word, and `a + numBytes ≤ baseAddress + endOffset`. -/
theorem getValidatedMemoryOffsetRange_safe (m : MemoryInstance) (offset numBytes a : Nat)
    (hnum : numBytes < wordSize)
    (hcall : getValidatedMemoryOffsetRange m offset numBytes = Except.ok a) :
    m.baseAddress ≤ a ∧ a + numBytes < wordSize ∧
      a + numBytes ≤ m.baseAddress + m.endOffset := by
  unfold getValidatedMemoryOffsetRange at hcall
  simp only [] at hcall
  split at hcall
  · cases hcall
  · rename_i hchecks
    have ha : (m.baseAddress + saturateToBounds offset m.endOffset) % wordSize = a := by
      injection hcall
    rw [ha] at hchecks
    have halt : a < wordSize := by
      rw [← ha]
      exact Nat.mod_lt _ (by unfold wordSize; decide)
    have hend : (m.baseAddress + m.endOffset) % wordSize ≤ m.baseAddress + m.endOffset :=
      Nat.mod_le _ _
    unfold wordSize at hchecks hnum halt hend ⊢
    omega

/-- An 8-byte range at offset 16 of the memory of scenario S5. -/
theorem getValidatedMemoryOffsetRange_safe_witness :
    memS5.baseAddress ≤ 65552 ∧ 65552 + 8 < wordSize ∧
      65552 + 8 ≤ memS5.baseAddress + memS5.endOffset :=
  getValidatedMemoryOffsetRange_safe memS5 16 8 65552 (by decide) rfl

/-- C27: for every memory `m` and every `k > 0` on a platform with a usable page size, if
`numPages + k ≤ type.size.max` over the natural numbers and the commit of the new pages
succeeds, `growMemory(m, k)` succeeds: it returns the prior page count, which is not -1,
and leaves `numPages + k` pages; so a return of -1 means that `numPages + k` exceeds
`type.size.max` or that the commit failed. -/
theorem growMemory_fails_only_if (P : Platform) (m : MemoryInstance) (k : Nat)
    (hm : m.WordSized) (hk0 : 0 < k) (hk : k < wordSize)
    (hP : P.pageSizeLog2 ≤ numBytesPerPageLog2) :
    (m.numPages + k ≤ m.type.size.max →
      P.commitVirtualPages
          ((m.baseAddress + (m.numPages <<< numBytesPerPageLog2) % wordSize) % wordSize)
          ((k <<< (numBytesPerPageLog2 - P.pageSizeLog2)) % wordSize) = true →
      growMemory P m k = some (toIptr m.numPages, { m with numPages := m.numPages + k })
        ∧ toIptr m.numPages ≠ -1) ∧
    (∀ m1, growMemory P m k = some (-1, m1) →
      m.numPages + k > m.type.size.max
        ∨ P.commitVirtualPages
            ((m.baseAddress + (m.numPages <<< numBytesPerPageLog2) % wordSize) % wordSize)
            ((k <<< (numBytesPerPageLog2 - P.pageSizeLog2)) % wordSize) = false) := by
  obtain ⟨-, hmaxw, -, -, hnumw⟩ := hm
  unfold wordSize at hmaxw hnumw hk
  have hpl : getPlatformPagesPerWebAssemblyPageLog2 P
      = some (numBytesPerPageLog2 - P.pageSizeLog2) := by
    unfold getPlatformPagesPerWebAssemblyPageLog2
    rw [if_pos hP]
  have hsucc : m.numPages + k ≤ m.type.size.max →
      P.commitVirtualPages
          ((m.baseAddress + (m.numPages <<< numBytesPerPageLog2) % wordSize) % wordSize)
          ((k <<< (numBytesPerPageLog2 - P.pageSizeLog2)) % wordSize) = true →
      growMemory P m k = some (toIptr m.numPages, { m with numPages := m.numPages + k })
        ∧ toIptr m.numPages ≠ -1 := by
    intro hsum hcommit
    have hcap : ¬ (k > m.type.size.max
        ∨ m.numPages > (m.type.size.max + wordSize - k) % wordSize) := by
      unfold wordSize
      omega
    have hfit : (m.numPages + k) % wordSize = m.numPages + k := by
      unfold wordSize
      omega
    have hval : toIptr m.numPages ≠ -1 := by
      have h1 : m.numPages % wordSize = m.numPages :=
        Nat.mod_eq_of_lt (by unfold wordSize; omega)
      unfold toIptr
      rw [h1]
      unfold wordSize
      split <;> omega
    refine ⟨?_, hval⟩
    unfold growMemory
    rw [if_pos hk0, if_neg hcap]
    simp only [hpl, hcommit, hfit]
    rfl
  refine ⟨hsucc, ?_⟩
  intro m1 hcall
  by_cases hsum : m.numPages + k ≤ m.type.size.max
  · right
    cases hcommit : P.commitVirtualPages
        ((m.baseAddress + (m.numPages <<< numBytesPerPageLog2) % wordSize) % wordSize)
        ((k <<< (numBytesPerPageLog2 - P.pageSizeLog2)) % wordSize) with
    | false => rfl
    | true =>
      obtain ⟨hres, hne⟩ := hsucc hsum hcommit
      rw [hres] at hcall
      simp only [Option.some.injEq, Prod.mk.injEq] at hcall
      exact absurd hcall.1 hne
  · left
    omega

/-- The first grow of scenario S5 succeeds; the grow refused at three pages exceeds the
cap. -/
theorem growMemory_fails_only_if_witness :
    (growMemory platformOk memS5 2
        = some (toIptr memS5.numPages, { memS5 with numPages := memS5.numPages + 2 })
      ∧ toIptr memS5.numPages ≠ -1) ∧
    (({ memS5 with numPages := 3 } : MemoryInstance).numPages + 1
        > ({ memS5 with numPages := 3 } : MemoryInstance).type.size.max
      ∨ platformOk.commitVirtualPages
          ((({ memS5 with numPages := 3 } : MemoryInstance).baseAddress
            + (({ memS5 with numPages := 3 } : MemoryInstance).numPages
                <<< numBytesPerPageLog2) % wordSize) % wordSize)
          ((1 <<< (numBytesPerPageLog2 - platformOk.pageSizeLog2)) % wordSize) = false) :=
  ⟨(growMemory_fails_only_if platformOk memS5 2 (by decide) (by decide) (by decide)
      (by decide)).1 (by decide) rfl,
   (growMemory_fails_only_if platformOk { memS5 with numPages := 3 } 1 (by decide)
      (by decide) (by decide) (by decide)).2 { memS5 with numPages := 3 } (by decide)⟩

/-- The memory that `createMemory` returns has the 8 GiB reservation as `endOffset`, the
requested type, and a page count within the cap of the type. -/
theorem createMemory_returned (P : Platform) (maxMemories self : Nat)
    (compartment : Option Compartment) (t : MemoryType) (registry : List Nat)
    (res : CreateMemoryResult) (p : Nat) (m : MemoryInstance)
    (hcall : createMemory P maxMemories self compartment t registry = some res)
    (hmem : res.memory = some (p, m)) :
    m.endOffset = 8589934592 ∧ m.type = t ∧ m.numPages ≤ t.size.max := by
  have key : ∀ grown memory,
      growMemory P (reservedMemory P compartment t) (t.size.min % wordSize)
        = some (grown, memory) →
      memory.endOffset = 8589934592 ∧ memory.type = t ∧ memory.numPages ≤ t.size.max := by
    intro grown memory hgrow
    rcases growMemory_cases P _ memory _ grown hgrow with rfl | ⟨-, hk, -, rfl⟩
    · exact ⟨rfl, rfl, Nat.zero_le _⟩
    · refine ⟨rfl, rfl, ?_⟩
      have h0 : (reservedMemory P compartment t).numPages = 0 := rfl
      have ht : (reservedMemory P compartment t).type = t := rfl
      rw [ht] at hk
      simp only [h0, Nat.zero_add]
      exact Nat.le_trans (Nat.mod_le _ _) hk
  rw [createMemory_unfold] at hcall
  split at hcall
  · split at hcall
    · cases hcall
    · simp only [Option.some.injEq] at hcall
      rw [← hcall] at hmem
      cases hmem
  · cases hgrow : growMemory P (reservedMemory P compartment t) (t.size.min % wordSize) with
    | none => simp [hgrow] at hcall
    | some pair =>
      obtain ⟨grown, memory⟩ := pair
      obtain ⟨hend, htype, hnum⟩ := key grown memory hgrow
      simp only [hgrow] at hcall
      split at hcall
      · split at hcall
        · cases hcall
        · simp only [Option.some.injEq] at hcall
          rw [← hcall] at hmem
          cases hmem
      · cases compartment with
        | none =>
          simp only [Option.some.injEq] at hcall
          rw [← hcall] at hmem
          simp only [Option.some.injEq, Prod.mk.injEq] at hmem
          rw [← hmem.2]
          exact ⟨hend, htype, hnum⟩
        | some c =>
          simp only [] at hcall
          split at hcall
          · split at hcall
            · cases hcall
            · simp only [Option.some.injEq] at hcall
              rw [← hcall] at hmem
              cases hmem
          · simp only [Option.some.injEq] at hcall
            rw [← hcall] at hmem
            simp only [Option.some.injEq, Prod.mk.injEq] at hmem
            rw [← hmem.2]
            exact ⟨hend, htype, hnum⟩

/-- A page count within a cap that fits the reservation stays so through any sequence
of `growMemory` and `shrinkMemory` calls. -/
theorem applyMemoryOps_within (P : Platform) :
    ∀ (ops : List MemoryOp) (m m1 : MemoryInstance),
      m.numPages ≤ m.type.size.max → m.type.size.max * 65536 ≤ m.endOffset →
      m.endOffset < wordSize → applyMemoryOps P m ops = some m1 →
      m1.numPages * 65536 ≤ m1.endOffset
  | [], m, m1, hnum, hmax, _, hrun => by
    simp only [applyMemoryOps, Option.some.injEq] at hrun
    rw [← hrun]
    exact Nat.le_trans (Nat.mul_le_mul_right _ hnum) hmax
  | MemoryOp.grow k :: rest, m, m1, hnum, hmax, hend, hrun => by
    cases hcall : growMemory P m k with
    | none => simp [applyMemoryOps, hcall] at hrun
    | some pair =>
      obtain ⟨r, m2⟩ := pair
      simp only [applyMemoryOps, hcall] at hrun
      rcases growMemory_cases P m m2 k r hcall with rfl | ⟨-, hk, hguard, rfl⟩
      · exact applyMemoryOps_within P rest m2 m1 hnum hmax hend hrun
      · have hnum2 : (m.numPages + k) % wordSize ≤ m.type.size.max := by
          unfold wordSize at hguard hend ⊢
          omega
        exact applyMemoryOps_within P rest
          { m with numPages := (m.numPages + k) % wordSize } m1 hnum2 hmax hend hrun
  | MemoryOp.shrink k :: rest, m, m1, hnum, hmax, hend, hrun => by
    cases hcall : shrinkMemory P m k with
    | none => simp [applyMemoryOps, hcall] at hrun
    | some pair =>
      obtain ⟨r, m2⟩ := pair
      simp only [applyMemoryOps, hcall] at hrun
      rcases shrinkMemory_cases P m m2 k r hcall with rfl | ⟨-, hk, hguard, rfl⟩
      · exact applyMemoryOps_within P rest m2 m1 hnum hmax hend hrun
      · have hnum2 : (m.numPages + wordSize - k) % wordSize ≤ m.type.size.max := by
          unfold wordSize at hguard hend ⊢
          omega
        exact applyMemoryOps_within P rest
          { m with numPages := (m.numPages + wordSize - k) % wordSize } m1 hnum2 hmax hend hrun

theorem applyMemoryOps_returns (P : Platform) (hP : P.pageSizeLog2 ≤ numBytesPerPageLog2) :
    ∀ (ops : List MemoryOp) (m : MemoryInstance), ∃ m1, applyMemoryOps P m ops = some m1
  | [], m => ⟨m, rfl⟩
  | MemoryOp.grow k :: rest, m => by
    obtain ⟨r, m2, hcall⟩ := growMemory_returns P m k hP
    obtain ⟨m1, hrest⟩ := applyMemoryOps_returns P hP rest m2
    exact ⟨m1, by simp only [applyMemoryOps, hcall, hrest]⟩
  | MemoryOp.shrink k :: rest, m => by
    obtain ⟨r, m2, hcall⟩ := shrinkMemory_returns P m k hP
    obtain ⟨m1, hrest⟩ := applyMemoryOps_returns P hP rest m2
    exact ⟨m1, by simp only [applyMemoryOps, hcall, hrest]⟩

/-- C22, as stated, fails: a memory created with the type `{min: 0, max: 200000}` and
grown by 200000 pages on a platform where every commit succeeds has `endOffset` 8 GiB
and 200000 pages, and `200000 * 65536` exceeds 8 GiB. -/
theorem numPages_exceeds_reservation :
    (createMemory platformOk 4 8192 (some compartmentEmpty) typeBeyondReservation []).bind
        (fun res => res.memory.bind (fun p =>
          (applyMemoryOps platformOk p.2 [MemoryOp.grow 200000]).map (fun m1 =>
            (m1.endOffset, m1.numPages, decide (m1.numPages * 65536 ≤ m1.endOffset)))))
      = some (8589934592, 200000, false) := by
  decide

/-- C22, amended: for every memory returned by `createMemory` whose type has a cap that
fits the reservation (`type.size.max * 65536 ≤ 8 GiB`, whatever `type.size.min`),
`endOffset` is 8 GiB and `numPages * 65536 ≤ endOffset` holds after every sequence of
`growMemory` and `shrinkMemory` calls on it; on a platform with a usable page size every
such sequence runs to its end. -/
theorem numPages_within_reservation (P : Platform) (maxMemories self : Nat)
    (compartment : Option Compartment) (t : MemoryType) (registry : List Nat)
    (res : CreateMemoryResult) (p : Nat) (m : MemoryInstance)
    (ht : t.size.max * 65536 ≤ 8589934592)
    (hcall : createMemory P maxMemories self compartment t registry = some res)
    (hmem : res.memory = some (p, m)) :
    m.endOffset = 8589934592 ∧
      (∀ ops m1, applyMemoryOps P m ops = some m1 → m1.numPages * 65536 ≤ m1.endOffset) ∧
      (P.pageSizeLog2 ≤ numBytesPerPageLog2 →
        ∀ ops, ∃ m1, applyMemoryOps P m ops = some m1) := by
  obtain ⟨hend, htype, hnum⟩ :=
    createMemory_returned P maxMemories self compartment t registry res p m hcall hmem
  refine ⟨hend, ?_, fun hP ops => applyMemoryOps_returns P hP ops m⟩
  intro ops m1 hrun
  refine applyMemoryOps_within P ops m m1 ?_ ?_ ?_ hrun
  · rw [htype]
    exact hnum
  · rw [htype, hend]
    exact ht
  · rw [hend]
    unfold wordSize
    decide

/-- The memory of scenario S5, created and then grown by 2, grown by 1 (refused) and
shrunk by 1. -/
theorem numPages_within_reservation_witness :
    ({ reservedMemory platformOk none memS5.type with numPages := 1 } : MemoryInstance).endOffset
        = 8589934592 ∧
      ∃ m1, applyMemoryOps platformOk
          { reservedMemory platformOk none memS5.type with numPages := 1 }
          [MemoryOp.grow 2, MemoryOp.grow 1, MemoryOp.shrink 1] = some m1 ∧
        m1.numPages * 65536 ≤ m1.endOffset :=
  have h := numPages_within_reservation platformOk 4 8192 none memS5.type []
    { memory := some (8192, { reservedMemory platformOk none memS5.type with numPages := 1 }),
      compartment := none, registry := [8192] }
    8192 { reservedMemory platformOk none memS5.type with numPages := 1 }
    (by decide) rfl rfl
  ⟨h.1, { reservedMemory platformOk none memS5.type with numPages := 2 }, by decide,
    h.2.1 [MemoryOp.grow 2, MemoryOp.grow 1, MemoryOp.shrink 1] _ (by decide)⟩

/-! ## Theorems about the memory table of a compartment -/

theorem destruct_returns (P : Platform) (hP : P.pageSizeLog2 ≤ numBytesPerPageLog2)
    (self : Nat) (m : MemoryInstance) (registry : List Nat) :
    MemoryInstance.destruct P self m registry = some (registry.erase self) := by
  have hpl : getPlatformPagesPerWebAssemblyPageLog2 P
      = some (numBytesPerPageLog2 - P.pageSizeLog2) := by
    unfold getPlatformPagesPerWebAssemblyPageLog2
    rw [if_pos hP]
  exact destruct_of_page_size P self m registry _ hpl

/-- With a full memory table `createMemory` returns the null pointer whenever it
returns, and on a platform with a usable page size it does return. -/
theorem createMemory_full (P : Platform) (maxMemories self : Nat) (c : Compartment)
    (t : MemoryType) (registry : List Nat) (hfull : maxMemories ≤ c.memories.length) :
    (∀ res, createMemory P maxMemories self (some c) t registry = some res →
      res.memory = none) ∧
    (P.pageSizeLog2 ≤ numBytesPerPageLog2 →
      ∃ res, createMemory P maxMemories self (some c) t registry = some res) := by
  constructor
  · intro res hcall
    rw [createMemory_unfold] at hcall
    split at hcall
    · split at hcall
      · cases hcall
      · simp only [Option.some.injEq] at hcall
        rw [← hcall]
    · cases hgrow : growMemory P (reservedMemory P (some c) t) (t.size.min % wordSize) with
      | none => simp [hgrow] at hcall
      | some pair =>
        obtain ⟨grown, memory⟩ := pair
        simp only [hgrow] at hcall
        split at hcall
        · split at hcall
          · cases hcall
          · simp only [Option.some.injEq] at hcall
            rw [← hcall]
        · split at hcall
          · cases hcall
          · simp only [Option.some.injEq] at hcall
            rw [← hcall]
  · intro hP
    obtain ⟨grown, memory, hgrow⟩ :=
      growMemory_returns P (reservedMemory P (some c) t) (t.size.min % wordSize) hP
    rw [createMemory_unfold]
    simp only [hgrow, destruct_returns P hP, if_pos hfull]
    split
    · exact ⟨_, rfl⟩
    · split
      · exact ⟨_, rfl⟩
      · exact ⟨_, rfl⟩

/-- The memory table after `createMemory`: one pointer longer when a memory is returned,
unchanged otherwise. -/
theorem createMemory_length (P : Platform) (maxMemories self : Nat) (c : Compartment)
    (t : MemoryType) (registry : List Nat) (res : CreateMemoryResult)
    (hcall : createMemory P maxMemories self (some c) t registry = some res) :
    ∃ c1, res.compartment = some c1 ∧
      c1.memories.length
        = c.memories.length + (if res.memory.isSome then 1 else 0) := by
  rw [createMemory_unfold] at hcall
  split at hcall
  · split at hcall
    · cases hcall
    · simp only [Option.some.injEq] at hcall
      rw [← hcall]
      exact ⟨c, rfl, rfl⟩
  · cases hgrow : growMemory P (reservedMemory P (some c) t) (t.size.min % wordSize) with
    | none => simp [hgrow] at hcall
    | some pair =>
      obtain ⟨grown, memory⟩ := pair
      simp only [hgrow] at hcall
      split at hcall
      · split at hcall
        · cases hcall
        · simp only [Option.some.injEq] at hcall
          rw [← hcall]
          exact ⟨c, rfl, rfl⟩
      · split at hcall
        · split at hcall
          · cases hcall
          · simp only [Option.some.injEq] at hcall
            rw [← hcall]
            exact ⟨c, rfl, rfl⟩
        · simp only [Option.some.injEq] at hcall
          rw [← hcall]
          exact ⟨_, rfl, by simp⟩

/-- The effect of `finalize` on the compartment: the two slots of the memory are nulled,
the length of the table and every other slot are as before. -/
theorem finalize_frame (self : Nat) (m : MemoryInstance) (c c1 : Compartment)
    (hcall : MemoryInstance.finalize self m c = some c1) :
    c1.memories.length = c.memories.length ∧
      c1.memories[m.id]? = some none ∧ c1.runtimeDataMemories m.id = 0 ∧
      ∀ j, j ≠ m.id →
        c1.memories[j]? = c.memories[j]? ∧
          c1.runtimeDataMemories j = c.runtimeDataMemories j := by
  unfold MemoryInstance.finalize at hcall
  split at hcall
  · cases hcall
  · rename_i hslot
    split at hcall
    · cases hcall
    · simp only [Option.some.injEq] at hcall
      have hslot2 : c.memories[m.id]? = some (some self) := by
        by_contra hne
        exact hslot hne
      have hlt : m.id < c.memories.length := by
        by_contra hge
        rw [List.getElem?_eq_none (by omega)] at hslot2
        cases hslot2
      rw [← hcall]
      refine ⟨by simp, ?_, by simp, ?_⟩
      · simp [List.getElem?_set, hlt]
      · intro j hj
        refine ⟨?_, ?_⟩
        · simp [List.getElem?_set, Ne.symm hj]
        · simp [Function.update, hj]

/-- Through any sequence of `createMemory` and `finalize` operations, the length of the
memory table grows by exactly the number of memories that `createMemory` returned. -/
theorem runCompartment_length (P : Platform) (maxMemories : Nat) :
    ∀ (ops : List CompartmentOp) (st st1 : CompartmentState),
      runCompartment P maxMemories st ops = some st1 →
      st1.compartment.memories.length + st.created
        = st.compartment.memories.length + st1.created
  | [], st, st1, hrun => by
    simp only [runCompartment, Option.some.injEq] at hrun
    rw [← hrun]
  | op :: rest, st, st1, hrun => by
    cases hstep : stepCompartment P maxMemories st op with
    | none => simp [runCompartment, hstep] at hrun
    | some st2 =>
      simp only [runCompartment, hstep] at hrun
      have ih := runCompartment_length P maxMemories rest st2 st1 hrun
      have hone : st2.compartment.memories.length + st.created
          = st.compartment.memories.length + st2.created := by
        cases op with
        | create self t =>
          simp only [stepCompartment] at hstep
          cases hcall : createMemory P maxMemories self (some st.compartment) t st.registry with
          | none => simp [hcall] at hstep
          | some res =>
            obtain ⟨c1, hc1, hlen⟩ :=
              createMemory_length P maxMemories self st.compartment t st.registry res hcall
            simp only [hcall, hc1, Option.some.injEq] at hstep
            rw [← hstep]
            simp only []
            rw [hlen]
            split <;> omega
        | finalize self m =>
          simp only [stepCompartment] at hstep
          cases hcall : MemoryInstance.finalize self m st.compartment with
          | none => simp [hcall] at hstep
          | some c1 =>
            simp only [hcall, Option.some.injEq] at hstep
            rw [← hstep]
            simp only []
            rw [(finalize_frame self m st.compartment c1 hcall).1]
      omega

/-- C28: `finalize` only nulls the slots `memories[id]` and `runtimeData.memories[id]` of
the finalized memory; the length of `compartment.memories` and every other slot are as
before. So after any sequence of `createMemory` and `finalize` operations on a
compartment that started empty, `compartment.memories.size()` is the number of
`createMemory` calls that returned a memory, and once that number has reached
`maxMemories`, `createMemory` returns the null pointer, however many of the memories
were finalized. -/
theorem compartment_slots_never_reused (P : Platform) (maxMemories : Nat)
    (st st1 : CompartmentState) (ops : List CompartmentOp)
    (hempty : st.compartment.memories = []) (hzero : st.created = 0)
    (hrun : runCompartment P maxMemories st ops = some st1) :
    (∀ self m c c1, MemoryInstance.finalize self m c = some c1 →
      c1.memories.length = c.memories.length ∧
        c1.memories[m.id]? = some none ∧ c1.runtimeDataMemories m.id = 0 ∧
        ∀ j, j ≠ m.id →
          c1.memories[j]? = c.memories[j]? ∧
            c1.runtimeDataMemories j = c.runtimeDataMemories j) ∧
    st1.compartment.memories.length = st1.created ∧
    (maxMemories ≤ st1.created →
      ∀ self t,
        (∀ res, createMemory P maxMemories self (some st1.compartment) t st1.registry
            = some res → res.memory = none) ∧
        (P.pageSizeLog2 ≤ numBytesPerPageLog2 →
          ∃ res, createMemory P maxMemories self (some st1.compartment) t st1.registry
            = some res)) := by
  have hlen : st1.compartment.memories.length = st1.created := by
    have h := runCompartment_length P maxMemories ops st st1 hrun
    rw [hempty, hzero] at h
    simpa using h
  refine ⟨fun self m c c1 h => finalize_frame self m c c1 h, hlen, ?_⟩
  intro hmax self t
  exact createMemory_full P maxMemories self st1.compartment t st1.registry
    (by rw [hlen]; exact hmax)

/-- Two creations around a finalization with `maxMemories = 2`: the table has two slots,
and a third creation returns the null pointer although the first slot is free. -/
theorem compartment_slots_never_reused_witness :
    runCompartment platformOk 2 stateEmpty opsCreateFinalizeCreate = some stateAfterOps ∧
      stateAfterOps.compartment.memories.length = stateAfterOps.created ∧
      ∃ res, createMemory platformOk 2 8208 (some stateAfterOps.compartment) memS5.type
          stateAfterOps.registry = some res ∧ res.memory = none :=
  have h := compartment_slots_never_reused platformOk 2 stateEmpty stateAfterOps
    opsCreateFinalizeCreate rfl rfl rfl
  have hfull := h.2.2 (by decide) 8208 memS5.type
  ⟨rfl, h.2.1,
    (hfull.2 (by decide)).elim (fun res hres => ⟨res, hres, hfull.1 res hres⟩)⟩

/-! ## Theorems about lane access, comparisons and vector shifts -/

theorem replace_then_extract_other (type : VectorType) (coerceIn coerceOut : Nat → Nat)
    (i j x v : Nat) (s : Stack) (hi : i < type.numLanes) (hj : j < type.numLanes)
    (hne : j ≠ i) :
    Run.bind (EMIT_SIMD_REPLACE_LANE_OP type coerceIn i (x :: v :: s))
        (EMIT_SIMD_EXTRACT_LANE_OP type coerceOut j)
      = EMIT_SIMD_EXTRACT_LANE_OP type coerceOut j (v :: s) := by
  have hrep : EMIT_SIMD_REPLACE_LANE_OP type coerceIn i (x :: v :: s)
      = Run.pure (buildVector type (fun k =>
          if k = i then coerceIn x else lane type.scalarBits k v) :: s) := by
    have hunf : EMIT_SIMD_REPLACE_LANE_OP type coerceIn i (x :: v :: s)
        = Run.bind (Vec.CreateInsertElement type (CreateBitCast v type) (coerceIn x) i)
            (fun result => Run.pure (result :: s)) := rfl
    rw [hunf]
    unfold Vec.CreateInsertElement CreateBitCast
    rw [if_pos hi, Run.pure_bind]
  have hext : ∀ w : Nat, EMIT_SIMD_EXTRACT_LANE_OP type coerceOut j (w :: s)
      = Run.pure (coerceOut (lane type.scalarBits j w) :: s) := by
    intro w
    have hunf : EMIT_SIMD_EXTRACT_LANE_OP type coerceOut j (w :: s)
        = Run.bind (Vec.CreateExtractElement type (CreateBitCast w type) j)
            (fun scalar => Run.pure (coerceOut scalar :: s)) := rfl
    rw [hunf]
    unfold Vec.CreateExtractElement CreateBitCast
    rw [if_pos hj, Run.pure_bind]
  rw [hrep, Run.pure_bind, hext, hext, lane_buildVector type _ j hj, if_neg hne, lane_mod]

/-- C29: for every lane shape, every v128 `v`, every in-range lane index `i`, every
scalar `x` and every other in-range lane index `j`, extracting lane `j` after
`replace_lane(v, i, x)` gives what extracting lane `j` of `v` gives, in every form of
`extract_lane`. -/
theorem replace_lane_frame (i j x v : Nat) (s : Stack) (hne : j ≠ i) :
    (i < 16 → j < 16 →
      Run.bind (EmitFunctionContext.i8x16_replace_lane i (x :: v :: s))
          (EmitFunctionContext.i8x16_extract_lane_s j)
        = EmitFunctionContext.i8x16_extract_lane_s j (v :: s) ∧
      Run.bind (EmitFunctionContext.i8x16_replace_lane i (x :: v :: s))
          (EmitFunctionContext.i8x16_extract_lane_u j)
        = EmitFunctionContext.i8x16_extract_lane_u j (v :: s)) ∧
    (i < 8 → j < 8 →
      Run.bind (EmitFunctionContext.i16x8_replace_lane i (x :: v :: s))
          (EmitFunctionContext.i16x8_extract_lane_s j)
        = EmitFunctionContext.i16x8_extract_lane_s j (v :: s) ∧
      Run.bind (EmitFunctionContext.i16x8_replace_lane i (x :: v :: s))
          (EmitFunctionContext.i16x8_extract_lane_u j)
        = EmitFunctionContext.i16x8_extract_lane_u j (v :: s)) ∧
    (i < 4 → j < 4 →
      Run.bind (EmitFunctionContext.i32x4_replace_lane i (x :: v :: s))
          (EmitFunctionContext.i32x4_extract_lane j)
        = EmitFunctionContext.i32x4_extract_lane j (v :: s) ∧
      Run.bind (EmitFunctionContext.f32x4_replace_lane i (x :: v :: s))
          (EmitFunctionContext.f32x4_extract_lane j)
        = EmitFunctionContext.f32x4_extract_lane j (v :: s)) ∧
    (i < 2 → j < 2 →
      Run.bind (EmitFunctionContext.i64x2_replace_lane i (x :: v :: s))
          (EmitFunctionContext.i64x2_extract_lane j)
        = EmitFunctionContext.i64x2_extract_lane j (v :: s) ∧
      Run.bind (EmitFunctionContext.f64x2_replace_lane i (x :: v :: s))
          (EmitFunctionContext.f64x2_extract_lane j)
        = EmitFunctionContext.f64x2_extract_lane j (v :: s)) := by
  refine ⟨fun hi hj => ⟨?_, ?_⟩, fun hi hj => ⟨?_, ?_⟩, fun hi hj => ⟨?_, ?_⟩,
    fun hi hj => ⟨?_, ?_⟩⟩
  · exact replace_then_extract_other llvmI8x16Type _ _ i j x v s hi hj hne
  · exact replace_then_extract_other llvmI8x16Type _ _ i j x v s hi hj hne
  · exact replace_then_extract_other llvmI16x8Type _ _ i j x v s hi hj hne
  · exact replace_then_extract_other llvmI16x8Type _ _ i j x v s hi hj hne
  · exact replace_then_extract_other llvmI32x4Type _ _ i j x v s hi hj hne
  · exact replace_then_extract_other llvmF32x4Type _ _ i j x v s hi hj hne
  · exact replace_then_extract_other llvmI64x2Type _ _ i j x v s hi hj hne
  · exact replace_then_extract_other llvmI64x2Type _ _ i j x v s hi hj hne

/-- Replacing byte 3 of the all-ones-bytes vector leaves byte 5 readable as 1; replacing
lane 0 of two 64-bit lanes leaves lane 1. -/
theorem replace_lane_frame_witness :
    Run.bind (EmitFunctionContext.i8x16_replace_lane 3 [200, v128Ones])
          (EmitFunctionContext.i8x16_extract_lane_u 5)
        = EmitFunctionContext.i8x16_extract_lane_u 5 [v128Ones] ∧
      (EmitFunctionContext.i8x16_extract_lane_u 5 [v128Ones]).outcome = Outcome.value [1] ∧
      Run.bind (EmitFunctionContext.i64x2_replace_lane 0 [77, v128Ones])
          (EmitFunctionContext.i64x2_extract_lane 1)
        = EmitFunctionContext.i64x2_extract_lane 1 [v128Ones] :=
  ⟨((replace_lane_frame 3 5 200 v128Ones [] (by decide)).1 (by decide) (by decide)).2,
   by decide,
   ((replace_lane_frame 0 1 77 v128Ones [] (by decide)).2.2.2 (by decide) (by decide)).1⟩

/-- What the lowered comparison puts in a lane: the one-bit result of `icmp`,
zero-extended to the lane width. -/
theorem compare_lane (predicate : CmpPredicate) (type : VectorType) (left right : Nat)
    (s : Stack) (i : Nat) (hi : i < type.numLanes) (hw : 0 < type.scalarBits) :
    ∃ r, EmitFunctionContext.compare predicate type type (right :: left :: s)
        = { issued := [], outcome := Outcome.value (r :: s) } ∧
      lane type.scalarBits i r
        = if icmp type.scalarBits predicate (lane type.scalarBits i left)
              (lane type.scalarBits i right) then 1 else 0 := by
  refine ⟨_, rfl, ?_⟩
  have hone : 1 < 2 ^ type.scalarBits := Nat.one_lt_two_pow (by omega)
  unfold zext createICmpWithWorkaround CreateBitCast
  rw [lane_buildVector type _ i hi,
    lane_buildVector { scalarBits := 1, numLanes := type.numLanes } _ i hi]
  split
  · exact Nat.mod_eq_of_lt hone
  · rfl

/-- C23, at a failing input: `i8x16.eq` of two equal vectors pushes the vector whose
bytes are all 1, so a lane for which the comparison holds is 1 and not the all-ones lane
255; likewise `i16x8.lt_s` puts 1, not 65535, in the lane where it holds, and 0 where it
does not. -/
theorem simd_compare_true_lane_is_one :
    (EmitFunctionContext.i8x16_eq [0, 0]).outcome = Outcome.value [v128Ones] ∧
      lane 8 0 v128Ones = 1 ∧ lane 8 0 v128Ones ≠ 2 ^ 8 - 1 ∧
      (EmitFunctionContext.i16x8_lt_s [5, 65535]).outcome = Outcome.value [1] ∧
      (EmitFunctionContext.i16x8_lt_s [65535, 5]).outcome = Outcome.value [0] := by
  decide

/-- The four integer lane shapes have a positive lane width and at least one lane. -/
theorem intShape_pos (type : VectorType)
    (ht : type = llvmI8x16Type ∨ type = llvmI16x8Type ∨ type = llvmI32x4Type
      ∨ type = llvmI64x2Type) : 0 < type.scalarBits := by
  rcases ht with rfl | rfl | rfl | rfl <;> decide

/-- Lane `i` of the masked count vector is lane `i` of the count vector modulo the lane
width. -/
theorem lane_emitVectorShiftCountMask (type : VectorType)
    (ht : type = llvmI8x16Type ∨ type = llvmI16x8Type ∨ type = llvmI32x4Type
      ∨ type = llvmI64x2Type) (c i : Nat) (hi : i < type.numLanes) :
    lane type.scalarBits i (emitVectorShiftCountMask type c)
      = lane type.scalarBits i c % type.scalarBits := by
  have hlt := lane_lt type.scalarBits i c
  unfold emitVectorShiftCountMask Vec.CreateAnd Vec.CreateVectorSplat
  simp only []
  rw [lane_buildVector type _ i hi, lane_buildVector type _ i hi]
  rcases ht with rfl | rfl | rfl | rfl
  · have h := Nat.and_pow_two_sub_one_eq_mod (lane 8 i c) 3
    norm_num [llvmI8x16Type] at h hlt ⊢
    rw [h]
    omega
  · have h := Nat.and_pow_two_sub_one_eq_mod (lane 16 i c) 4
    norm_num [llvmI16x8Type] at h hlt ⊢
    rw [h]
    omega
  · have h := Nat.and_pow_two_sub_one_eq_mod (lane 32 i c) 5
    norm_num [llvmI32x4Type] at h hlt ⊢
    rw [h]
    omega
  · have h := Nat.and_pow_two_sub_one_eq_mod (lane 64 i c) 6
    norm_num [llvmI64x2Type] at h hlt ⊢
    rw [h]
    omega

/-- The run of a vector shift whose count vector has been masked: one native shift,
defined, whose lane `i` is `f` of lane `i` of the operand and of lane `i` of the count
modulo the lane width. -/
theorem shift_masked_run (op : NativeOp) (type : VectorType)
    (ht : type = llvmI8x16Type ∨ type = llvmI16x8Type ∨ type = llvmI32x4Type
      ∨ type = llvmI64x2Type) (f : Nat → Nat → Nat) (v c : Nat) (s : Stack) :
    ∃ r, EMIT_SIMD_BINARY_OP type (fun left right =>
          Vec.shift op type f left (emitVectorShiftCountMask type right)) (c :: v :: s)
        = { issued := [{ op := op, bits := type.scalarBits, left := v,
                         right := emitVectorShiftCountMask type c }],
            outcome := Outcome.value (r :: s) } ∧
      (∀ i, i < type.numLanes →
        lane type.scalarBits i (emitVectorShiftCountMask type c) < type.scalarBits) ∧
      ∀ i, i < type.numLanes →
        lane type.scalarBits i r
          = f (lane type.scalarBits i v) (lane type.scalarBits i c % type.scalarBits)
              % 2 ^ type.scalarBits := by
  have hw := intShape_pos type ht
  have hcount : ∀ i, i < type.numLanes →
      lane type.scalarBits i (emitVectorShiftCountMask type c) < type.scalarBits := by
    intro i hi
    rw [lane_emitVectorShiftCountMask type ht c i hi]
    exact Nat.mod_lt _ hw
  have hall : (List.range type.numLanes).all
      (fun i => decide (lane type.scalarBits i (emitVectorShiftCountMask type c)
        < type.scalarBits)) = true := by
    rw [List.all_eq_true]
    intro i hi
    exact decide_eq_true (hcount i (List.mem_range.mp hi))
  refine ⟨buildVector type (fun i =>
      f (lane type.scalarBits i v)
        (lane type.scalarBits i (emitVectorShiftCountMask type c))), ?_, hcount, ?_⟩
  · have hunf : EMIT_SIMD_BINARY_OP type (fun left right =>
          Vec.shift op type f left (emitVectorShiftCountMask type right)) (c :: v :: s)
        = Run.bind (Vec.shift op type f v (emitVectorShiftCountMask type c))
            (fun result => Run.pure (result :: s)) := rfl
    rw [hunf]
    unfold Vec.shift
    rw [if_pos hall, native_bind_push]
  · intro i hi
    rw [lane_buildVector type _ i hi, lane_emitVectorShiftCountMask type ht c i hi]

/-- C24, as stated, fails: the count operand is read as a vector, so with the count 1 on
the stack `i8x16.shl` of the vector whose bytes are all 1 shifts only byte 0 (to 2);
byte 1 stays 1, where a shift by `1 mod 8` would give 2. -/
theorem simd_shift_count_is_per_lane :
    (EmitFunctionContext.i8x16_shl [1, v128Ones]).outcome
        = Outcome.value [v128OfBytes [2, 1, 1, 1, 1, 1, 1, 1, 1, 1, 1, 1, 1, 1, 1, 1]] ∧
      lane 8 1 (v128OfBytes [2, 1, 1, 1, 1, 1, 1, 1, 1, 1, 1, 1, 1, 1, 1, 1]) = 1 ∧
      lane 8 1 v128Ones * 2 ^ (1 % 8) % 2 ^ 8 = 2 := by
  decide

/-- C24, amended: for every integer lane shape in `i8x16`, `i16x8`, `i32x4`, `i64x2` with
lane width `w`, every vector operand `v` and every count operand `c`, read as a vector of
the same shape, each of `shl`, `shr_s`, `shr_u` executes one native vector shift whose
lane counts are all below `w`, and lane `i` of the result is lane `i` of `v` shifted by
lane `i` of `c` modulo `w`: the product with `2 ^ k` modulo `2 ^ w` for `shl`, the quotient
by `2 ^ k` for `shr_u`, and for `shr_s` the value whose signed reading is the floor of the
signed reading divided by `2 ^ k`. -/
theorem simd_shift_spec (type : VectorType)
    (ht : type = llvmI8x16Type ∨ type = llvmI16x8Type ∨ type = llvmI32x4Type
      ∨ type = llvmI64x2Type) (v c : Nat) (s : Stack) :
    (∃ r, (EmitFunctionContext.vshl type (c :: v :: s)).outcome = Outcome.value (r :: s) ∧
      ∀ i, i < type.numLanes →
        lane type.scalarBits i r
          = lane type.scalarBits i v * 2 ^ (lane type.scalarBits i c % type.scalarBits)
              % 2 ^ type.scalarBits) ∧
    (∃ r, (EmitFunctionContext.vshr_u type (c :: v :: s)).outcome = Outcome.value (r :: s) ∧
      ∀ i, i < type.numLanes →
        lane type.scalarBits i r
          = lane type.scalarBits i v / 2 ^ (lane type.scalarBits i c % type.scalarBits)) ∧
    (∃ r, (EmitFunctionContext.vshr_s type (c :: v :: s)).outcome = Outcome.value (r :: s) ∧
      ∀ i, i < type.numLanes →
        toSigned type.scalarBits (lane type.scalarBits i r)
          = toSigned type.scalarBits (lane type.scalarBits i v)
              / ((2 ^ (lane type.scalarBits i c % type.scalarBits) : Nat) : Int)) ∧
    (∀ x ∈ (EmitFunctionContext.vshl type (c :: v :: s)).issued
          ++ (EmitFunctionContext.vshr_u type (c :: v :: s)).issued
          ++ (EmitFunctionContext.vshr_s type (c :: v :: s)).issued,
      ∀ i, i < type.numLanes → lane type.scalarBits i x.right < type.scalarBits) := by
  have hw := intShape_pos type ht
  obtain ⟨r1, hrun1, hcount, hlane1⟩ := shift_masked_run NativeOp.shl type ht
    (fun a k => (a <<< k) % 2 ^ type.scalarBits) v c s
  obtain ⟨r2, hrun2, -, hlane2⟩ := shift_masked_run NativeOp.lshr type ht
    (fun a k => a >>> k) v c s
  obtain ⟨r3, hrun3, -, hlane3⟩ := shift_masked_run NativeOp.ashr type ht
    (fun a k => ofSigned type.scalarBits (toSigned type.scalarBits a >>> k)) v c s
  have h1 : EmitFunctionContext.vshl type (c :: v :: s) = _ := hrun1
  have h2 : EmitFunctionContext.vshr_u type (c :: v :: s) = _ := hrun2
  have h3 : EmitFunctionContext.vshr_s type (c :: v :: s) = _ := hrun3
  refine ⟨⟨r1, by rw [h1], ?_⟩, ⟨r2, by rw [h2], ?_⟩, ⟨r3, by rw [h3], ?_⟩, ?_⟩
  · intro i hi
    rw [hlane1 i hi, Nat.mod_mod, Nat.shiftLeft_eq]
  · intro i hi
    rw [hlane2 i hi, Nat.shiftRight_eq_div_pow]
    exact Nat.mod_eq_of_lt
      (Nat.lt_of_le_of_lt (Nat.div_le_self _ _) (lane_lt type.scalarBits i v))
  · intro i hi
    obtain ⟨hlo, hhi⟩ := toSigned_bounds hw (lane_lt type.scalarBits i v)
    obtain ⟨hqlo, hqhi⟩ :=
      shiftRight_range (lane type.scalarBits i c % type.scalarBits) hlo hhi
    obtain ⟨hr, hback⟩ := toSigned_ofSigned hw hqlo hqhi
    rw [hlane3 i hi, Int.shiftRight_eq_div_pow, Nat.mod_eq_of_lt hr, hback]
  · intro x hx i hi
    rw [h1, h2, h3] at hx
    simp only [List.mem_append, List.mem_singleton] at hx
    rcases hx with (rfl | rfl) | rfl <;> exact hcount i hi

/-- Shifting the 32-bit lanes `[8, 8, 8, 8]` right by the count vector `[1, 33, 2, 0]`. -/
theorem simd_shift_spec_witness :
    (EmitFunctionContext.vshr_u llvmI32x4Type
        [ofLanes 32 [1, 33, 2, 0], ofLanes 32 [8, 8, 8, 8]]).outcome
        = Outcome.value [ofLanes 32 [4, 4, 2, 8]] ∧
      ∃ r, (EmitFunctionContext.vshl llvmI32x4Type
            [ofLanes 32 [1, 33, 2, 0], ofLanes 32 [8, 8, 8, 8]]).outcome
          = Outcome.value [r] ∧
        ∀ i, i < llvmI32x4Type.numLanes →
          lane llvmI32x4Type.scalarBits i r
            = lane llvmI32x4Type.scalarBits i (ofLanes 32 [8, 8, 8, 8])
                * 2 ^ (lane llvmI32x4Type.scalarBits i (ofLanes 32 [1, 33, 2, 0])
                  % llvmI32x4Type.scalarBits)
                % 2 ^ llvmI32x4Type.scalarBits :=
  ⟨by decide,
   (simd_shift_spec llvmI32x4Type (Or.inr (Or.inr (Or.inl rfl))) (ofLanes 32 [8, 8, 8, 8])
      (ofLanes 32 [1, 33, 2, 0]) []).1⟩

/-! ## Theorems about the operand stack -/

theorem EMIT_BINARY_OP_value (type : ValueType) (emitCode : ValueType → Nat → Nat → Run Nat)
    (a b v : Nat) (s : Stack) (hv : (emitCode type a b).outcome = Outcome.value v) :
    (EMIT_BINARY_OP type emitCode (b :: a :: s)).outcome = Outcome.value (v :: s) := by
  rw [EMIT_BINARY_OP_run]
  unfold Run.bind
  rw [hv]
  rfl

theorem EMIT_UNARY_OP_value (type : ValueType) (emitCode : ValueType → Nat → Run Nat)
    (a v : Nat) (s : Stack) (hv : (emitCode type a).outcome = Outcome.value v) :
    (EMIT_UNARY_OP type emitCode (a :: s)).outcome = Outcome.value (v :: s) := by
  have hunf : EMIT_UNARY_OP type emitCode (a :: s)
      = Run.bind (emitCode type a) (fun result => Run.pure (result :: s)) := rfl
  rw [hunf]
  unfold Run.bind
  rw [hv]
  rfl

/-- C25: for `T` in `{i32, i64}` of width `n`, operands `a` and `b` of type `T` and every
operand stack `s`: lowering a binary operator on the stack with `a` pushed and then `b`
calls the operator code with `a` as left and `b` as right operand and, when that code
yields a value, leaves `s` with that one value pushed; in particular `sub` gives
`a - b`, `shl` gives `a` shifted by `b`, `shr_u` and `div_u` and `rem_u` divide `a` by a
power of two taken from `b` or by `b`, and `add`, `mul`, `and`, `or`, `xor` give their
result on `(a, b)`. A unary operator (`eqz`, `clz`, `ctz`, `popcnt`) replaces the top
value by its result and leaves the rest of the stack unchanged. -/
theorem operand_stack_discipline (type : ValueType)
    (ht : type = ValueType.i32 ∨ type = ValueType.i64) (a b : Nat) (s : Stack)
    (hb : b < 2 ^ getTypeBitWidth type) :
    (∀ (emitCode : ValueType → Nat → Nat → Run Nat) (v : Nat),
      (emitCode type a b).outcome = Outcome.value v →
      (EMIT_BINARY_OP type emitCode (b :: a :: s)).outcome = Outcome.value (v :: s)) ∧
    (∀ (emitCode : ValueType → Nat → Run Nat) (v : Nat),
      (emitCode type a).outcome = Outcome.value v →
      (EMIT_UNARY_OP type emitCode (a :: s)).outcome = Outcome.value (v :: s)) ∧
    (EmitFunctionContext.sub type (b :: a :: s)).outcome
      = Outcome.value ((a + 2 ^ getTypeBitWidth type - b) % 2 ^ getTypeBitWidth type :: s) ∧
    (EmitFunctionContext.add type (b :: a :: s)).outcome
      = Outcome.value ((a + b) % 2 ^ getTypeBitWidth type :: s) ∧
    (EmitFunctionContext.mul type (b :: a :: s)).outcome
      = Outcome.value ((a * b) % 2 ^ getTypeBitWidth type :: s) ∧
    (EmitFunctionContext.and type (b :: a :: s)).outcome = Outcome.value ((a &&& b) :: s) ∧
    (EmitFunctionContext.or type (b :: a :: s)).outcome = Outcome.value ((a ||| b) :: s) ∧
    (EmitFunctionContext.xor type (b :: a :: s)).outcome = Outcome.value ((a ^^^ b) :: s) ∧
    (EmitFunctionContext.shl type (b :: a :: s)).outcome
      = Outcome.value
          (a * 2 ^ (b % getTypeBitWidth type) % 2 ^ getTypeBitWidth type :: s) ∧
    (EmitFunctionContext.shr_u type (b :: a :: s)).outcome
      = Outcome.value (a / 2 ^ (b % getTypeBitWidth type) :: s) ∧
    (b ≠ 0 →
      (EmitFunctionContext.div_u type (b :: a :: s)).outcome = Outcome.value (a / b :: s) ∧
      (EmitFunctionContext.rem_u type (b :: a :: s)).outcome = Outcome.value (a % b :: s)) ∧
    (EmitFunctionContext.eqz type (a :: s)).outcome
      = Outcome.value ((if a = 0 then 1 else 0) :: s) ∧
    (EmitFunctionContext.clz type (a :: s)).outcome
      = Outcome.value (ctlz (getTypeBitWidth type) a :: s) ∧
    (EmitFunctionContext.ctz type (a :: s)).outcome
      = Outcome.value (cttz (getTypeBitWidth type) a :: s) ∧
    (EmitFunctionContext.popcnt type (a :: s)).outcome
      = Outcome.value (ctpop (getTypeBitWidth type) a :: s) := by
  have hpos : 0 < 2 ^ getTypeBitWidth type := Nat.pow_pos (by decide)
  refine ⟨fun emitCode v hv => EMIT_BINARY_OP_value type emitCode a b v s hv,
    fun emitCode v hv => EMIT_UNARY_OP_value type emitCode a v s hv,
    ?_, rfl, rfl, rfl, rfl, rfl, ?_, ?_, ?_, ?_, rfl, rfl, rfl⟩
  · have hsub : CreateSub (asLLVMType type) a b
        = (a + 2 ^ getTypeBitWidth type - b) % 2 ^ getTypeBitWidth type := by
      unfold CreateSub asLLVMType
      rw [Nat.mod_eq_of_lt hb, Nat.add_sub_assoc (Nat.le_of_lt hb)]
    rw [← hsub]
    rfl
  · rw [shl_run type ht, Nat.shiftLeft_eq]
  · rw [shr_u_run type ht, Nat.shiftRight_eq_div_pow]
  · intro hb0
    constructor
    · rw [div_u_run, trapDivideByZero_ne_zero type hb0, Run.pure_bind]
      unfold CreateUDiv
      rw [if_neg hb0, native_bind_push]
    · rw [rem_u_run, trapDivideByZero_ne_zero type hb0, Run.pure_bind]
      unfold CreateURem
      rw [if_neg hb0, native_bind_push]
  · show Outcome.value
        (coerceBoolToI32 (CreateICmpEQ a (typedZeroConstants type)) :: s) = _
    unfold coerceBoolToI32 CreateICmpEQ typedZeroConstants
    by_cases h0 : a = 0 <;> simp [h0]

/-- The subtraction `5 - 3`, the shift of 1 by 33 and `eqz` above a rest of the stack. -/
theorem operand_stack_discipline_witness :
    (EmitFunctionContext.i32_sub [3, 5, 77]).outcome = Outcome.value [2, 77] ∧
      (EmitFunctionContext.shl ValueType.i32 [33, 1, 77]).outcome
        = Outcome.value [1 * 2 ^ (33 % getTypeBitWidth ValueType.i32)
            % 2 ^ getTypeBitWidth ValueType.i32, 77] ∧
      (EmitFunctionContext.i32_eqz [0, 77]).outcome = Outcome.value [1, 77] :=
  ⟨(operand_stack_discipline ValueType.i32 (Or.inl rfl) 5 3 [77] (by decide)).2.2.1,
   (operand_stack_discipline ValueType.i32 (Or.inl rfl) 1 33 [77]
      (by decide)).2.2.2.2.2.2.2.2.1,
   (operand_stack_discipline ValueType.i32 (Or.inl rfl) 0 3 [77]
      (by decide)).2.2.2.2.2.2.2.2.2.2.2.1⟩

end WAVM
